import Mathlib

/-!
# qiaojun2016/basic — the HTTP gateway of `http/http.go`

A shallow embedding of `Server.Run`, the per-route request closure it registers,
the per-address limiter registry (`iPRateLimiter.ipLimiter`, `iPRateLimiter.dump`)
and the cache adapter (`cache`, `getCache`), followed by theorems about them.

Conventions of the embedding:

* a Go `[]byte`, and a Go `string` that the code slices or splices, is a list of
  bytes (`Bytes`); Go strings that are only compared or passed on are `String`;
* `time.Time` is a number of nanoseconds (`Nat`), `time.Now()` is an input;
* packages outside `http/http.go` (`token`, `cipher`, `id`, `encoding/json`) are
  fields of `Env`; the route table, the redis adapter and `rate.Limiter` are
  small executable models described at their definitions;
* every effect the closure has on a collaborator is recorded in a trace of
  `Event`s, in program order.
-/

namespace HttpGateway

/-! ## Bytes and the `bytes` package -/

/-- A Go byte slice. -/
abbrev Bytes := List UInt8

/-- The bytes of a Go string literal (`[]byte("...")`), UTF-8 encoded. -/
def str (s : String) : Bytes := s.toUTF8.data.toList

/-- `utf8.DecodeRune`, width only: the number of bytes of the first rune of `p`
(1 for an invalid or short encoding, 0 for empty input). -/
def runeLen : Bytes → Nat
  | [] => 0
  | p0 :: rest =>
    -- (size, lo, hi) of the `first` / `acceptRanges` tables; none is ASCII or invalid
    let info : Option (Nat × UInt8 × UInt8) :=
      if p0 < 0xC2 then none
      else if p0 ≤ 0xDF then some (2, 0x80, 0xBF)
      else if p0 = 0xE0 then some (3, 0xA0, 0xBF)
      else if p0 = 0xED then some (3, 0x80, 0x9F)
      else if p0 ≤ 0xEF then some (3, 0x80, 0xBF)
      else if p0 = 0xF0 then some (4, 0x90, 0xBF)
      else if p0 ≤ 0xF3 then some (4, 0x80, 0xBF)
      else if p0 = 0xF4 then some (4, 0x80, 0x8F)
      else none
    match info with
    | none => 1
    | some (sz, lo, hi) =>
      if rest.length + 1 < sz then 1
      else
        match rest with
        | [] => 1
        | b1 :: rest1 =>
          if b1 < lo ∨ hi < b1 then 1
          else if sz ≤ 2 then 2
          else
            match rest1 with
            | [] => 1
            | b2 :: rest2 =>
              if b2 < 0x80 ∨ 0xBF < b2 then 1
              else if sz ≤ 3 then 3
              else
                match rest2 with
                | [] => 1
                | b3 :: _ => if b3 < 0x80 ∨ 0xBF < b3 then 1 else 4

/-- `utf8.RuneCount`, with the length of the input as fuel. -/
def runeCountAux : Nat → Bytes → Nat
  | 0, _ => 0
  | _, [] => 0
  | fuel + 1, p => 1 + runeCountAux fuel (p.drop (runeLen p))

/-- `utf8.RuneCount`. -/
def RuneCount (p : Bytes) : Nat := runeCountAux p.length p

/-- `bytes.Index(s, sep)`: the index of the first instance of `sep` in `s`;
`none` stands for Go's `-1`. -/
def Index : Bytes → Bytes → Option Nat
  | [], sep => if sep = [] then some 0 else none
  | c :: s, sep =>
    if sep.isPrefixOf (c :: s) then some 0 else (Index s sep).map (· + 1)

/-- The loop of `bytes.Count` for a non-empty separator, with the length of the
input as fuel: count an instance, continue after it. -/
def countAux (sep : Bytes) : Nat → Bytes → Nat
  | 0, _ => 0
  | fuel + 1, s =>
    match Index s sep with
    | none => 0
    | some i => 1 + countAux sep fuel (s.drop (i + sep.length))

/-- `bytes.Count(s, sep)`: the number of non-overlapping instances of `sep` in
`s`; for an empty `sep`, one more than the number of runes of `s`. -/
def Count (s sep : Bytes) : Nat :=
  if sep = [] then RuneCount s + 1 else countAux sep (s.length + 1) s

/-- The replacement loop of `bytes.Replace` on the unread suffix `rest = s[start:]`:
`n` replacements remain, `first` says whether this is iteration `i = 0`. -/
def replaceLoop (old new : Bytes) : Nat → Bool → Bytes → Bytes
  | 0, _, rest => rest
  | n + 1, first, rest =>
    let j : Nat :=
      if old = [] then (if first then 0 else runeLen rest)
      else (Index rest old).getD 0
    rest.take j ++ new ++ replaceLoop old new n false (rest.drop (j + old.length))

/-- `bytes.Replace(s, old, new, n)`: a copy of `s` with the first `n`
non-overlapping instances of `old` replaced by `new` (all of them if `n < 0`). -/
def Replace (s old new : Bytes) (n : Int) : Bytes :=
  let m : Nat := if n ≠ 0 then Count s old else 0
  if m = 0 then s
  else
    let k : Nat := if n < 0 ∨ (m : Int) < n then m else n.toNat
    replaceLoop old new k true s

/-! ## Constants and data (`http/http.go`, lines 50-101) -/

/-- A `time.Time` or `time.Duration`, in nanoseconds. -/
abbrev Time := Nat

/-- The name of the signature header. -/
def contentSign : String := "Content-Sign"

/-- The largest number of requests of one address within an alive period. -/
def maxRequestCount : Nat := 2000

/-- The period of the sweep, `10 * time.Minute`. -/
def dumpPeriod : Time := 10 * (60 * 1000000000)

/-- The alive period of an address, `10 * time.Minute`. -/
def maxAliveTime : Time := 10 * (60 * 1000000000)

/-- `CORSConfig`. -/
structure CORSConfig where
  AllowedOrigins : List String

/-- `Server`. `Rate` is a `rate.Limit` (a `float64` number of tokens per second);
whole rates are modelled. `CorsCfg` is a pointer, `none` is nil. -/
structure Server where
  Addr : String
  MaxPayloadBytes : Int
  MaxHeaderBytes : Int
  Rate : Int
  Burst : Int
  ReadTimeout : Int
  WriteTimeout : Int
  Web : Bool
  UserAgent : Bytes
  CorsCfg : Option CORSConfig

/-- The envelope fields `auth` that `json.Unmarshal` extracts from the body:
`t`, `d` and `v`. -/
structure auth where
  Token : Bytes
  DeviceId : Bytes
  Version : Int

/-- A JSON-like tree, for handler results that are not byte slices. -/
inductive Json where
  | null
  | bool (b : Bool)
  | num (n : Int)
  | text (s : String)
  | arr (xs : List Json)
  | obj (fields : List (String × Json))
  | unsupported

/-- A handler result, a Go `interface{}`: nil, a `[]byte`, or anything else. -/
inductive Value where
  | nil
  | bytes (b : Bytes)
  | other (v : Json)

/-- The wire envelope `response`. -/
structure response where
  Version : Int
  State : String
  Data : Value

/-! ## The limiter `rate.Limiter` (golang.org/x/time/rate)

A token bucket. The library keeps the tokens in a `float64`; the model keeps
them as an integer number of units of 10⁻⁹ token, so that `elapsed` nanoseconds
at `limit` tokens per second add `elapsed * limit` units, and a debt of `d`
units is repaid in `d / limit` nanoseconds. The model follows the steps of
`advance`, `durationFromTokens` and `reserveN` in this exact arithmetic: the
wait for a missing fraction of a token is truncated to whole nanoseconds, a
request whose truncated wait is zero is granted, and the bucket is then left
overdrawn by that fraction. The rounding of the `float64` operations is not
represented; it can change the verdict only where the exact wait lies within a
rounding error of a whole nanosecond. Only the finite limits that `Run` creates
limiters with are modelled. -/

/-- One token, in bucket units. -/
def oneToken : Nat := 1000000000

/-- `rate.InfDuration`, the wait reported when no wait is long enough. -/
def InfDuration : Int := 9223372036854775807

/-- The state of a `rate.Limiter`. -/
structure Limiter where
  limit : Nat
  burst : Int
  tokens : Int
  last : Time
  deriving DecidableEq

/-- `rate.NewLimiter(r, b)`: a bucket of size `b`, initially full. -/
def NewLimiter (r : Int) (b : Int) : Limiter :=
  { limit := r.toNat, burst := b, tokens := b * oneToken, last := 0 }

/-- `Limit.tokensFromDuration`: the units that `d` nanoseconds add. -/
def tokensFromDuration (limit : Nat) (d : Nat) : Int :=
  ((d * limit : Nat) : Int)

/-- `Limit.durationFromTokens`: the whole nanoseconds in which `tokens` units
accumulate, truncated as the conversion to `time.Duration` does. -/
def durationFromTokens (limit : Nat) (tokens : Int) : Int :=
  if limit = 0 then InfDuration
  else if tokens / (limit : Int) > InfDuration then InfDuration
  else tokens / (limit : Int)

/-- `Limiter.advance`: the tokens available at time `t`. -/
def Limiter.advance (lim : Limiter) (t : Time) : Int :=
  let last := if t < lim.last then t else lim.last
  let elapsed := t - last
  let tokens := lim.tokens + tokensFromDuration lim.limit elapsed
  if lim.burst * oneToken < tokens then lim.burst * oneToken else tokens

/-- `Limiter.Allow()` at time `t` (`reserveN(t, 1, 0)`): the request takes one
token; it is granted when the bucket is at least that large and the wait for
what is then missing is zero nanoseconds, and the bucket keeps the remainder,
which may be negative. A refused request leaves the bucket alone. -/
def Limiter.Allow (lim : Limiter) (t : Time) : Bool × Limiter :=
  let tokens := lim.advance t - oneToken
  let waitDuration : Int := if tokens < 0 then durationFromTokens lim.limit (-tokens) else 0
  if 1 ≤ lim.burst ∧ waitDuration ≤ 0 then
    (true, { lim with last := t, tokens := tokens })
  else (false, lim)

/-! ## The registry of addresses (lines 88-143) -/

/-- `iPItem`: request count, last activity, limiter. -/
structure iPItem where
  count : Nat
  lastDate : Time
  limiter : Limiter
  deriving DecidableEq

/-- `iPRateLimiter`; the map `ips` is a finite function from addresses. -/
structure iPRateLimiter where
  ips : String → Option iPItem
  rate : Int
  burst : Int

/-- `iPRateLimiter.ipLimiter(ip)` at time `now`: fetch or create the item of `ip`,
stamp it and count the request. -/
def iPRateLimiter.ipLimiter (i : iPRateLimiter) (ip : String) (now : Time) :
    iPRateLimiter × iPItem :=
  let ipItem : iPItem :=
    match i.ips ip with
    | some item => item
    | none => { count := 0, lastDate := 0, limiter := NewLimiter i.rate i.burst }
  let ipItem : iPItem := { ipItem with lastDate := now, count := ipItem.count + 1 }
  ({ i with ips := fun k => if k = ip then some ipItem else i.ips k }, ipItem)

/-- One pass of the sweep of `iPRateLimiter.dump` at time `now`: an address whose
alive period has ended is deleted, the count of every other one is reset. -/
def iPRateLimiter.dump (i : iPRateLimiter) (now : Time) : iPRateLimiter :=
  { i with ips := fun k =>
      match i.ips k with
      | none => none
      | some v =>
        if v.lastDate + maxAliveTime < now then none
        else some { v with count := 0 } }

/-! ## The route table (package `http/route`)

The package lies outside `http/http.go`; a route is what the closure reads of
it: the switches compared with `Enable`, the minimum version, the content type
and the four handler getters, of which `Handle()` is never nil. A handler is a
function of its arguments returning `(result, err)`. -/

/-- Modelled from the spec: the type of the capability flags of a route, declared
in `http/route`; a flag is enabled or disabled, and the closure only tests
`== Enable`. -/
inductive Switch where
  | Enable
  | Disable
  deriving DecidableEq

export Switch (Enable Disable)

/-- Modelled from the spec: the type of the field `route.Pattern`, declared in
`http/route`: the flags requires-auth, cacheable, raw-output ("general") and
user-agent-check, and the minimum accepted client version. -/
structure RoutePattern where
  Auth : Switch
  Cache : Switch
  General : Switch
  UserAgent : Switch
  Version : Int

/-- What a handler returns: `(result interface{}, err error)`; the error is its
text. -/
abbrev HandlerOut := Value × Option String

/-- Modelled from the spec: the type `Route`, declared in `http/route`: the
pattern metadata, the declared content type and the handler getters
`IpHandle()`, `SessionHandle()`, `UserAgentHandle()` (nil when not bound, here
`none`) and `Handle()`, the default shape that every valid route has. -/
structure Route where
  Pattern : RoutePattern
  ContentType : String
  ipHandle : Option (String → String → Bytes → HandlerOut)
  sessionHandle : Option (String → Bytes → HandlerOut)
  userAgentHandle : Option (Bytes → String → Bytes → HandlerOut)
  handle : String → Bytes → HandlerOut

/-! ## Collaborators -/

/-- Modelled from the spec: a decoded `token.Token`, declared in package
`token`: identity id (`Id`), session id (`Session()`) and access-key material
(`AccessKeyID()`). -/
structure Token where
  Id : Int
  session : Int
  accessKeyID : Bytes

/-- The functions of other packages that the closure calls, taken as parameters.
An `Except` or `Option` result is the Go `error`. -/
structure Env where
  /-- `json.Unmarshal(paramByte, userAuth)`. -/
  unmarshalAuth : Bytes → Except String auth
  /-- `json.Marshal` of the flattened query map. -/
  marshalQuery : List (String × String) → Except String Bytes
  /-- `json.Marshal` of a `response`. -/
  marshal : response → Except String Bytes
  /-- `token.Token.Decode`. -/
  tokenDecode : Bytes → Option Token
  /-- `cipher.CheckSign(sig, data, key)`. -/
  checkSign : String → Bytes → Bytes → Bool
  /-- `cipher.Sign(data, key)`. -/
  sign : Bytes → Bytes → String
  /-- `id.SId.ToString`. -/
  sidToString : Int → String
  /-- The verb `%v` of `fmt` on a handler result. -/
  fmtValue : Value → String

/-- Modelled from the spec: the store behind `redis.Redis`, declared in package
`redis`: it is consumed by get and set by (pattern, key), `lookup` giving the
bytes or a miss, `store` failing when the cache is unavailable. A miss and an
unavailable store are errors of `HGet`. -/
structure Store where
  up : Bool
  data : String → Bytes → Option Bytes

/-- `redis.Redis.HGet(pattern, key)`. -/
def Store.HGet (s : Store) (pattern : String) (key : Bytes) : Except String Bytes :=
  if s.up then
    match s.data pattern key with
    | some v => .ok v
    | none => .error "redis: nil"
  else .error "redis: unavailable"

/-- `redis.Redis.HSet(pattern, key, value)`. -/
def Store.HSet (s : Store) (pattern : String) (key value : Bytes) : Except String Store :=
  if s.up then
    .ok { s with data := fun p k => if p = pattern ∧ k = key then some value else s.data p k }
  else .error "redis: unavailable"

/-! ## Requests, responses, effects -/

/-- What the closure reads of `*http.Request`, and the two clock readings it
causes. `query` is `r.URL.Query()`, `body` the bytes the client sends, `readErr`
a transport failure while reading them. -/
structure Request where
  realIp : String
  Method : String
  origin : String
  userAgent : Bytes
  sig : String
  query : List (String × List String)
  body : Bytes
  readErr : Bool
  now : Time
  nowAllow : Time

/-- The response headers: the `Set` calls, latest first. -/
abbrev Header := List (String × String)

/-- `Header.Set`. -/
def Header.set (h : Header) (k v : String) : Header := (k, v) :: h.filter (fun e => e.1 ≠ k)

/-- `Header.Get`. -/
def Header.get (h : Header) (k : String) : String := (h.lookup k).getD ""

/-- What is written to the `http.ResponseWriter`. -/
structure Response where
  status : Nat
  header : Header
  body : Bytes
  deriving DecidableEq

/-- A call of the closure into a collaborator. -/
inductive Event where
  | limiterAllow (ip : String)
  | tokenDecode (token : Bytes)
  | checkSign (sig : String) (data key : Bytes)
  | sign (data key : Bytes)
  | cacheGet (pattern : String) (key : Bytes)
  | cacheSet (pattern : String) (key value : Bytes)
  | userAgentHandle (userAgent : Bytes) (id : String) (body : Bytes)
  | sessionHandle (session : String) (body : Bytes)
  | ipHandle (ip : String) (id : String) (body : Bytes)
  | handle (id : String) (body : Bytes)
  deriving DecidableEq

/-- The event reads or writes the cache. -/
def Event.isCache : Event → Bool
  | .cacheGet _ _ => true
  | .cacheSet _ _ _ => true
  | _ => false

/-- The event writes the cache. -/
def Event.isCacheSet : Event → Bool
  | .cacheSet _ _ _ => true
  | _ => false

/-- The event invokes a handler. -/
def Event.isHandler : Event → Bool
  | .userAgentHandle _ _ _ => true
  | .sessionHandle _ _ => true
  | .ipHandle _ _ _ => true
  | .handle _ _ => true
  | _ => false

/-- What the handler call recorded by an event returned: the handler of that
shape bound on the route, applied to the recorded arguments; `none` for an event
that is no handler call or names a shape that the route does not bind. -/
def Event.returned (route : Route) : Event → Option HandlerOut
  | .userAgentHandle userAgent id body => route.userAgentHandle.map (fun f => f userAgent id body)
  | .sessionHandle session body => route.sessionHandle.map (fun f => f session body)
  | .ipHandle ip id body => route.ipHandle.map (fun f => f ip id body)
  | .handle id body => some (route.handle id body)
  | _ => none

/-- The result of serving one request: the response (`none` when the closure
panics before writing one), the trace, and the shared state afterwards. -/
structure Outcome where
  resp : Option Response
  trace : List Event
  limiter : iPRateLimiter
  redis : Option Store

/-! ## The cache adapter (lines 145-177) -/

/-- The function `cache`: drop the token and the device id from `param` and
store `result` under what is left. `rds` is the global `redis.Redis`. A failure
of `HSet` is logged and nothing else. -/
def cache (rds : Option Store) (userAuth : auth) (pattern : String) (param result : Bytes) :
    Option Store × List Event :=
  match rds with
  | some store =>
    let param := Replace param userAuth.Token [] 1
    let param := Replace param userAuth.DeviceId [] 1
    match store.HSet pattern param result with
    | .error _ => (some store, [Event.cacheSet pattern param result])
    | .ok store1 => (some store1, [Event.cacheSet pattern param result])
  | none => (none, [])

/-- The function `getCache`: drop the token and the device id from `param` and
look up what is left. -/
def getCache (rds : Option Store) (userAuth : auth) (pattern : String) (param : Bytes) :
    Except String Bytes × List Event :=
  match rds with
  | some store =>
    let param := Replace param userAuth.Token [] 1
    let param := Replace param userAuth.DeviceId [] 1
    (store.HGet pattern param, [Event.cacheGet pattern param])
  | none => (.error "redis not run", [])

/-! ## The request closure of `Server.Run` (lines 222-569) -/

def StatusOK : Nat := 200
def StatusNoContent : Nat := 204
def StatusForbidden : Nat := 403
def StatusNotAcceptable : Nat := 406
def StatusGone : Nat := 410
def StatusRequestEntityTooLarge : Nat := 413
def StatusTooManyRequests : Nat := 429
def StatusInternalServerError : Nat := 500

/-- Whether `net/http` sends a body with the status. -/
def bodyAllowedForStatus (code : Nat) : Bool :=
  !((100 ≤ code ∧ code ≤ 199) || code = 204 || code = 304)

/-- The call `http.Error(w, msg, code)` on a writer whose headers are `hdr`. -/
def httpError (hdr : Header) (msg : String) (code : Nat) : Response :=
  { status := code
    header := (hdr.set "Content-Type" "text/plain; charset=utf-8").set
      "X-Content-Type-Options" "nosniff"
    body := if bodyAllowedForStatus code then str msg ++ [10] else [] }

/-- Admission, lines 230-253: when limiting is on, count the request of the
address, reject a high-frequency address, and otherwise ask its bucket. The
result is the registry afterwards, the trace, and the error text of a rejection. -/
def admission (h : Server) (iPLimiter : iPRateLimiter) (r : Request) :
    iPRateLimiter × List Event × Option String :=
  if h.Rate > 0 ∧ h.Burst > 0 then
    let got := iPLimiter.ipLimiter r.realIp r.now
    let ipItem := got.2
    if ipItem.count > maxRequestCount then
      (got.1, [], some (r.realIp ++ "判定为高频请求ip"))
    else
      let allowed := ipItem.limiter.Allow r.nowAllow
      let after : iPRateLimiter :=
        { got.1 with ips := fun k =>
            if k = r.realIp then some { ipItem with limiter := allowed.2 } else got.1.ips k }
      if !allowed.1 then
        (after, [Event.limiterAllow r.realIp], some (r.realIp ++ "请求过快"))
      else (after, [Event.limiterAllow r.realIp], none)
  else (iPLimiter, [], none)

/-- The headers set in cross-origin mode, lines 257-273. -/
def corsHeaders (cfg : CORSConfig) (origin : String) (hdr : Header) : Header :=
  let hdr :=
    if origin ∈ cfg.AllowedOrigins then
      ((hdr.set "Access-Control-Allow-Origin" origin).set "Vary" "Origin").set
        "Access-Control-Expose-Headers" "Content-Sign"
    else hdr
  ((((hdr.set "Access-Control-Allow-Methods" "GET, POST, PUT, DELETE, OPTIONS").set
    "Access-Control-Allow-Headers"
    "Content-Type, Authorization, X-Requested-With, Content-Sign").set
    "Cache-Control" "no-cache, no-store, must-revalidate").set "Pragma" "no-cache").set
    "Expires" "0"

/-- Transport policy, lines 255-279: the headers afterwards and whether a
preflight was answered; `none` when `h.CorsCfg` is nil and dereferenced. -/
def transport (h : Server) (r : Request) : Option (Header × Bool) :=
  if h.Web = true then
    match h.CorsCfg with
    | none => none
    | some cfg => some (corsHeaders cfg r.origin [], decide (r.Method = "OPTIONS"))
  else some ([], false)

/-- The user-agent gate, lines 283-303: whether the request is rejected. -/
def userAgentRejected (h : Server) (route : Route) (userAgent : Bytes) : Bool :=
  if h.UserAgent ≠ [] ∧ route.Pattern.UserAgent = Enable then
    if userAgent ≠ str "dev tool" then
      if (str "-*").isSuffixOf h.UserAgent then
        let ua := h.UserAgent.take (h.UserAgent.length - 2)
        !(ua.isPrefixOf userAgent)
      else decide (userAgent ≠ h.UserAgent)
    else false
  else false

/-- Body acquisition, lines 317-344: the bytes of the parameters, or the status
and text of the rejection. The query map holds at least one value per key. -/
def readParam (env : Env) (h : Server) (pattern : String) (r : Request) :
    Except (Nat × String) Bytes :=
  if r.Method = "GET" then
    match env.marshalQuery (r.query.map (fun kv => (kv.1, kv.2.headD ""))) with
    | .error _ => .error (StatusInternalServerError, pattern ++ " : " ++ "读取url参数错误")
    | .ok b => .ok b
  else if r.readErr ∨ max h.MaxPayloadBytes 0 < (r.body.length : Int) then
    .error (StatusRequestEntityTooLarge, pattern ++ " : " ++ "读取body错误")
  else .ok r.body

/-- The variables `tId`, `tSession` and `ak` of the closure. -/
structure Identity where
  tId : Int
  tSession : Int
  ak : Bytes

/-- Authentication, lines 379-410: the identity of the token, or the text of the
rejection (always with status 406), and the trace. -/
def authenticate (env : Env) (pattern : String) (route : Route) (sig : String)
    (paramByte : Bytes) (userAuth : auth) : Except String Identity × List Event :=
  if route.Pattern.Auth = Enable then
    if userAuth.Token = [] then (.error (pattern ++ " : " ++ "缺少令牌"), [])
    else
      match env.tokenDecode userAuth.Token with
      | none => (.error (pattern ++ " : " ++ "令牌错误"), [Event.tokenDecode userAuth.Token])
      | some tk =>
        let ak := tk.accessKeyID
        if !env.checkSign sig paramByte ak then
          (.error (pattern ++ " : " ++ "指纹检验失败"),
            [Event.tokenDecode userAuth.Token, Event.checkSign sig paramByte ak])
        else
          (.ok { tId := tk.Id, tSession := tk.session, ak := ak },
            [Event.tokenDecode userAuth.Token, Event.checkSign sig paramByte ak])
  else (.ok { tId := 0, tSession := 0, ak := [] }, [])

/-- The cache probe, lines 414-451: the response of a hit, if any, and the trace. -/
def cacheProbe (env : Env) (pattern : String) (route : Route) (rds : Option Store)
    (hdr : Header) (userAuth : auth) (paramByte ak : Bytes) : Option Response × List Event :=
  if route.Pattern.Cache = Enable then
    let got := getCache rds userAuth pattern paramByte
    match got.1 with
    | .error _ => (none, got.2)
    | .ok result =>
      if route.Pattern.General = Enable then
        (some { status := StatusOK, header := hdr, body := result }, got.2)
      else if route.Pattern.Auth = Enable then
        (some { status := StatusOK, header := hdr.set contentSign (env.sign result ak),
                body := result },
          got.2 ++ [Event.sign result ak])
      else (some { status := StatusOK, header := hdr, body := result }, got.2)
  else (none, [])

/-- Dispatch, lines 453-472: the bound handler is called, the user-agent one
first, then the session one, then the address one, then the default one. -/
def dispatch (env : Env) (route : Route) (r : Request) (idn : Identity) (paramByte : Bytes) :
    HandlerOut × List Event :=
  match route.userAgentHandle with
  | some f =>
    (f r.userAgent (env.sidToString idn.tId) paramByte,
      [Event.userAgentHandle r.userAgent (env.sidToString idn.tId) paramByte])
  | none =>
    match route.sessionHandle with
    | some f =>
      (f (env.sidToString idn.tSession) paramByte,
        [Event.sessionHandle (env.sidToString idn.tSession) paramByte])
    | none =>
      match route.ipHandle with
      | some f =>
        (f r.realIp (env.sidToString idn.tId) paramByte,
          [Event.ipHandle r.realIp (env.sidToString idn.tId) paramByte])
      | none =>
        (route.handle (env.sidToString idn.tId) paramByte,
          [Event.handle (env.sidToString idn.tId) paramByte])

/-- The serialization step of an enveloped route, lines 520-543: the result of
`json.Marshal`, and the store and trace after the call of `cache` that follows a
handler success. On a failure of `json.Marshal` the bytes are nil. -/
def envelope (env : Env) (pattern : String) (route : Route) (rds : Option Store)
    (userAuth : auth) (paramByte : Bytes) (out : HandlerOut) :
    Except String Bytes × Option Store × List Event :=
  match out.2 with
  | some err =>
    (env.marshal { Version := route.Pattern.Version, State := err, Data := Value.nil }, rds, [])
  | none =>
    let m := env.marshal { Version := route.Pattern.Version, State := "OK", Data := out.1 }
    let jsonBytes : Bytes :=
      match m with
      | .ok b => b
      | .error _ => []
    if route.Pattern.Cache = Enable then
      let c := cache rds userAuth pattern paramByte jsonBytes
      (m, c.1, c.2)
    else (m, rds, [])

/-- Response formatting, lines 474-568: the response, the trace and the store. -/
def format (env : Env) (pattern : String) (route : Route) (rds : Option Store)
    (hdr : Header) (userAuth : auth) (paramByte ak : Bytes) (out : HandlerOut) :
    Response × List Event × Option Store :=
  if route.Pattern.General = Enable then
    match out.2 with
    | some err => (httpError hdr (pattern ++ " : " ++ err) StatusInternalServerError, [], rds)
    | none =>
      match out.1 with
      | .nil => ({ status := StatusOK, header := hdr, body := [] }, [], rds)
      | .other v =>
        (httpError hdr (env.fmtValue (.other v) ++ " is not []byte or []uint8")
          StatusInternalServerError, [], rds)
      | .bytes res =>
        let hdr1 :=
          if route.ContentType ≠ "" then hdr.set "Content-Type" route.ContentType else hdr
        if route.Pattern.Cache = Enable then
          let c := cache rds userAuth pattern paramByte res
          ({ status := StatusOK, header := hdr1, body := res }, c.2, c.1)
        else ({ status := StatusOK, header := hdr1, body := res }, [], rds)
  else
    let e := envelope env pattern route rds userAuth paramByte out
    match e.1 with
    | .error err =>
      (httpError hdr (pattern ++ " : " ++ err) StatusInternalServerError, e.2.2, e.2.1)
    | .ok jsonBytes =>
      if route.Pattern.Auth = Enable then
        ({ status := StatusOK, header := hdr.set contentSign (env.sign jsonBytes ak),
           body := jsonBytes },
          e.2.2 ++ [Event.sign jsonBytes ak], e.2.1)
      else ({ status := StatusOK, header := hdr, body := jsonBytes }, e.2.2, e.2.1)

/-- The closure from authentication on, lines 379-568, for a request whose
parameters `paramByte` decoded to `userAuth`; `tr` is the trace so far. -/
def serveDecoded (env : Env) (pattern : String) (route : Route)
    (lim : iPRateLimiter) (rds : Option Store) (r : Request) (hdr : Header) (tr : List Event)
    (paramByte : Bytes) (userAuth : auth) : Outcome :=
  let a := authenticate env pattern route r.sig paramByte userAuth
  match a.1 with
  | .error msg =>
    { resp := some (httpError hdr msg StatusNotAcceptable), trace := tr ++ a.2,
      limiter := lim, redis := rds }
  | .ok idn =>
    let p := cacheProbe env pattern route rds hdr userAuth paramByte idn.ak
    match p.1 with
    | some hit => { resp := some hit, trace := tr ++ a.2 ++ p.2, limiter := lim, redis := rds }
    | none =>
      let d := dispatch env route r idn paramByte
      let f := format env pattern route rds hdr userAuth paramByte idn.ak d.1
      { resp := some f.1, trace := tr ++ a.2 ++ p.2 ++ d.2 ++ f.2.1, limiter := lim,
        redis := f.2.2 }

/-- The closure after the transport policy, lines 281-568; `hdr` are the headers
set so far, `tr` the trace so far. -/
def serveAdmitted (env : Env) (h : Server) (pattern : String) (route : Route)
    (lim : iPRateLimiter) (rds : Option Store) (r : Request) (hdr : Header)
    (tr : List Event) : Outcome :=
  let reject (msg : String) (code : Nat) : Outcome :=
    { resp := some (httpError hdr msg code), trace := tr, limiter := lim, redis := rds }
  if userAgentRejected h route r.userAgent then
    reject (pattern ++ " : " ++ "User-Agent 错误") StatusForbidden
  else if route.Pattern.Auth = Enable ∧ r.sig = "" then
    reject (pattern ++ " : " ++ "缺少数据签名") StatusForbidden
  else
    match readParam env h pattern r with
    | .error e => reject e.2 e.1
    | .ok paramByte =>
      if paramByte.length = 0 then reject (pattern ++ " : " ++ "body为空") StatusNoContent
      else
        match env.unmarshalAuth paramByte with
        | .error err => reject (pattern ++ " : " ++ err) StatusInternalServerError
        | .ok userAuth =>
          if userAuth.Version < route.Pattern.Version then
            reject ("client version is " ++ toString userAuth.Version ++
              ", server version is " ++ toString route.Pattern.Version ++
              ". version is too low.") StatusGone
          else serveDecoded env pattern route lim rds r hdr tr paramByte userAuth

/-- The closure that `Run` registers for `pattern` and `route`, serving request
`r` on the registry `iPLimiter` and the store `rds`. -/
def serve (env : Env) (h : Server) (pattern : String) (route : Route)
    (iPLimiter : iPRateLimiter) (rds : Option Store) (r : Request) : Outcome :=
  let adm := admission h iPLimiter r
  match adm.2.2 with
  | some msg =>
    { resp := some (httpError [] msg StatusTooManyRequests), trace := adm.2.1,
      limiter := adm.1, redis := rds }
  | none =>
    match transport h r with
    | none => { resp := none, trace := adm.2.1, limiter := adm.1, redis := rds }
    | some (hdr, true) =>
      { resp := some { status := StatusOK, header := hdr, body := [] }, trace := adm.2.1,
        limiter := adm.1, redis := rds }
    | some (hdr, false) => serveAdmitted env h pattern route adm.1 rds r hdr adm.2.1

/-! ## Reference functions for cache keys -/

/-- The key that `cache` (lines 149-150) and `getCache` (lines 164-165) derive
from the raw parameters. -/
def cacheKey (userAuth : auth) (param : Bytes) : Bytes :=
  let param := Replace param userAuth.Token [] 1
  Replace param userAuth.DeviceId [] 1

/-- The bytes `s` without the first instance of `old`. -/
def removeFirst (old : Bytes) : Bytes → Bytes
  | [] => []
  | c :: s =>
    if old.isPrefixOf (c :: s) then (c :: s).drop old.length else c :: removeFirst old s

/-- The bytes without every instance of `old`, reading from the left; `skip`
bytes of an instance being removed are still to be dropped. -/
def removeAllAux (old : Bytes) : Nat → Bytes → Bytes
  | _, [] => []
  | skip + 1, _ :: s => removeAllAux old skip s
  | 0, c :: s =>
    if old ≠ [] ∧ old.isPrefixOf (c :: s) then removeAllAux old (old.length - 1) s
    else c :: removeAllAux old 0 s

/-- The bytes `s` without every instance of `old`. -/
def removeAll (old s : Bytes) : Bytes := removeAllAux old 0 s

/-- Raw parameters made of the common bytes `a`, `b`, `c`, a token and a device
id, the token field coming first or second. -/
def rawParams (tokenFirst : Bool) (a b c token deviceId : Bytes) : Bytes :=
  if tokenFirst then a ++ token ++ b ++ deviceId ++ c
  else a ++ deviceId ++ b ++ token ++ c

/-- The first instance of the token in the raw parameters is the value of the
token field, and the first instance of the device id in what is left once the
token is gone is the value of the device-id field (an empty value has nothing
to remove). -/
def OwnInstancesFirst (tokenFirst : Bool) (a b c token deviceId : Bytes) : Prop :=
  if tokenFirst then
    (token = [] ∨ Index (a ++ token ++ (b ++ deviceId ++ c)) token = some a.length) ∧
    (deviceId = [] ∨ Index ((a ++ b) ++ deviceId ++ c) deviceId = some (a ++ b).length)
  else
    (token = [] ∨
      Index ((a ++ deviceId ++ b) ++ token ++ c) token = some (a ++ deviceId ++ b).length) ∧
    (deviceId = [] ∨ Index (a ++ deviceId ++ (b ++ c)) deviceId = some a.length)

instance (tokenFirst : Bool) (a b c token deviceId : Bytes) :
    Decidable (OwnInstancesFirst tokenFirst a b c token deviceId) := by
  unfold OwnInstancesFirst
  infer_instance

/-! ## The gates of the closure, as conditions on a request -/

/-- The request passes admission, is not answered as a preflight (the transport
policy leaves the headers `hdr`), and passes the user-agent gate. -/
def PassesUserAgentGate (h : Server) (route : Route) (iPLimiter : iPRateLimiter)
    (r : Request) (hdr : Header) : Prop :=
  (admission h iPLimiter r).2.2 = none ∧ transport h r = some (hdr, false) ∧
    userAgentRejected h route r.userAgent = false

/-- The request passes the signature-presence gate of lines 305-315. -/
def PassesSignaturePresence (route : Route) (r : Request) : Prop :=
  ¬ (route.Pattern.Auth = Enable ∧ r.sig = "")

/-- The body gates: the parameters are acquired as `paramByte`, are not empty,
and decode to the envelope `userAuth`. -/
def DecodesTo (env : Env) (h : Server) (pattern : String) (r : Request)
    (paramByte : Bytes) (userAuth : auth) : Prop :=
  readParam env h pattern r = .ok paramByte ∧ paramByte ≠ [] ∧
    env.unmarshalAuth paramByte = .ok userAuth

/-- The request passes every gate before authentication: admission, transport,
user agent, signature presence, body, decode and version. -/
def ReachesAuthentication (env : Env) (h : Server) (pattern : String) (route : Route)
    (iPLimiter : iPRateLimiter) (r : Request) (hdr : Header) (paramByte : Bytes)
    (userAuth : auth) : Prop :=
  PassesUserAgentGate h route iPLimiter r hdr ∧ PassesSignaturePresence route r ∧
    DecodesTo env h pattern r paramByte userAuth ∧
    ¬ userAuth.Version < route.Pattern.Version

/-- The status of the response, 0 when none was written. -/
def Outcome.status (o : Outcome) : Nat :=
  match o.resp with
  | some resp => resp.status
  | none => 0

/-- The body of the response, empty when none was written. -/
def Outcome.body (o : Outcome) : Bytes :=
  match o.resp with
  | some resp => resp.body
  | none => []

/-- The value of a header of the response, empty when none was written. -/
def Outcome.header (o : Outcome) (k : String) : String :=
  match o.resp with
  | some resp => resp.header.get k
  | none => ""

deriving instance DecidableEq for Except
deriving instance DecidableEq for auth

instance (h : Server) (route : Route) (iPLimiter : iPRateLimiter) (r : Request) (hdr : Header) :
    Decidable (PassesUserAgentGate h route iPLimiter r hdr) := by
  unfold PassesUserAgentGate
  infer_instance

instance (route : Route) (r : Request) : Decidable (PassesSignaturePresence route r) := by
  unfold PassesSignaturePresence
  infer_instance

instance (env : Env) (h : Server) (pattern : String) (r : Request) (paramByte : Bytes)
    (userAuth : auth) : Decidable (DecodesTo env h pattern r paramByte userAuth) := by
  unfold DecodesTo
  infer_instance

instance (env : Env) (h : Server) (pattern : String) (route : Route)
    (iPLimiter : iPRateLimiter) (r : Request) (hdr : Header) (paramByte : Bytes)
    (userAuth : auth) :
    Decidable (ReachesAuthentication env h pattern route iPLimiter r hdr paramByte userAuth) := by
  unfold ReachesAuthentication
  infer_instance

/-- The event is work on a token or on a signature: `token.Decode`,
`cipher.CheckSign` or `cipher.Sign`. -/
def Event.isVerify : Event → Bool
  | .tokenDecode _ => true
  | .checkSign _ _ _ => true
  | .sign _ _ => true
  | _ => false

/-- The headers hold an entry named `k`. -/
def Header.has (h : Header) (k : String) : Bool := h.any (fun e => decide (e.1 = k))

/-- The response carries a header named `k`. -/
def Outcome.hasHeader (o : Outcome) (k : String) : Bool :=
  match o.resp with
  | some resp => resp.header.has k
  | none => false

deriving instance DecidableEq for Identity

/-- The request reaches dispatch: it passes every gate before authentication,
authentication yields the identity `idn`, and the cache probe does not answer
(the route is not cacheable, or the lookup misses). -/
def ReachesDispatch (env : Env) (h : Server) (pattern : String) (route : Route)
    (iPLimiter : iPRateLimiter) (rds : Option Store) (r : Request) (hdr : Header)
    (paramByte : Bytes) (userAuth : auth) (idn : Identity) : Prop :=
  ReachesAuthentication env h pattern route iPLimiter r hdr paramByte userAuth ∧
    (authenticate env pattern route r.sig paramByte userAuth).1 = .ok idn ∧
    (cacheProbe env pattern route rds hdr userAuth paramByte idn.ak).1 = none

instance (env : Env) (h : Server) (pattern : String) (route : Route)
    (iPLimiter : iPRateLimiter) (rds : Option Store) (r : Request) (hdr : Header)
    (paramByte : Bytes) (userAuth : auth) (idn : Identity) :
    Decidable (ReachesDispatch env h pattern route iPLimiter rds r hdr paramByte userAuth
      idn) := by
  unfold ReachesDispatch
  infer_instance

/-- The user agent `a` matches the required user agent `u`, in the words of the
specification: `a` equals `u` exactly, or `u` ends with the wildcard marker `-*`
and `a` starts with `u` without that marker. -/
def userAgentMatches (a u : Bytes) : Prop :=
  a = u ∨ (str "-*" <:+ u ∧ u.take (u.length - 2) <+: a)

instance (a u : Bytes) : Decidable (userAgentMatches a u) := by
  unfold userAgentMatches
  infer_instance

/-- The bytes that the store holds for `(pattern, key)` after the request, if
there is a store and it holds any. -/
def Outcome.stored (o : Outcome) (pattern : String) (key : Bytes) : Option Bytes :=
  match o.redis with
  | some store => store.data pattern key
  | none => none

/-! ## The configuration of `Server.Run` (lines 180-202 and 594-600) -/

/-- The receiver `h` of `Run` after the tests of lines 182-202, which fill in
the configuration that was left out. They run in the order of the source, each
on the result of the one before. -/
def Server.configured (h : Server) : Server :=
  let h : Server := if h.Addr = "" then { h with Addr := ":80" } else h
  let h : Server := if h.MaxPayloadBytes = 0 then { h with MaxPayloadBytes := 1048576 } else h
  let h : Server := if h.MaxHeaderBytes = 0 then { h with MaxHeaderBytes := 1048576 } else h
  let h : Server := if h.Rate = 0 then { h with Rate := 10 } else h
  let h : Server := if h.Burst = 0 then { h with Burst := 15 } else h
  let h : Server := if h.ReadTimeout = 0 then { h with ReadTimeout := 5 } else h
  let h : Server := if h.WriteTimeout = 0 then { h with ReadTimeout := 5 } else h
  h

/-- The duration `time.Second`, in nanoseconds. -/
def second : Int := 1000000000

/-- The fields of the `http.Server` that `Run` starts. -/
structure HttpServer where
  Addr : String
  ReadTimeout : Int
  WriteTimeout : Int
  MaxHeaderBytes : Int
  deriving DecidableEq

/-- The `http.Server` of lines 594-600, built from the configuration that the
tests of lines 182-202 left. -/
def Server.httpServer (h : Server) : HttpServer :=
  { Addr := h.configured.Addr
    ReadTimeout := h.configured.ReadTimeout * second
    WriteTimeout := h.configured.WriteTimeout * second
    MaxHeaderBytes := h.configured.MaxHeaderBytes }

/-- The registry `iPLimiter` of lines 205-210, created with the rate and the
burst that the tests of lines 182-202 left. -/
def Server.iPLimiter (h : Server) : iPRateLimiter :=
  { ips := fun _ => none, rate := h.configured.Rate, burst := h.configured.Burst }

/-! ## The content type that the client receives -/

/-- The `Content-Type` that the client receives: the header of the response when
the closure set one; otherwise, for a body that is sent and not empty, the type
that `net/http` finds by sniffing the body with `http.DetectContentType`, which
is the parameter `detect`. -/
def Response.wireContentType (detect : Bytes → String) (resp : Response) : String :=
  if resp.header.has "Content-Type" then resp.header.get "Content-Type"
  else if bodyAllowedForStatus resp.status ∧ resp.body ≠ [] then detect resp.body
  else ""

/-- The `Content-Type` that the client receives, empty when no response was
written. -/
def Outcome.wireContentType (detect : Bytes → String) (o : Outcome) : String :=
  match o.resp with
  | some resp => resp.wireContentType detect
  | none => ""

/-! ## Runs of one client (the premise of the admission claim) -/

/-- The requests that arrive at the times `ts`, after `k` earlier ones counted
from the time `base`, stay within a budget: every time of `ts` is at or after
`base`, and when the `j`-th of them arrives the `k + j + 1` requests counted so
far need no more than `budget` units plus what `rate` tokens per second have
added since `base`. -/
def Ahead (rate : Nat) (budget : Int) (base : Time) : Nat → List Time → Prop
  | _, [] => True
  | k, t :: rest =>
    base ≤ t ∧ ((k : Int) + 1) * oneToken ≤ budget + (((t - base) * rate : Nat) : Int) ∧
      Ahead rate budget base (k + 1) rest

/-- Arrival times that stay below the rate `rate` (tokens per second) and the
burst `burst`: the times do not decrease, and any stretch of consecutive
requests, from one arriving at `t` to a later one arriving at `u`, counts at
most `burst` requests plus one for every token that `rate` adds in `u - t`. -/
def BelowRateAndBurst (rate : Nat) (burst : Int) : List Time → Prop
  | [] => True
  | t :: rest =>
    (oneToken : Int) ≤ burst * oneToken ∧ Ahead rate (burst * oneToken) t 1 rest ∧
      BelowRateAndBurst rate burst rest

/-- Deciding `Ahead`. -/
def decideAhead (rate : Nat) (budget : Int) (base : Time) :
    (k : Nat) → (ts : List Time) → Decidable (Ahead rate budget base k ts)
  | _, [] => isTrue trivial
  | k, t :: rest =>
    have := decideAhead rate budget base (k + 1) rest
    inferInstanceAs (Decidable (base ≤ t ∧
      ((k : Int) + 1) * oneToken ≤ budget + (((t - base) * rate : Nat) : Int) ∧
        Ahead rate budget base (k + 1) rest))

instance (rate : Nat) (budget : Int) (base : Time) (k : Nat) (ts : List Time) :
    Decidable (Ahead rate budget base k ts) := decideAhead rate budget base k ts

/-- Deciding `BelowRateAndBurst`. -/
def decideBelowRateAndBurst (rate : Nat) (burst : Int) :
    (ts : List Time) → Decidable (BelowRateAndBurst rate burst ts)
  | [] => isTrue trivial
  | t :: rest =>
    have := decideBelowRateAndBurst rate burst rest
    inferInstanceAs (Decidable ((oneToken : Int) ≤ burst * oneToken ∧
      Ahead rate (burst * oneToken) t 1 rest ∧ BelowRateAndBurst rate burst rest))

instance (rate : Nat) (burst : Int) (ts : List Time) :
    Decidable (BelowRateAndBurst rate burst ts) := decideBelowRateAndBurst rate burst ts

/-- What reaches the registry during a run of one client: a request of the
client arriving at a time, a pass of the sweep at a time, or a request of
someone else. -/
inductive Step where
  | request (t : Time)
  | sweep (now : Time)
  | other (r : Request)

/-- The arrival times of the requests of a run. -/
def requestTimes : List Step → List Time
  | [] => []
  | Step.request t :: rest => t :: requestTimes rest
  | Step.sweep _ :: rest => requestTimes rest
  | Step.other _ :: rest => requestTimes rest

/-- The requests of a run number at most `maxRequestCount` between two sweeps,
`count` of them having arrived since the last sweep. -/
def WithinCount : Nat → List Step → Prop
  | _, [] => True
  | count, Step.request _ :: rest => count + 1 ≤ maxRequestCount ∧ WithinCount (count + 1) rest
  | _, Step.sweep _ :: rest => WithinCount 0 rest
  | count, Step.other _ :: rest => WithinCount count rest

/-- Deciding `WithinCount`. -/
def decideWithinCount : (count : Nat) → (steps : List Step) → Decidable (WithinCount count steps)
  | _, [] => isTrue trivial
  | count, Step.request _ :: rest =>
    have := decideWithinCount (count + 1) rest
    inferInstanceAs (Decidable (count + 1 ≤ maxRequestCount ∧ WithinCount (count + 1) rest))
  | _, Step.sweep _ :: rest => decideWithinCount 0 rest
  | count, Step.other _ :: rest => decideWithinCount count rest

instance (count : Nat) (steps : List Step) : Decidable (WithinCount count steps) :=
  decideWithinCount count steps

/-- The requests of someone else in a run come from other addresses than `ip`. -/
def Foreign (ip : String) : List Step → Prop
  | [] => True
  | Step.other r :: rest => r.realIp ≠ ip ∧ Foreign ip rest
  | _ :: rest => Foreign ip rest

/-- Deciding `Foreign`. -/
def decideForeign (ip : String) : (steps : List Step) → Decidable (Foreign ip steps)
  | [] => isTrue trivial
  | Step.other r :: rest =>
    have := decideForeign ip rest
    inferInstanceAs (Decidable (r.realIp ≠ ip ∧ Foreign ip rest))
  | Step.request _ :: rest => decideForeign ip rest
  | Step.sweep _ :: rest => decideForeign ip rest

instance (ip : String) (steps : List Step) : Decidable (Foreign ip steps) :=
  decideForeign ip steps

/-- What the registry `lim` holds for the address `ip`: the rate and burst of
the server `h`, and for `ip` either nothing, or an item with the counter `c`
whose bucket held `tok` units when last drawn on, at `last`. An address without
item counts as one with a full bucket never drawn on. -/
def Holds (h : Server) (lim : iPRateLimiter) (ip : String) (c : Nat) (tok : Int)
    (last : Nat) : Prop :=
  lim.rate = h.Rate ∧ lim.burst = h.Burst ∧
    ((lim.ips ip = none ∧ c = 0 ∧ tok = h.Burst * oneToken ∧ last = 0) ∨
      ∃ d, lim.ips ip = some ⟨c, d, ⟨h.Rate.toNat, h.Burst, tok, last⟩⟩)

/-! ## Concrete instances used to exercise the definitions -/

/-- An available, empty store. -/
def emptyStore : Store := { up := true, data := fun _ _ => none }

/-- A body whose field `m` repeats the token `ab`. -/
def repeatBody : Bytes := str "\x7b\"t\":\"ab\",\"d\":\"x\",\"m\":\"ab\"\x7d"

/-- The envelope of `repeatBody`. -/
def repeatAuth : auth := { Token := str "ab", DeviceId := str "x", Version := 1 }

/-- The key of `repeatBody`: the first `ab` and the first `x` are gone. -/
def repeatKey : Bytes := str "\x7b\"t\":\"\",\"d\":\"\",\"m\":\"ab\"\x7d"

/-- The common bytes before the token of a body with the fields `t` and `d`. -/
def fieldsA : Bytes := str "\x7b\"t\":\""

/-- The common bytes between the token and the device id. -/
def fieldsB : Bytes := str "\",\"d\":\""

/-- The common bytes after the device id. -/
def fieldsC : Bytes := str "\"\x7d"

/-- The bytes after the first instance of `key` in `b`. -/
def bytesAfter (key b : Bytes) : Option Bytes :=
  (Index b key).map (fun i => b.drop (i + key.length))

/-- The value of the string field `name` of a flat body, empty when absent. -/
def stringField (name : String) (b : Bytes) : Bytes :=
  match bytesAfter (str ("\"" ++ name ++ "\":\"")) b with
  | some rest => rest.takeWhile (fun c => c ≠ 34)
  | none => []

/-- The value of the numeric field `name` of a flat body, 0 when absent. -/
def intField (name : String) (b : Bytes) : Int :=
  match bytesAfter (str ("\"" ++ name ++ "\":")) b with
  | some rest =>
    ((rest.takeWhile (fun c => 48 ≤ c ∧ c ≤ 57)).foldl
      (fun acc c => acc * 10 + (c.toNat - 48)) 0 : Nat)
  | none => 0

/-- A decoder of flat bodies, standing for `json.Unmarshal` in the examples. -/
def demoUnmarshal (b : Bytes) : Except String auth :=
  if b.head? = some 123 then
    .ok { Token := stringField "t" b, DeviceId := stringField "d" b, Version := intField "v" b }
  else .error "invalid character"

/-- The text of a scalar. -/
def demoLeaf : Json → Option String
  | .null => some "null"
  | .bool b => some (if b then "true" else "false")
  | .num n => some (toString n)
  | .text s => some ("\"" ++ s ++ "\"")
  | _ => none

/-- The texts of the fields of a flat object. -/
def demoFields : List (String × Json) → Option (List String)
  | [] => some []
  | (k, v) :: rest =>
    match demoLeaf v, demoFields rest with
    | some sv, some srest => some (("\"" ++ k ++ "\":" ++ sv) :: srest)
    | _, _ => none

/-- The text of a scalar or of a flat object; anything else is rejected. -/
def demoJson : Json → Option String
  | .obj fields => (demoFields fields).map (fun fs => "\x7b" ++ ",".intercalate fs ++ "\x7d")
  | v => demoLeaf v

/-- A serializer of envelopes with flat data, standing for `json.Marshal` in the
examples; it rejects the data it does not cover. -/
def demoMarshal (resp : response) : Except String Bytes :=
  let data : Option String :=
    match resp.Data with
    | .nil => some "null"
    | .bytes _ => none
    | .other v => demoJson v
  match data with
  | some d =>
    .ok (str ("\x7b\"version\":" ++ toString resp.Version ++ ",\"state\":\"" ++ resp.State ++
      "\",\"data\":" ++ d ++ "\x7d"))
  | none => .error "json: unsupported value"

/-- A keyed checksum, standing for `cipher.Sign` in the examples. -/
def demoSign (data key : Bytes) : String :=
  toString ((key ++ data).foldl (fun acc c => (acc * 31 + c.toNat) % 65521) 7)

/-- A table of two sessions, standing for `token.Token.Decode` in the examples. -/
def demoTokenDecode (t : Bytes) : Option Token :=
  if t = str "TOK" then some { Id := 7, session := 70, accessKeyID := str "KEY" }
  else if t = str "TOK2" then some { Id := 8, session := 80, accessKeyID := str "KEY2" }
  else none

/-- The collaborators of the examples. -/
def demoEnv : Env :=
  { unmarshalAuth := demoUnmarshal
    marshalQuery := fun _ => .error "not used"
    marshal := demoMarshal
    tokenDecode := demoTokenDecode
    checkSign := fun sig data key => decide (sig = demoSign data key)
    sign := demoSign
    sidToString := fun n => toString n
    fmtValue := fun _ => "value" }

/-- A server with the default limits, no cross-origin mode, no required
user agent. -/
def demoServer : Server :=
  { Addr := ":80", MaxPayloadBytes := 1048576, MaxHeaderBytes := 1048576, Rate := 10,
    Burst := 15, ReadTimeout := 5, WriteTimeout := 5, Web := false, UserAgent := [],
    CorsCfg := none }

/-- The registry of `demoServer` before any request. -/
def emptyLimiter : iPRateLimiter := { ips := fun _ => none, rate := 10, burst := 15 }

/-- The text of ASCII bytes. -/
def asciiText (b : Bytes) : String := String.mk (b.map (fun c => Char.ofNat c.toNat))

/-- The route `/echo` of the scenario: auth on, cache on, enveloped, minimum
version 1; its handler echoes the field `msg`. -/
def echoRoute : Route :=
  { Pattern := { Auth := Enable, Cache := Enable, General := Disable, UserAgent := Disable,
                 Version := 1 }
    ContentType := ""
    ipHandle := none
    sessionHandle := none
    userAgentHandle := none
    handle := fun _ body =>
      (Value.other (Json.obj [("msg", Json.text (asciiText (stringField "msg" body)))]), none) }

/-- The body of the scenario. -/
def echoBody : Bytes :=
  str "\x7b\"t\":\"TOK\",\"d\":\"DEV\",\"v\":1,\"msg\":\"hi\"\x7d"

/-- The first request of the scenario, signed with the key of its token. -/
def echoRequest : Request :=
  { realIp := "10.0.0.1", Method := "POST", origin := "", userAgent := str "app/1.0",
    sig := demoSign echoBody (str "KEY"), query := [], body := echoBody, readErr := false,
    now := 1000, nowAllow := 1000 }

/-- The body of a client of version 0. -/
def oldBody : Bytes :=
  str "\x7b\"t\":\"TOK\",\"d\":\"DEV\",\"v\":0,\"msg\":\"hi\"\x7d"

/-- The request of the scenario without its `Content-Sign` header. -/
def unsignedRequest : Request := { echoRequest with sig := "" }

/-- The request of the scenario with a signature that does not match. -/
def forgedRequest : Request := { echoRequest with sig := "forged" }

/-- The request of the scenario sent by a client of version 0, signed. -/
def oldRequest : Request :=
  { echoRequest with body := oldBody, sig := demoSign oldBody (str "KEY") }

/-- The request of a client of version 0 without its `Content-Sign` header. -/
def oldUnsignedRequest : Request := { echoRequest with body := oldBody, sig := "" }

/-- The envelope of `echoBody`. -/
def echoAuth : auth := { Token := str "TOK", DeviceId := str "DEV", Version := 1 }

/-- The envelope of `oldBody`. -/
def oldAuth : auth := { Token := str "TOK", DeviceId := str "DEV", Version := 0 }

/-- The key of `echoBody` under the envelope `echoAuth`. -/
def echoKey : Bytes := str "\x7b\"t\":\"\",\"d\":\"\",\"v\":1,\"msg\":\"hi\"\x7d"

/-- The body of the response of the scenario. -/
def echoResponse : Bytes :=
  str "\x7b\"version\":1,\"state\":\"OK\",\"data\":\x7b\"msg\":\"hi\"\x7d\x7d"

/-- A cacheable enveloped route whose handler succeeds with a result that
`json.Marshal` rejects (a NaN, a channel, a function). -/
def nanRoute : Route :=
  { echoRoute with handle := fun _ _ => (Value.other Json.unsupported, none) }

/-- The first request on `nanRoute`, on an available, empty store. -/
def nanFirst : Outcome :=
  serve demoEnv demoServer "/nan" nanRoute emptyLimiter (some emptyStore) echoRequest

/-- The same request again, one second later, on the registry and the store that
the first one left. -/
def nanSecond : Outcome :=
  serve demoEnv demoServer "/nan" nanRoute nanFirst.limiter nanFirst.redis
    { echoRequest with now := 1000001000, nowAllow := 1000001000 }

/-- A request of the address `ip` that arrives at time `t`. -/
def arrival (ip : String) (t : Time) : Request :=
  { echoRequest with realIp := ip, now := t, nowAllow := t }

/-- The arrival times of `n` requests, one every `period`, the first at `t`. -/
def arrivals (period : Time) : Time → Nat → List Time
  | _, 0 => []
  | t, n + 1 => t :: arrivals period (t + period) n

/-- The admission checks of a run of requests of one address arriving at the
given times: for each request, whether the bucket of the address holds a token
when the request arrives, and the text of the rejection, if any. -/
def admitAll (h : Server) (ip : String) : iPRateLimiter → List Time → List (Bool × Option String)
  | _, [] => []
  | lim, t :: ts =>
    (((lim.ipLimiter ip t).2.limiter.Allow t).1, (admission h lim (arrival ip t)).2.2) ::
      admitAll h ip (admission h lim (arrival ip t)).1 ts

/-- The admission checks of a run of the address `ip`: the requests, its own and
those of others, pass through `admission` and the sweeps through
`iPRateLimiter.dump`, each on the registry that the step before left; for each
request of `ip`, whether `Limiter.Allow` grants it at its arrival, and the text
of the rejection, if any. -/
def admitRun (h : Server) (ip : String) : iPRateLimiter → List Step → List (Bool × Option String)
  | _, [] => []
  | lim, Step.request t :: rest =>
    (((lim.ipLimiter ip t).2.limiter.Allow t).1, (admission h lim (arrival ip t)).2.2) ::
      admitRun h ip (admission h lim (arrival ip t)).1 rest
  | lim, Step.sweep now :: rest => admitRun h ip (lim.dump now) rest
  | lim, Step.other r :: rest => admitRun h ip (admission h lim r).1 rest

/-- A server that grants ten requests a second, two at once. -/
def tightServer : Server := { demoServer with Rate := 10, Burst := 2 }

/-- The registry of `tightServer`, before any request. -/
def tightLimiter : iPRateLimiter := { ips := fun _ => none, rate := 10, burst := 2 }

/-- A run of one client: two requests at once, a third 100 ms later, a sweep, a
request of another address, and a fourth request 100 ms after the third. -/
def tightRun : List Step :=
  [Step.request 1000, Step.request 1000, Step.request 100001000, Step.sweep 150000000,
    Step.other (arrival "10.0.0.2" 160000000), Step.request 200001000]

/-- A registry in which the address `10.0.0.1` has made 2000 requests since the
last sweep and its bucket is full. -/
def busyLimiter : iPRateLimiter :=
  { emptyLimiter with ips := fun k =>
      if k = "10.0.0.1" then some { count := 2000, lastDate := 0, limiter := NewLimiter 10 15 }
      else none }

/-- Five requests a second: one every 200 ms. -/
def fifthOfSecond : Time := 200000000

/-- A registry with an address last seen at time 0 and one last seen at 500 s. -/
def sweepLimiter : iPRateLimiter :=
  { emptyLimiter with ips := fun k =>
      if k = "10.0.0.1" then some ⟨37, 0, NewLimiter 10 15⟩
      else if k = "10.0.0.2" then some ⟨12, 500000000000, NewLimiter 10 15⟩
      else none }

/-- The time of a sweep, 700 s. -/
def sweepTime : Time := 700000000000

/-- The route `/echo` with authentication disabled. -/
def openRoute : Route :=
  { echoRoute with Pattern := { echoRoute.Pattern with Auth := Disable } }

/-- The identity of the token `TOK`. -/
def echoIdentity : Identity := { tId := 7, tSession := 70, ak := str "KEY" }

/-- The route `/echo` with a handler that fails with the error `boom`. -/
def failingRoute : Route :=
  { echoRoute with handle := fun _ _ => (Value.nil, some "boom") }

/-- The enveloped error response of `failingRoute`. -/
def failingResponse : Bytes :=
  str "\x7b\"version\":1,\"state\":\"boom\",\"data\":null\x7d"

/-- A cacheable raw-output route whose handler succeeds with a result that is
not a byte slice. -/
def rawTextRoute : Route :=
  { echoRoute with
    Pattern := { echoRoute.Pattern with General := Enable }
    handle := fun _ _ => (Value.other (Json.text "hi"), none) }

/-- The route `/echo` with a session-aware handler bound next to the default
one; it answers with the session it receives. -/
def sessionRoute : Route :=
  { echoRoute with sessionHandle := some (fun session _ => (Value.other (Json.text session), none)) }

/-- A server that requires a user agent starting with `app`. -/
def appServer : Server := { demoServer with UserAgent := str "app-*" }

/-- The route `/echo` with the user-agent check enabled. -/
def checkedRoute : Route :=
  { echoRoute with Pattern := { echoRoute.Pattern with UserAgent := Enable } }

/-- The request of the scenario sent by a browser. -/
def browserRequest : Request := { echoRequest with userAgent := str "Mozilla/5.0" }

/-- A server in cross-origin mode. -/
def webServer : Server :=
  { demoServer with Web := true, CorsCfg := some { AllowedOrigins := ["https://app.example"] } }

/-- A preflight request of a browser: method `OPTIONS`, no body, no signature. -/
def preflightRequest : Request :=
  { echoRequest with Method := "OPTIONS", origin := "https://app.example", sig := "",
                     body := [] }

/-- A configuration that sets a read timeout of 30 seconds and nothing else. -/
def readOnlyConfig : Server :=
  { Addr := "", MaxPayloadBytes := 0, MaxHeaderBytes := 0, Rate := 0, Burst := 0,
    ReadTimeout := 30, WriteTimeout := 0, Web := false, UserAgent := [], CorsCfg := none }

/-- A cacheable raw-output route that declares the content type
`application/json`; its handler returns the bytes of a JSON document. -/
def jsonBytesRoute : Route :=
  { echoRoute with
    Pattern := { echoRoute.Pattern with General := Enable }
    ContentType := "application/json"
    handle := fun _ _ => (Value.bytes (str "\x7b\"a\":1\x7d"), none) }

/-- The first request on `jsonBytesRoute`, on an available, empty store. -/
def rawFirst : Outcome :=
  serve demoEnv demoServer "/json" jsonBytesRoute emptyLimiter (some emptyStore) echoRequest

/-- The same request again, one second later, on the registry and the store that
the first one left. -/
def rawSecond : Outcome :=
  serve demoEnv demoServer "/json" jsonBytesRoute rawFirst.limiter rawFirst.redis
    { echoRequest with now := 1000001000, nowAllow := 1000001000 }

/-- What `http.DetectContentType` answers for a text without a known signature,
such as a JSON document. -/
def textDetect : Bytes → String := fun _ => "text/plain; charset=utf-8"

/-! ## Theorems -/

/-! ### The `bytes` package -/

theorem Index_nil_sep (s : Bytes) : Index s [] = some 0 := by
  cases s <;> simp [Index]

theorem Index_eq_none_iff (s sep : Bytes) : Index s sep = none ↔ ¬ sep <:+: s := by
  induction s with
  | nil =>
    by_cases h : sep = []
    · simp [Index, h]
    · simp [Index, h]
  | cons c s ih =>
    rw [Index, List.infix_cons_iff]
    by_cases hp : sep.isPrefixOf (c :: s) = true
    · simp only [hp, if_true]
      have := List.isPrefixOf_iff_prefix.mp hp
      simp [this]
    · have hn : ¬ sep <+: c :: s := fun h => hp (List.isPrefixOf_iff_prefix.mpr h)
      simp only [hp, Bool.false_eq_true, if_false, Option.map_eq_none', ih]
      tauto

theorem Index_split (s sep : Bytes) (i : Nat) (h : Index s sep = some i) :
    s = s.take i ++ sep ++ s.drop (i + sep.length) := by
  induction s generalizing i with
  | nil =>
    by_cases hs : sep = []
    · simp [hs]
    · simp [Index, hs] at h
  | cons c s ih =>
    rw [Index] at h
    by_cases hp : sep.isPrefixOf (c :: s) = true
    · simp only [hp, if_true, Option.some.injEq] at h
      subst h
      obtain ⟨t, ht⟩ := List.isPrefixOf_iff_prefix.mp hp
      rw [← ht]
      simp
    · simp only [hp, Bool.false_eq_true, if_false, Option.map_eq_some'] at h
      obtain ⟨j, hj, rfl⟩ := h
      have := ih j hj
      rw [show j + 1 + sep.length = (j + sep.length) + 1 by omega]
      simp only [List.take_succ_cons, List.drop_succ_cons, List.cons_append]
      rw [← this]

theorem Count_eq_zero_iff (s sep : Bytes) :
    Count s sep = 0 ↔ sep ≠ [] ∧ Index s sep = none := by
  unfold Count
  by_cases hs : sep = []
  · simp [hs]
  · simp only [hs, if_false, ne_eq, not_false_eq_true, true_and, countAux]
    cases hI : Index s sep with
    | none => simp
    | some i => simp

/-- One replacement by nothing, in terms of `bytes.Index`. -/
theorem Replace_one (s old : Bytes) :
    Replace s old [] 1 =
      match Index s old with
      | none => s
      | some i => s.take i ++ s.drop (i + old.length) := by
  unfold Replace
  simp only [ne_eq, one_ne_zero, not_false_eq_true, if_true]
  by_cases hc : Count s old = 0
  · have h := (Count_eq_zero_iff s old).mp hc
    simp [hc, h.2]
  · have hk : (if (1 : Int) < 0 ∨ ((Count s old : Nat) : Int) < 1 then Count s old
        else (1 : Int).toNat) = 1 := by
      have h1 : ¬ ((1 : Int) < 0 ∨ ((Count s old : Nat) : Int) < 1) := by omega
      rw [if_neg h1]
      rfl
    simp only [hc, if_false, hk, replaceLoop, List.append_nil]
    by_cases ho : old = []
    · subst ho
      simp [Index_nil_sep]
    · have hI : Index s old ≠ none := fun h => hc ((Count_eq_zero_iff s old).mpr ⟨ho, h⟩)
      cases hI2 : Index s old with
      | none => exact absurd hI2 hI
      | some i => simp [ho]

theorem removeFirst_eq (s old : Bytes) :
    removeFirst old s =
      match Index s old with
      | none => s
      | some i => s.take i ++ s.drop (i + old.length) := by
  induction s with
  | nil =>
    by_cases hs : old = []
    · simp [removeFirst, Index, hs]
    · simp [removeFirst, Index, hs]
  | cons c s ih =>
    rw [removeFirst, Index]
    by_cases hp : old.isPrefixOf (c :: s) = true
    · simp [hp]
    · simp only [hp, Bool.false_eq_true, if_false, ih]
      cases hI : Index s old with
      | none => simp
      | some i =>
        simp only [Option.map_some']
        rw [show i + 1 + old.length = (i + old.length) + 1 by omega]
        simp

/-- The call `bytes.Replace(s, old, []byte{}, 1)` removes the first instance of
`old`, and only that one. -/
theorem Replace_one_eq_removeFirst (s old : Bytes) :
    Replace s old [] 1 = removeFirst old s := by
  rw [Replace_one, removeFirst_eq]

theorem cacheKey_eq_removeFirst (userAuth : auth) (param : Bytes) :
    cacheKey userAuth param =
      removeFirst userAuth.DeviceId (removeFirst userAuth.Token param) := by
  simp [cacheKey, Replace_one_eq_removeFirst]

/-- When the first instance of `old` in `pre ++ old ++ post` is the one after
`pre`, removing the first instance leaves `pre ++ post`. -/
theorem removeFirst_at (old pre post : Bytes)
    (h : old = [] ∨ Index (pre ++ old ++ post) old = some pre.length) :
    removeFirst old (pre ++ old ++ post) = pre ++ post := by
  rw [removeFirst_eq]
  rcases h with h | h
  · subst h
    simp [Index_nil_sep]
  · rw [h]
    simp

theorem removeFirst_length_le (old s : Bytes) : (removeFirst old s).length ≤ s.length := by
  rw [removeFirst_eq]
  cases hI : Index s old with
  | none => simp
  | some i => simp; omega

theorem removeFirst_length_lt (old s : Bytes) (hne : old ≠ []) (hin : old <:+: s) :
    (removeFirst old s).length < s.length := by
  rw [removeFirst_eq]
  cases hI : Index s old with
  | none => exact absurd hin ((Index_eq_none_iff s old).mp hI)
  | some i =>
    have hs := congrArg List.length (Index_split s old i hI)
    have hpos : 0 < old.length := List.length_pos.mpr hne
    simp only [List.length_append] at hs ⊢
    omega

/-- Removing the first instance changes nothing exactly when `old` is empty or
has no instance. -/
theorem removeFirst_eq_self_iff (old s : Bytes) :
    removeFirst old s = s ↔ old = [] ∨ ¬ old <:+: s := by
  rw [removeFirst_eq]
  cases hI : Index s old with
  | none =>
    have := (Index_eq_none_iff s old).mp hI
    simp [this]
  | some i =>
    have hs := Index_split s old i hI
    have hin : old <:+: s := ⟨s.take i, s.drop (i + old.length), hs.symm⟩
    have hlen := congrArg List.length hs
    simp only [List.length_append] at hlen
    constructor
    · intro h
      left
      have h2 := congrArg List.length h
      simp only [List.length_append] at h2
      have : old.length = 0 := by omega
      exact List.length_eq_zero.mp this
    · rintro (h | h)
      · subst h
        simp
      · exact absurd hin h

/-! ### Cache keys -/

theorem cache_trace (store : Store) (userAuth : auth) (pattern : String) (param result : Bytes) :
    (cache (some store) userAuth pattern param result).2 =
      [Event.cacheSet pattern (cacheKey userAuth param) result] := by
  simp only [cache, cacheKey]
  split <;> rfl

theorem getCache_eq (store : Store) (userAuth : auth) (pattern : String) (param : Bytes) :
    getCache (some store) userAuth pattern param =
      (store.HGet pattern (cacheKey userAuth param),
        [Event.cacheGet pattern (cacheKey userAuth param)]) := by
  simp only [getCache, cacheKey]

theorem cache_store (store : Store) (userAuth : auth) (pattern : String) (param result : Bytes)
    (hup : store.up = true) :
    (cache (some store) userAuth pattern param result).1 =
      some { store with data := fun p k =>
        if p = pattern ∧ k = cacheKey userAuth param then some result else store.data p k } := by
  simp [cache, cacheKey, Store.HSet, hup]

/-- C4 (as amended): the key that `cache` and `getCache` pass to the store is the
raw parameter bytes with the first instance of the token removed and then the
first instance of the device id removed from what is left. -/
theorem cache_key_removes_first_instances (store : Store) (userAuth : auth) (pattern : String)
    (param result : Bytes) :
    (cache (some store) userAuth pattern param result).2 =
        [Event.cacheSet pattern
          (removeFirst userAuth.DeviceId (removeFirst userAuth.Token param)) result] ∧
      (getCache (some store) userAuth pattern param).2 =
        [Event.cacheGet pattern
          (removeFirst userAuth.DeviceId (removeFirst userAuth.Token param))] := by
  rw [cache_trace, getCache_eq, cacheKey_eq_removeFirst]
  exact ⟨rfl, rfl⟩

/-- C4 (as stated) fails: for a body whose field `m` repeats the token `ab`, the
key that `cache` and `getCache` pass to the store still holds the second `ab`;
it is not the body with every instance of the token removed, and the non-empty
token occurs in it. -/
theorem cache_key_keeps_later_instances :
    (cache (some emptyStore) repeatAuth "/echo" repeatBody []).2 =
        [Event.cacheSet "/echo" repeatKey []] ∧
      (getCache (some emptyStore) repeatAuth "/echo" repeatBody).2 =
        [Event.cacheGet "/echo" repeatKey] ∧
      repeatKey ≠ removeAll repeatAuth.DeviceId (removeAll repeatAuth.Token repeatBody) ∧
      repeatAuth.Token ≠ [] ∧ repeatAuth.Token <:+: repeatKey := by
  refine ⟨by decide, by decide, by decide, by decide, ?_⟩
  exact ⟨str "\x7b\"t\":\"\",\"d\":\"\",\"m\":\"", str "\"\x7d", by decide⟩

theorem cacheKey_of_own (tokenFirst : Bool) (a b c token deviceId : Bytes) (v : Int)
    (h : OwnInstancesFirst tokenFirst a b c token deviceId) :
    cacheKey { Token := token, DeviceId := deviceId, Version := v }
      (rawParams tokenFirst a b c token deviceId) = a ++ b ++ c := by
  rw [cacheKey_eq_removeFirst]
  cases tokenFirst with
  | true =>
    simp only [OwnInstancesFirst, if_true] at h
    have e1 : rawParams true a b c token deviceId = a ++ token ++ (b ++ deviceId ++ c) := by
      simp [rawParams]
    rw [e1, removeFirst_at token a (b ++ deviceId ++ c) h.1]
    have e2 : a ++ (b ++ deviceId ++ c) = (a ++ b) ++ deviceId ++ c := by simp
    rw [e2, removeFirst_at deviceId (a ++ b) c h.2]
  | false =>
    simp only [OwnInstancesFirst, Bool.false_eq_true, if_false] at h
    have e1 : rawParams false a b c token deviceId = (a ++ deviceId ++ b) ++ token ++ c := by
      simp [rawParams]
    rw [e1, removeFirst_at token (a ++ deviceId ++ b) c h.1]
    have e2 : a ++ deviceId ++ b ++ c = a ++ deviceId ++ (b ++ c) := by simp
    rw [e2, removeFirst_at deviceId a (b ++ c) h.2]
    simp

/-- C5 (as amended): two requests whose raw parameter bytes are identical except
for the values of the token and of the device id, and in each of which the
first occurrence of the token is the value of the token field and the first
occurrence of the device id (once the token is removed) is the value of the
device-id field,
get the same key from `cache` and `getCache`, namely the common bytes; on an
available store the lookup of the second request returns what the first stored. -/
theorem cache_key_identity_independent (tokenFirst : Bool) (a b c t1 d1 t2 d2 : Bytes)
    (v : Int) (store : Store) (pattern : String) (result : Bytes)
    (h1 : OwnInstancesFirst tokenFirst a b c t1 d1)
    (h2 : OwnInstancesFirst tokenFirst a b c t2 d2) :
    (cache (some store) { Token := t1, DeviceId := d1, Version := v } pattern
        (rawParams tokenFirst a b c t1 d1) result).2 =
        [Event.cacheSet pattern (a ++ b ++ c) result] ∧
      (getCache (some store) { Token := t2, DeviceId := d2, Version := v } pattern
        (rawParams tokenFirst a b c t2 d2)).2 = [Event.cacheGet pattern (a ++ b ++ c)] ∧
      (store.up = true →
        (getCache
          (cache (some store) { Token := t1, DeviceId := d1, Version := v } pattern
            (rawParams tokenFirst a b c t1 d1) result).1
          { Token := t2, DeviceId := d2, Version := v } pattern
          (rawParams tokenFirst a b c t2 d2)).1 = .ok result) := by
  refine ⟨?_, ?_, ?_⟩
  · rw [cache_trace, cacheKey_of_own tokenFirst a b c t1 d1 v h1]
  · rw [getCache_eq, cacheKey_of_own tokenFirst a b c t2 d2 v h2]
  · intro hup
    rw [cache_store _ _ _ _ _ hup, getCache_eq, cacheKey_of_own tokenFirst a b c t1 d1 v h1,
      cacheKey_of_own tokenFirst a b c t2 d2 v h2]
    simp [Store.HGet, hup]

/-- The hypotheses of `cache_key_identity_independent` hold for the bodies with
token `TOK1`, device `DEV1` and token `TOK2`, device `DEV2`. -/
theorem cache_key_identity_independent_witness :
    OwnInstancesFirst true fieldsA fieldsB fieldsC (str "TOK1") (str "DEV1") ∧
      OwnInstancesFirst true fieldsA fieldsB fieldsC (str "TOK2") (str "DEV2") ∧
      (getCache
        (cache (some emptyStore) { Token := str "TOK1", DeviceId := str "DEV1", Version := 1 }
          "/echo" (rawParams true fieldsA fieldsB fieldsC (str "TOK1") (str "DEV1"))
          (str "payload")).1
        { Token := str "TOK2", DeviceId := str "DEV2", Version := 1 } "/echo"
        (rawParams true fieldsA fieldsB fieldsC (str "TOK2") (str "DEV2"))).1 =
        .ok (str "payload") :=
  ⟨by decide, by decide,
    (cache_key_identity_independent true fieldsA fieldsB fieldsC (str "TOK1") (str "DEV1")
      (str "TOK2") (str "DEV2") 1 emptyStore "/echo" (str "payload") (by decide)
      (by decide)).2.2 rfl⟩

/-- C5 (as stated) fails: the bodies with token `A1`, device `t` and with token
`B2`, device `u` are identical except for these two values, yet the first `t`
of the first body is the name of the token field: the two keys differ, and the lookup of the second request misses the entry of the first. -/
theorem cache_key_depends_on_identity :
    cacheKey { Token := str "A1", DeviceId := str "t", Version := 1 }
        (rawParams true fieldsA fieldsB fieldsC (str "A1") (str "t")) ≠
      cacheKey { Token := str "B2", DeviceId := str "u", Version := 1 }
        (rawParams true fieldsA fieldsB fieldsC (str "B2") (str "u")) ∧
      (cache (some emptyStore) { Token := str "A1", DeviceId := str "t", Version := 1 } "/echo"
        (rawParams true fieldsA fieldsB fieldsC (str "A1") (str "t")) (str "payload")).2 =
        [Event.cacheSet "/echo" (str "\x7b\"\":\"\",\"d\":\"t\"\x7d") (str "payload")] ∧
      getCache
        (cache (some emptyStore) { Token := str "A1", DeviceId := str "t", Version := 1 } "/echo"
          (rawParams true fieldsA fieldsB fieldsC (str "A1") (str "t")) (str "payload")).1
        { Token := str "B2", DeviceId := str "u", Version := 1 } "/echo"
        (rawParams true fieldsA fieldsB fieldsC (str "B2") (str "u")) =
        (.error "redis: nil", [Event.cacheGet "/echo" (str "\x7b\"t\":\"\",\"d\":\"\"\x7d")]) := by
  refine ⟨by decide, by decide, ?_⟩
  rw [cache_store _ _ _ _ _ rfl, getCache_eq]
  have k1 : cacheKey { Token := str "A1", DeviceId := str "t", Version := 1 }
      (rawParams true fieldsA fieldsB fieldsC (str "A1") (str "t")) =
      str "\x7b\"\":\"\",\"d\":\"t\"\x7d" := by decide
  have k2 : cacheKey { Token := str "B2", DeviceId := str "u", Version := 1 }
      (rawParams true fieldsA fieldsB fieldsC (str "B2") (str "u")) =
      str "\x7b\"t\":\"\",\"d\":\"\"\x7d" := by decide
  rw [k1, k2]
  have hne : str "\x7b\"t\":\"\",\"d\":\"\"\x7d" ≠ str "\x7b\"\":\"\",\"d\":\"t\"\x7d" := by decide
  simp [Store.HGet, emptyStore, hne]

/-- C6 (as amended): applying the sanitization of `cache` and `getCache` to an
already sanitized key, with the same token and device id, returns the key
unchanged exactly when neither the token nor the device id, where non-empty,
still occurs in the key. -/
theorem cache_key_idempotent_iff (userAuth : auth) (param : Bytes) :
    cacheKey userAuth (cacheKey userAuth param) = cacheKey userAuth param ↔
      (userAuth.Token = [] ∨ ¬ userAuth.Token <:+: cacheKey userAuth param) ∧
      (userAuth.DeviceId = [] ∨ ¬ userAuth.DeviceId <:+: cacheKey userAuth param) := by
  generalize cacheKey userAuth param = k
  rw [cacheKey_eq_removeFirst, ← removeFirst_eq_self_iff, ← removeFirst_eq_self_iff]
  constructor
  · intro h
    have hl1 := removeFirst_length_le userAuth.Token k
    have hl2 := removeFirst_length_le userAuth.DeviceId (removeFirst userAuth.Token k)
    have hlen := congrArg List.length h
    have h1 : removeFirst userAuth.Token k = k := by
      by_contra hne
      have hnot := (removeFirst_eq_self_iff userAuth.Token k).not.mp hne
      push_neg at hnot
      have hlt := removeFirst_length_lt userAuth.Token k hnot.1 hnot.2
      omega
    rw [h1] at h
    exact ⟨h1, h⟩
  · rintro ⟨h1, h2⟩
    rw [h1, h2]

/-- C6 (as stated) fails: the key of the body whose field `m` repeats the token
still holds an instance of the token, and sanitizing that key again removes it. -/
theorem cache_key_not_idempotent :
    cacheKey repeatAuth repeatBody = repeatKey ∧
      cacheKey repeatAuth (cacheKey repeatAuth repeatBody) =
        str "\x7b\"t\":\"\",\"d\":\"\",\"m\":\"\"\x7d" ∧
      cacheKey repeatAuth (cacheKey repeatAuth repeatBody) ≠ cacheKey repeatAuth repeatBody := by
  decide

/-! ### The gates of the closure -/

theorem admission_trace (h : Server) (lim : iPRateLimiter) (r : Request) :
    ∀ e ∈ (admission h lim r).2.1, e = Event.limiterAllow r.realIp := by
  simp only [admission]
  split_ifs <;> simp

theorem admission_trace_quiet (h : Server) (lim : iPRateLimiter) (r : Request) :
    ∀ e ∈ (admission h lim r).2.1, e.isCache = false ∧ e.isHandler = false := by
  intro e he
  rw [admission_trace h lim r e he]
  exact ⟨rfl, rfl⟩

theorem serve_of_passes (env : Env) (h : Server) (pattern : String) (route : Route)
    (lim : iPRateLimiter) (rds : Option Store) (r : Request) (hdr : Header)
    (hg : PassesUserAgentGate h route lim r hdr) :
    serve env h pattern route lim rds r =
      serveAdmitted env h pattern route (admission h lim r).1 rds r hdr
        (admission h lim r).2.1 := by
  obtain ⟨ha, ht, _⟩ := hg
  simp only [serve, ha, ht]

theorem serveAdmitted_of_decodes (env : Env) (h : Server) (pattern : String) (route : Route)
    (lim : iPRateLimiter) (rds : Option Store) (r : Request) (hdr : Header)
    (tr : List Event) (paramByte : Bytes) (userAuth : auth)
    (hua : userAgentRejected h route r.userAgent = false)
    (hs : PassesSignaturePresence route r)
    (hd : DecodesTo env h pattern r paramByte userAuth) :
    serveAdmitted env h pattern route lim rds r hdr tr =
      if userAuth.Version < route.Pattern.Version then
        { resp := some (httpError hdr ("client version is " ++ toString userAuth.Version ++
            ", server version is " ++ toString route.Pattern.Version ++
            ". version is too low.") StatusGone),
          trace := tr, limiter := lim, redis := rds }
      else serveDecoded env pattern route lim rds r hdr tr paramByte userAuth := by
  obtain ⟨hr, hne, hu⟩ := hd
  unfold PassesSignaturePresence at hs
  have hlen : paramByte.length ≠ 0 := fun h0 => hne (List.length_eq_zero.mp h0)
  simp only [serveAdmitted, hua, Bool.false_eq_true, if_false, hs, hr, hlen, hu]

theorem serve_of_reaches (env : Env) (h : Server) (pattern : String) (route : Route)
    (lim : iPRateLimiter) (rds : Option Store) (r : Request) (hdr : Header)
    (paramByte : Bytes) (userAuth : auth)
    (hg : ReachesAuthentication env h pattern route lim r hdr paramByte userAuth) :
    serve env h pattern route lim rds r =
      serveDecoded env pattern route (admission h lim r).1 rds r hdr (admission h lim r).2.1
        paramByte userAuth := by
  obtain ⟨hp, hs, hd, hv⟩ := hg
  rw [serve_of_passes env h pattern route lim rds r hdr hp,
    serveAdmitted_of_decodes env h pattern route _ rds r hdr _ paramByte userAuth hp.2.2 hs hd,
    if_neg hv]

/-- C2: on a route with auth enabled, a request without a `Content-Sign` header
that passes admission, is not an answered preflight and passes the user-agent
gate is answered 403; no handler is invoked and the cache is neither read nor
written. -/
theorem missing_signature_is_forbidden (env : Env) (h : Server) (pattern : String)
    (route : Route) (lim : iPRateLimiter) (rds : Option Store) (r : Request) (hdr : Header)
    (hauth : route.Pattern.Auth = Enable) (hsig : r.sig = "")
    (hg : PassesUserAgentGate h route lim r hdr) :
    (serve env h pattern route lim rds r).status = StatusForbidden ∧
      (∀ e ∈ (serve env h pattern route lim rds r).trace,
        e.isHandler = false ∧ e.isCache = false) ∧
      (serve env h pattern route lim rds r).redis = rds := by
  rw [serve_of_passes env h pattern route lim rds r hdr hg]
  simp only [serveAdmitted, hg.2.2, Bool.false_eq_true, if_false, hauth, hsig, and_self,
    if_true]
  refine ⟨rfl, ?_, trivial⟩
  intro e he
  exact (admission_trace_quiet h lim r e he).symm

/-- The hypotheses of `missing_signature_is_forbidden` hold for the request of
the scenario without its signature header, which is answered 403. -/
theorem missing_signature_is_forbidden_witness :
    PassesUserAgentGate demoServer echoRoute emptyLimiter unsignedRequest [] ∧
      (serve demoEnv demoServer "/echo" echoRoute emptyLimiter (some emptyStore)
        unsignedRequest).status = 403 :=
  ⟨by decide,
    (missing_signature_is_forbidden demoEnv demoServer "/echo" echoRoute emptyLimiter
      (some emptyStore) unsignedRequest [] rfl rfl (by decide)).1⟩

/-- C3 (as amended): a request that passes admission, the transport and
user-agent gates and the signature-presence gate (on a route with auth enabled
it carries a `Content-Sign` header), and whose non-empty body decodes to an
envelope with a version strictly below the minimum of the route, is answered
410, whatever the auth and cache switches of the route and whatever the token
and the value of the signature. -/
theorem low_version_is_gone (env : Env) (h : Server) (pattern : String)
    (route : Route) (lim : iPRateLimiter) (rds : Option Store) (r : Request) (hdr : Header)
    (paramByte : Bytes) (userAuth : auth)
    (hg : PassesUserAgentGate h route lim r hdr)
    (hs : PassesSignaturePresence route r)
    (hd : DecodesTo env h pattern r paramByte userAuth)
    (hv : userAuth.Version < route.Pattern.Version) :
    (serve env h pattern route lim rds r).status = StatusGone := by
  rw [serve_of_passes env h pattern route lim rds r hdr hg,
    serveAdmitted_of_decodes env h pattern route _ rds r hdr _ paramByte userAuth hg.2.2 hs hd,
    if_pos hv]
  rfl

/-- The hypotheses of `low_version_is_gone` hold for the signed request of a
client of version 0 on the route `/echo`, which is answered 410. -/
theorem low_version_is_gone_witness :
    PassesUserAgentGate demoServer echoRoute emptyLimiter oldRequest [] ∧
      PassesSignaturePresence echoRoute oldRequest ∧
      DecodesTo demoEnv demoServer "/echo" oldRequest oldBody oldAuth ∧
      oldAuth.Version < echoRoute.Pattern.Version ∧
      (serve demoEnv demoServer "/echo" echoRoute emptyLimiter (some emptyStore)
        oldRequest).status = 410 :=
  ⟨by decide, by decide, by decide, by decide,
    low_version_is_gone demoEnv demoServer "/echo" echoRoute emptyLimiter (some emptyStore)
      oldRequest [] oldBody oldAuth (by decide) (by decide) (by decide) (by decide)⟩

/-- C3 (as stated) fails: on the route `/echo`, whose auth is enabled, the
request of a client of version 0 without a `Content-Sign` header passes
admission, the transport and user-agent gates, its body decodes to an envelope
of version 0, below the minimum 1, and the response is 403, not 410. -/
theorem low_version_unsigned_is_forbidden :
    PassesUserAgentGate demoServer echoRoute emptyLimiter oldUnsignedRequest [] ∧
      DecodesTo demoEnv demoServer "/echo" oldUnsignedRequest oldBody oldAuth ∧
      oldAuth.Version < echoRoute.Pattern.Version ∧
      (serve demoEnv demoServer "/echo" echoRoute emptyLimiter (some emptyStore)
        oldUnsignedRequest).status = 403 ∧
      (serve demoEnv demoServer "/echo" echoRoute emptyLimiter (some emptyStore)
        oldUnsignedRequest).status ≠ StatusGone := by
  refine ⟨by decide, by decide, by decide, by decide, by decide⟩

theorem authenticate_trace_quiet (env : Env) (pattern : String) (route : Route)
    (sig : String) (paramByte : Bytes) (userAuth : auth) :
    ∀ e ∈ (authenticate env pattern route sig paramByte userAuth).2,
      e.isCache = false ∧ e.isHandler = false := by
  unfold authenticate
  by_cases h1 : route.Pattern.Auth = Enable
  · by_cases h2 : userAuth.Token = []
    · simp [h1, h2]
    · cases h3 : env.tokenDecode userAuth.Token with
      | none => simp [h1, h2, h3, Event.isCache, Event.isHandler]
      | some tk =>
        cases h4 : env.checkSign sig paramByte tk.accessKeyID <;>
          simp [h1, h2, h3, h4, Event.isCache, Event.isHandler]
  · simp [h1]

theorem serveDecoded_of_error (env : Env) (pattern : String) (route : Route)
    (lim : iPRateLimiter) (rds : Option Store) (r : Request) (hdr : Header)
    (tr : List Event) (paramByte : Bytes) (userAuth : auth) (msg : String)
    (htr : ∀ e ∈ tr, e.isCache = false ∧ e.isHandler = false)
    (ha : (authenticate env pattern route r.sig paramByte userAuth).1 = .error msg) :
    (serveDecoded env pattern route lim rds r hdr tr paramByte userAuth).status =
        StatusNotAcceptable ∧
      (∀ e ∈ (serveDecoded env pattern route lim rds r hdr tr paramByte userAuth).trace,
        e.isCache = false ∧ e.isHandler = false) ∧
      (serveDecoded env pattern route lim rds r hdr tr paramByte userAuth).redis = rds := by
  simp only [serveDecoded, ha]
  refine ⟨rfl, ?_, trivial⟩
  intro e he
  rcases List.mem_append.mp he with he | he
  · exact htr e he
  · exact authenticate_trace_quiet env pattern route r.sig paramByte userAuth e he

theorem authenticate_error_of_failure (env : Env) (pattern : String) (route : Route)
    (sig : String) (paramByte : Bytes) (userAuth : auth)
    (hauth : route.Pattern.Auth = Enable)
    (hf : userAuth.Token = [] ∨ env.tokenDecode userAuth.Token = none ∨
      ∃ tk, env.tokenDecode userAuth.Token = some tk ∧
        env.checkSign sig paramByte tk.accessKeyID = false) :
    ∃ msg, (authenticate env pattern route sig paramByte userAuth).1 = .error msg := by
  unfold authenticate
  by_cases h2 : userAuth.Token = []
  · simp [hauth, h2]
  · rcases hf with hf | hf | ⟨tk, h3, h4⟩
    · exact absurd hf h2
    · simp [hauth, h2, hf]
    · simp [hauth, h2, h3, h4]

/-- C1: on a route with auth enabled, for a request that has passed the
admission, transport, user-agent, signature-presence, body, decode and version
gates, the closure looks up the cache or invokes a handler only if the token of
the envelope is not empty, `token.Decode` succeeded and `cipher.CheckSign` on
the signature header, the raw parameter bytes and the access key of the token
returned true; in each of the three failing cases the response is 406 and
neither the cache nor a handler is touched. -/
theorem authentication_guards_cache_and_handler (env : Env) (h : Server) (pattern : String)
    (route : Route) (lim : iPRateLimiter) (rds : Option Store) (r : Request) (hdr : Header)
    (paramByte : Bytes) (userAuth : auth)
    (hauth : route.Pattern.Auth = Enable)
    (hg : ReachesAuthentication env h pattern route lim r hdr paramByte userAuth) :
    ((∃ e ∈ (serve env h pattern route lim rds r).trace,
          e.isCache = true ∨ e.isHandler = true) →
        userAuth.Token ≠ [] ∧
          ∃ tk, env.tokenDecode userAuth.Token = some tk ∧
            env.checkSign r.sig paramByte tk.accessKeyID = true) ∧
      ((userAuth.Token = [] ∨ env.tokenDecode userAuth.Token = none ∨
          ∃ tk, env.tokenDecode userAuth.Token = some tk ∧
            env.checkSign r.sig paramByte tk.accessKeyID = false) →
        (serve env h pattern route lim rds r).status = StatusNotAcceptable ∧
          (∀ e ∈ (serve env h pattern route lim rds r).trace,
            e.isCache = false ∧ e.isHandler = false) ∧
          (serve env h pattern route lim rds r).redis = rds) := by
  rw [serve_of_reaches env h pattern route lim rds r hdr paramByte userAuth hg]
  have fail : (userAuth.Token = [] ∨ env.tokenDecode userAuth.Token = none ∨
      ∃ tk, env.tokenDecode userAuth.Token = some tk ∧
        env.checkSign r.sig paramByte tk.accessKeyID = false) →
      (serveDecoded env pattern route (admission h lim r).1 rds r hdr (admission h lim r).2.1
          paramByte userAuth).status = StatusNotAcceptable ∧
        (∀ e ∈ (serveDecoded env pattern route (admission h lim r).1 rds r hdr
            (admission h lim r).2.1 paramByte userAuth).trace,
          e.isCache = false ∧ e.isHandler = false) ∧
        (serveDecoded env pattern route (admission h lim r).1 rds r hdr
          (admission h lim r).2.1 paramByte userAuth).redis = rds := by
    intro hf
    obtain ⟨msg, hmsg⟩ :=
      authenticate_error_of_failure env pattern route r.sig paramByte userAuth hauth hf
    exact serveDecoded_of_error env pattern route _ rds r hdr _ paramByte userAuth msg
      (admission_trace_quiet h lim r) hmsg
  refine ⟨?_, fail⟩
  rintro ⟨e, he, hio⟩
  by_cases h2 : userAuth.Token = []
  · have := (fail (Or.inl h2)).2.1 e he
    rcases hio with hio | hio <;> simp [this.1, this.2] at hio
  · refine ⟨h2, ?_⟩
    cases h3 : env.tokenDecode userAuth.Token with
    | none =>
      have := (fail (Or.inr (Or.inl h3))).2.1 e he
      rcases hio with hio | hio <;> simp [this.1, this.2] at hio
    | some tk =>
      refine ⟨tk, rfl, ?_⟩
      cases h4 : env.checkSign r.sig paramByte tk.accessKeyID with
      | true => rfl
      | false =>
        have := (fail (Or.inr (Or.inr ⟨tk, h3, h4⟩))).2.1 e he
        rcases hio with hio | hio <;> simp [this.1, this.2] at hio

/-- The hypotheses of `authentication_guards_cache_and_handler` hold for the
request of the scenario with a forged signature, which is answered 406. -/
theorem authentication_guards_cache_and_handler_witness :
    ReachesAuthentication demoEnv demoServer "/echo" echoRoute emptyLimiter forgedRequest []
        echoBody echoAuth ∧
      (serve demoEnv demoServer "/echo" echoRoute emptyLimiter (some emptyStore)
        forgedRequest).status = 406 :=
  ⟨by decide,
    ((authentication_guards_cache_and_handler demoEnv demoServer "/echo" echoRoute emptyLimiter
      (some emptyStore) forgedRequest [] echoBody echoAuth rfl (by decide)).2
      (Or.inr (Or.inr ⟨⟨7, 70, str "KEY"⟩, rfl, by decide⟩))).1⟩

/-! ### Cache writes -/

theorem admission_no_set (h : Server) (lim : iPRateLimiter) (r : Request) :
    ∀ e ∈ (admission h lim r).2.1, e.isCacheSet = false := by
  intro e he
  rw [admission_trace h lim r e he]
  rfl

theorem authenticate_no_set (env : Env) (pattern : String) (route : Route)
    (sig : String) (paramByte : Bytes) (userAuth : auth) :
    ∀ e ∈ (authenticate env pattern route sig paramByte userAuth).2, e.isCacheSet = false := by
  unfold authenticate
  by_cases h1 : route.Pattern.Auth = Enable
  · by_cases h2 : userAuth.Token = []
    · simp [h1, h2]
    · cases h3 : env.tokenDecode userAuth.Token with
      | none => simp [h1, h2, h3, Event.isCacheSet]
      | some tk =>
        cases h4 : env.checkSign sig paramByte tk.accessKeyID <;>
          simp [h1, h2, h3, h4, Event.isCacheSet]
  · simp [h1]

theorem getCache_no_set (rds : Option Store) (userAuth : auth) (pattern : String)
    (param : Bytes) : ∀ e ∈ (getCache rds userAuth pattern param).2, e.isCacheSet = false := by
  cases rds with
  | none => simp [getCache]
  | some store => simp [getCache, Event.isCacheSet]

theorem cacheProbe_no_set (env : Env) (pattern : String) (route : Route) (rds : Option Store)
    (hdr : Header) (userAuth : auth) (paramByte ak : Bytes) :
    ∀ e ∈ (cacheProbe env pattern route rds hdr userAuth paramByte ak).2,
      e.isCacheSet = false := by
  have hg := getCache_no_set rds userAuth pattern paramByte
  unfold cacheProbe
  by_cases h1 : route.Pattern.Cache = Enable
  · simp only [h1, if_true]
    cases h2 : (getCache rds userAuth pattern paramByte).1 with
    | error err => simpa using hg
    | ok result =>
      by_cases h3 : route.Pattern.General = Enable
      · simpa [h3] using hg
      · by_cases h4 : route.Pattern.Auth = Enable
        · simp only [h3, h4, if_false, if_true]
          intro e he
          rcases List.mem_append.mp he with he | he
          · exact hg e he
          · simp at he
            subst he
            rfl
        · simpa [h3, h4] using hg
  · simp [h1]

theorem dispatch_no_set (env : Env) (route : Route) (r : Request) (idn : Identity)
    (paramByte : Bytes) : ∀ e ∈ (dispatch env route r idn paramByte).2, e.isCacheSet = false := by
  unfold dispatch
  cases route.userAgentHandle <;> cases route.sessionHandle <;> cases route.ipHandle <;>
    simp [Event.isCacheSet]

theorem envelope_set (env : Env) (pattern : String) (route : Route) (rds : Option Store)
    (userAuth : auth) (paramByte : Bytes) (out : HandlerOut)
    (hw : ∃ e ∈ (envelope env pattern route rds userAuth paramByte out).2.2,
      e.isCacheSet = true) :
    route.Pattern.Cache = Enable ∧ out.2 = none := by
  obtain ⟨e, he, _⟩ := hw
  unfold envelope at he
  cases herr : out.2 with
  | some err => simp [herr] at he
  | none =>
    by_cases hc : route.Pattern.Cache = Enable
    · exact ⟨hc, rfl⟩
    · simp [herr, hc] at he

/-- The formatting step writes the cache only on a cacheable route and only for
a handler result without error. -/
theorem format_set (env : Env) (pattern : String) (route : Route) (rds : Option Store)
    (hdr : Header) (userAuth : auth) (paramByte ak : Bytes) (out : HandlerOut)
    (hw : ∃ e ∈ (format env pattern route rds hdr userAuth paramByte ak out).2.1,
      e.isCacheSet = true) :
    route.Pattern.Cache = Enable ∧ out.2 = none := by
  obtain ⟨e, he, hs⟩ := hw
  by_cases hgen : route.Pattern.General = Enable
  · simp only [format, hgen, if_true] at he
    cases herr : out.2 with
    | some err => simp [herr] at he
    | none =>
      simp only [herr] at he
      cases hres : out.1 with
      | nil => simp [hres] at he
      | other v => simp [hres] at he
      | bytes res =>
        by_cases hc : route.Pattern.Cache = Enable
        · exact ⟨hc, rfl⟩
        · simp [hres, hc] at he
  · simp only [format, hgen, if_false] at he
    apply envelope_set env pattern route rds userAuth paramByte out
    refine ⟨e, ?_, hs⟩
    cases hE : (envelope env pattern route rds userAuth paramByte out).1 with
    | error err => simpa [hE] using he
    | ok jsonBytes =>
      by_cases ha : route.Pattern.Auth = Enable
      · simp only [hE, ha, if_true, List.mem_append, List.mem_singleton] at he
        rcases he with he | he
        · exact he
        · subst he
          simp [Event.isCacheSet] at hs
      · simpa [hE, ha] using he

theorem serveDecoded_set (env : Env) (pattern : String) (route : Route)
    (lim : iPRateLimiter) (rds : Option Store) (r : Request) (hdr : Header)
    (tr : List Event) (paramByte : Bytes) (userAuth : auth)
    (htr : ∀ e ∈ tr, e.isCacheSet = false)
    (hw : ∃ e ∈ (serveDecoded env pattern route lim rds r hdr tr paramByte userAuth).trace,
      e.isCacheSet = true) :
    route.Pattern.Cache = Enable ∧
      ∃ idn, (authenticate env pattern route r.sig paramByte userAuth).1 = .ok idn ∧
        (∀ e ∈ (dispatch env route r idn paramByte).2,
          e ∈ (serveDecoded env pattern route lim rds r hdr tr paramByte userAuth).trace) ∧
        (dispatch env route r idn paramByte).1.2 = none := by
  obtain ⟨e, he, hs⟩ := hw
  have hna := authenticate_no_set env pattern route r.sig paramByte userAuth
  unfold serveDecoded at he ⊢
  cases ha : (authenticate env pattern route r.sig paramByte userAuth).1 with
  | error msg =>
    simp only [ha, List.mem_append] at he
    rcases he with he | he
    · simp [htr e he] at hs
    · simp [hna e he] at hs
  | ok idn =>
    have hnp := cacheProbe_no_set env pattern route rds hdr userAuth paramByte idn.ak
    have hnd := dispatch_no_set env route r idn paramByte
    simp only [ha] at he ⊢
    cases hp : (cacheProbe env pattern route rds hdr userAuth paramByte idn.ak).1 with
    | some hit =>
      simp only [hp, List.mem_append] at he
      rcases he with (he | he) | he
      · simp [htr e he] at hs
      · simp [hna e he] at hs
      · simp [hnp e he] at hs
    | none =>
      simp only [hp, List.mem_append] at he ⊢
      rcases he with (((he | he) | he) | he) | he
      · simp [htr e he] at hs
      · simp [hna e he] at hs
      · simp [hnp e he] at hs
      · simp [hnd e he] at hs
      · have hf := format_set env pattern route rds hdr userAuth paramByte idn.ak
          (dispatch env route r idn paramByte).1 ⟨e, he, hs⟩
        exact ⟨hf.1, idn, rfl, fun e2 he2 => Or.inl (Or.inr he2), hf.2⟩

/-- C8: whatever the request and the route, the closure writes the cache only if
the route is flagged cacheable and the handler it dispatched returned no error:
a cache write implies that the parameters were acquired and decoded, that
authentication passed, that the handler was invoked and that its error is nil.
A gate rejection, a cache hit (no handler is invoked) and a handler error
therefore never write the cache. -/
theorem cache_write_only_after_success (env : Env) (h : Server) (pattern : String)
    (route : Route) (lim : iPRateLimiter) (rds : Option Store) (r : Request)
    (hw : ∃ e ∈ (serve env h pattern route lim rds r).trace, e.isCacheSet = true) :
    route.Pattern.Cache = Enable ∧
      ∃ paramByte userAuth idn,
        readParam env h pattern r = .ok paramByte ∧
        env.unmarshalAuth paramByte = .ok userAuth ∧
        (authenticate env pattern route r.sig paramByte userAuth).1 = .ok idn ∧
        (∀ e ∈ (dispatch env route r idn paramByte).2,
          e ∈ (serve env h pattern route lim rds r).trace) ∧
        (dispatch env route r idn paramByte).1.2 = none := by
  have hadm := admission_no_set h lim r
  have quiet : (∃ e ∈ (admission h lim r).2.1, e.isCacheSet = true) → False := by
    rintro ⟨e, he, hs⟩
    simp [hadm e he] at hs
  unfold serve at hw ⊢
  cases hA : (admission h lim r).2.2 with
  | some msg => exact (quiet (by simpa [hA] using hw)).elim
  | none =>
    simp only [hA] at hw ⊢
    cases hT : transport h r with
    | none => exact (quiet (by simpa [hT] using hw)).elim
    | some res =>
      obtain ⟨hdr, pre⟩ := res
      cases pre with
      | true => exact (quiet (by simpa [hT] using hw)).elim
      | false =>
        simp only [hT] at hw ⊢
        unfold serveAdmitted at hw ⊢
        by_cases hua : userAgentRejected h route r.userAgent = true
        · exact (quiet (by simpa [hua] using hw)).elim
        · simp only [hua, Bool.false_eq_true, if_false] at hw ⊢
          by_cases hsig : route.Pattern.Auth = Enable ∧ r.sig = ""
          · exact (quiet (by simpa [hsig] using hw)).elim
          · simp only [hsig, if_false] at hw ⊢
            cases hR : readParam env h pattern r with
            | error rej => exact (quiet (by simpa [hR] using hw)).elim
            | ok paramByte =>
              simp only [hR] at hw ⊢
              by_cases hlen : paramByte.length = 0
              · exact (quiet (by simpa [hlen] using hw)).elim
              · simp only [hlen, if_false] at hw ⊢
                cases hU : env.unmarshalAuth paramByte with
                | error err => exact (quiet (by simpa [hU] using hw)).elim
                | ok userAuth =>
                  simp only [hU] at hw ⊢
                  by_cases hv : userAuth.Version < route.Pattern.Version
                  · exact (quiet (by simpa [hv] using hw)).elim
                  · simp only [hv, if_false] at hw ⊢
                    obtain ⟨hc, idn, h1, h2, h3⟩ :=
                      serveDecoded_set env pattern route _ rds r hdr _ paramByte userAuth
                        hadm hw
                    exact ⟨hc, paramByte, userAuth, idn, rfl, hU, h1, h2, h3⟩

/-- The hypothesis of `cache_write_only_after_success` holds for the request of
the scenario, which writes the cache of the cacheable route `/echo`. -/
theorem cache_write_only_after_success_witness :
    (∃ e ∈ (serve demoEnv demoServer "/echo" echoRoute emptyLimiter (some emptyStore)
        echoRequest).trace, e.isCacheSet = true) ∧
      echoRoute.Pattern.Cache = Enable :=
  ⟨⟨Event.cacheSet "/echo" echoKey echoResponse, by decide, rfl⟩,
    (cache_write_only_after_success demoEnv demoServer "/echo" echoRoute emptyLimiter
      (some emptyStore) echoRequest
      ⟨Event.cacheSet "/echo" echoKey echoResponse, by decide, rfl⟩).1⟩

/-! ### The round trip through the cache -/

/-- C7, the code at the failing input: on a cacheable enveloped route whose
handler succeeds with a result that `json.Marshal` rejects, the first request
misses the cache, its handler returns no error, `cache` is called with the nil
bytes before the serialization error is looked at, and the client is answered
500; the same request again is answered from the cache, without any handler,
with status 200 and an empty body, which is not the body written for the first
request. -/
theorem cache_replays_failed_serialization :
    nanFirst.trace =
        [Event.limiterAllow "10.0.0.1", Event.tokenDecode (str "TOK"),
          Event.checkSign echoRequest.sig echoBody (str "KEY"),
          Event.cacheGet "/nan" echoKey, Event.handle "7" echoBody,
          Event.cacheSet "/nan" echoKey []] ∧
      (getCache (some emptyStore) echoAuth "/nan" echoBody).1 = .error "redis: nil" ∧
      (nanRoute.handle "7" echoBody).2 = none ∧
      nanFirst.status = 500 ∧
      nanSecond.trace =
        [Event.limiterAllow "10.0.0.1", Event.tokenDecode (str "TOK"),
          Event.checkSign echoRequest.sig echoBody (str "KEY"),
          Event.cacheGet "/nan" echoKey, Event.sign [] (str "KEY")] ∧
      nanSecond.status = 200 ∧
      nanSecond.body = [] ∧
      nanFirst.body ≠ nanSecond.body := by
  refine ⟨by decide, by decide, rfl, by decide, by decide, by decide, by decide, by decide⟩

theorem Header.get_set (hdr : Header) (k v : String) : (hdr.set k v).get k = v := by
  simp [Header.get, Header.set, List.lookup]

theorem serveDecoded_miss_success (env : Env) (pattern : String) (route : Route)
    (lim : iPRateLimiter) (store : Store) (r : Request) (hdr : Header) (tr : List Event)
    (paramByte : Bytes) (userAuth : auth) (idn : Identity) (v : Value) (jsonBytes : Bytes)
    (hcache : route.Pattern.Cache = Enable) (hgen : route.Pattern.General = Disable)
    (hup : store.up = true)
    (ha : (authenticate env pattern route r.sig paramByte userAuth).1 = .ok idn)
    (hmiss : store.data pattern (cacheKey userAuth paramByte) = none)
    (hh : (dispatch env route r idn paramByte).1 = (v, none))
    (hm : env.marshal { Version := route.Pattern.Version, State := "OK", Data := v } =
      .ok jsonBytes) :
    (serveDecoded env pattern route lim (some store) r hdr tr paramByte userAuth).status =
        StatusOK ∧
      (serveDecoded env pattern route lim (some store) r hdr tr paramByte userAuth).body =
        jsonBytes ∧
      (serveDecoded env pattern route lim (some store) r hdr tr paramByte userAuth).redis =
        some { store with data := fun p k =>
                if p = pattern ∧ k = cacheKey userAuth paramByte then some jsonBytes
                else store.data p k } := by
  have hprobe : (cacheProbe env pattern route (some store) hdr userAuth paramByte idn.ak).1 =
      none := by
    simp [cacheProbe, hcache, getCache_eq, Store.HGet, hup, hmiss]
  have henv : envelope env pattern route (some store) userAuth paramByte (v, none) =
      (.ok jsonBytes,
        (cache (some store) userAuth pattern paramByte jsonBytes).1,
        (cache (some store) userAuth pattern paramByte jsonBytes).2) := by
    simp [envelope, hm, hcache]
  simp only [serveDecoded, ha, hprobe, hh, format, hgen, henv]
  by_cases hauth : route.Pattern.Auth = Enable
  · simp [hauth, Outcome.status, Outcome.body, cache_store _ _ _ _ _ hup]
  · simp [hauth, Outcome.status, Outcome.body, cache_store _ _ _ _ _ hup]

theorem serveDecoded_hit (env : Env) (pattern : String) (route : Route)
    (lim : iPRateLimiter) (store : Store) (r : Request) (hdr : Header) (tr : List Event)
    (paramByte : Bytes) (userAuth : auth) (idn : Identity) (result : Bytes)
    (hcache : route.Pattern.Cache = Enable) (hgen : route.Pattern.General = Disable)
    (hup : store.up = true)
    (ha : (authenticate env pattern route r.sig paramByte userAuth).1 = .ok idn)
    (hhit : store.data pattern (cacheKey userAuth paramByte) = some result)
    (htr : ∀ e ∈ tr, e.isCache = false ∧ e.isHandler = false) :
    (serveDecoded env pattern route lim (some store) r hdr tr paramByte userAuth).status =
        StatusOK ∧
      (serveDecoded env pattern route lim (some store) r hdr tr paramByte userAuth).body =
        result ∧
      (∀ e ∈ (serveDecoded env pattern route lim (some store) r hdr tr paramByte
          userAuth).trace, e.isHandler = false) ∧
      (route.Pattern.Auth = Enable →
        (serveDecoded env pattern route lim (some store) r hdr tr paramByte
          userAuth).header contentSign = env.sign result idn.ak) := by
  have hq := authenticate_trace_quiet env pattern route r.sig paramByte userAuth
  by_cases hauth : route.Pattern.Auth = Enable
  · have hprobe : cacheProbe env pattern route (some store) hdr userAuth paramByte idn.ak =
        (some { status := StatusOK, header := hdr.set contentSign (env.sign result idn.ak),
                body := result },
          [Event.cacheGet pattern (cacheKey userAuth paramByte), Event.sign result idn.ak]) := by
      simp [cacheProbe, hcache, getCache_eq, Store.HGet, hup, hhit, hgen, hauth]
    simp only [serveDecoded, ha, hprobe]
    refine ⟨rfl, rfl, ?_, fun _ => ?_⟩
    · intro e he
      simp only [List.mem_append, List.mem_cons, List.mem_singleton, List.not_mem_nil,
        or_false] at he
      rcases he with (he | he) | he | he
      · exact (htr e he).2
      · exact (hq e he).2
      · subst he
        rfl
      · subst he
        rfl
    · simp [Outcome.header, Header.get_set]
  · have hprobe : cacheProbe env pattern route (some store) hdr userAuth paramByte idn.ak =
        (some { status := StatusOK, header := hdr, body := result },
          [Event.cacheGet pattern (cacheKey userAuth paramByte)]) := by
      simp [cacheProbe, hcache, getCache_eq, Store.HGet, hup, hhit, hgen, hauth]
    simp only [serveDecoded, ha, hprobe]
    refine ⟨rfl, rfl, ?_, fun h => absurd h hauth⟩
    intro e he
    simp only [List.mem_append, List.mem_singleton] at he
    rcases he with (he | he) | he
    · exact (htr e he).2
    · exact (hq e he).2
    · subst he
      rfl

/-- The round trip of C7 where the envelope serializes: on a cacheable enveloped
route and an available store, when a first request misses the cache, its
handler succeeds and the envelope serializes to `jsonBytes`, the request is
answered 200 with `jsonBytes`, and a later request with the same key that passes
all gates, served on the store the first one left, is answered 200 with the
same bytes, from the cache, without any handler, and with a signature computed
with its own access key when auth is enabled. -/
theorem round_trip_of_serialized (env : Env) (h : Server) (pattern : String) (route : Route)
    (lim1 lim2 : iPRateLimiter) (store : Store) (r1 r2 : Request) (hdr1 hdr2 : Header)
    (p1 p2 : Bytes) (u1 u2 : auth) (idn1 idn2 : Identity) (v : Value) (jsonBytes : Bytes)
    (hcache : route.Pattern.Cache = Enable) (hgen : route.Pattern.General = Disable)
    (hup : store.up = true)
    (hg1 : ReachesAuthentication env h pattern route lim1 r1 hdr1 p1 u1)
    (ha1 : (authenticate env pattern route r1.sig p1 u1).1 = .ok idn1)
    (hmiss : store.data pattern (cacheKey u1 p1) = none)
    (hh : (dispatch env route r1 idn1 p1).1 = (v, none))
    (hm : env.marshal { Version := route.Pattern.Version, State := "OK", Data := v } =
      .ok jsonBytes)
    (hg2 : ReachesAuthentication env h pattern route lim2 r2 hdr2 p2 u2)
    (ha2 : (authenticate env pattern route r2.sig p2 u2).1 = .ok idn2)
    (hkey : cacheKey u2 p2 = cacheKey u1 p1) :
    (serve env h pattern route lim1 (some store) r1).status = StatusOK ∧
      (serve env h pattern route lim1 (some store) r1).body = jsonBytes ∧
      (serve env h pattern route lim2 (serve env h pattern route lim1 (some store) r1).redis
        r2).status = StatusOK ∧
      (serve env h pattern route lim2 (serve env h pattern route lim1 (some store) r1).redis
        r2).body = jsonBytes ∧
      (∀ e ∈ (serve env h pattern route lim2
          (serve env h pattern route lim1 (some store) r1).redis r2).trace,
        e.isHandler = false) ∧
      (route.Pattern.Auth = Enable →
        (serve env h pattern route lim2 (serve env h pattern route lim1 (some store) r1).redis
          r2).header contentSign = env.sign jsonBytes idn2.ak) := by
  obtain ⟨s1, s2, s3⟩ := serveDecoded_miss_success env pattern route (admission h lim1 r1).1
    store r1 hdr1 (admission h lim1 r1).2.1 p1 u1 idn1 v jsonBytes hcache hgen hup ha1 hmiss
    hh hm
  rw [← serve_of_reaches env h pattern route lim1 (some store) r1 hdr1 p1 u1 hg1] at s1 s2 s3
  refine ⟨s1, s2, ?_⟩
  rw [s3, serve_of_reaches env h pattern route lim2 _ r2 hdr2 p2 u2 hg2]
  exact serveDecoded_hit env pattern route _ _ r2 hdr2 _ p2 u2 idn2 jsonBytes hcache hgen hup
    ha2 (by simp [hkey]) (admission_trace_quiet h lim2 r2)

/-- The hypotheses of `round_trip_of_serialized` hold for the scenario of the
route `/echo`: the request of the scenario, then the same request one second
later, which is answered from the cache with the body of the first response. -/
theorem round_trip_of_serialized_witness :
    (serve demoEnv demoServer "/echo" echoRoute emptyLimiter
      (serve demoEnv demoServer "/echo" echoRoute emptyLimiter (some emptyStore)
        echoRequest).redis echoRequest).body = echoResponse :=
  (round_trip_of_serialized demoEnv demoServer "/echo" echoRoute emptyLimiter emptyLimiter
    emptyStore echoRequest echoRequest [] [] echoBody echoBody echoAuth echoAuth
    ⟨7, 70, str "KEY"⟩ ⟨7, 70, str "KEY"⟩ (Value.other (Json.obj [("msg", Json.text "hi")]))
    echoResponse rfl rfl rfl (by decide) rfl rfl rfl (by decide) (by decide) rfl rfl).2.2.2.1

/-! ### Admission -/

/-- C10: with limiting enabled, a request of an address whose counter, once
incremented for this request, exceeds `maxRequestCount` is answered 429 whatever
its bucket holds; the bucket is not asked (the trace has no `Allow`) and the
limiter of the address is left as it was. -/
theorem high_frequency_is_rejected (env : Env) (h : Server) (pattern : String)
    (route : Route) (lim : iPRateLimiter) (rds : Option Store) (r : Request)
    (hrate : h.Rate > 0) (hburst : h.Burst > 0)
    (hcount : (lim.ipLimiter r.realIp r.now).2.count > maxRequestCount) :
    (serve env h pattern route lim rds r).status = StatusTooManyRequests ∧
      (serve env h pattern route lim rds r).trace = [] ∧
      ∃ item, lim.ips r.realIp = some item ∧
        (serve env h pattern route lim rds r).limiter.ips r.realIp =
          some { item with count := item.count + 1, lastDate := r.now } := by
  have hadm : admission h lim r =
      ((lim.ipLimiter r.realIp r.now).1, [], some (r.realIp ++ "判定为高频请求ip")) := by
    simp [admission, hrate, hburst, hcount]
  simp only [serve, hadm]
  refine ⟨rfl, trivial, ?_⟩
  cases hitem : lim.ips r.realIp with
  | none =>
    simp [iPRateLimiter.ipLimiter, hitem, maxRequestCount] at hcount
  | some item =>
    exact ⟨item, rfl, by simp [iPRateLimiter.ipLimiter, hitem]⟩

/-- The hypotheses of `high_frequency_is_rejected` hold for the request of the
scenario when its address has already made 2000 requests: it is answered 429
although the bucket of the address is full. -/
theorem high_frequency_is_rejected_witness :
    (busyLimiter.ipLimiter echoRequest.realIp echoRequest.now).2.count > maxRequestCount ∧
      ((busyLimiter.ipLimiter echoRequest.realIp echoRequest.now).2.limiter.Allow
        echoRequest.nowAllow).1 = true ∧
      (serve demoEnv demoServer "/echo" echoRoute busyLimiter (some emptyStore)
        echoRequest).status = 429 :=
  ⟨by decide, by decide,
    (high_frequency_is_rejected demoEnv demoServer "/echo" echoRoute busyLimiter
      (some emptyStore) echoRequest (by decide) (by decide) (by decide)).1⟩

/-- The wait for a missing fraction of a token is truncated to whole
nanoseconds: at 3 tokens a second, a bucket of size 1 emptied at time 0 grants
a request 333333333 ns later, when one unit of 10⁻⁹ token is still missing, and
is left overdrawn by that unit; one nanosecond earlier the wait is a whole
nanosecond and the request is refused. -/
theorem allow_truncates_wait :
    ((NewLimiter 3 1).Allow 0).2.Allow 333333333 = (true, ⟨3, 1, -1, 333333333⟩) ∧
      (((NewLimiter 3 1).Allow 0).2.Allow 333333332).1 = false := by
  decide

/-- Where the exact wait is a whole number of nanoseconds the model stands on
the boundary: at 10 tokens a second, a bucket of size 1 emptied at time 0 misses
10 units at 99999999 ns, a wait of exactly one nanosecond, and the model
refuses. The library computes the same wait in `float64`, where the rounded
difference `1 - 0.99999999` falls just short of 10⁻⁸ and the wait truncates to
zero, so it grants that request; this rounding is what the model leaves out. -/
theorem allow_at_whole_nanosecond :
    (((NewLimiter 10 1).Allow 0).2.advance 99999999 - oneToken = -10) ∧
      durationFromTokens 10 10 = 1 ∧
      (((NewLimiter 10 1).Allow 0).2.Allow 99999999).1 = false := by
  decide

theorem steady_allow (tl : Nat) :
    (Limiter.Allow ⟨10, 15, 14000000000, tl⟩ (tl + fifthOfSecond)) =
      (true, ⟨10, 15, 14000000000, tl + fifthOfSecond⟩) := by
  unfold Limiter.Allow Limiter.advance tokensFromDuration fifthOfSecond oneToken
  have h1 : ¬ (tl + 200000000 < tl) := by omega
  have h2 : tl + 200000000 - tl = 200000000 := by omega
  simp only [h1, if_false, h2]
  norm_num

theorem steady_step (lim : iPRateLimiter) (ip : String) (c d tl : Nat)
    (hitem : lim.ips ip = some ⟨c, d, ⟨10, 15, 14000000000, tl⟩⟩) :
    ((lim.ipLimiter ip (tl + fifthOfSecond)).2.limiter.Allow (tl + fifthOfSecond)).1 = true ∧
      (c + 1 ≤ 2000 →
        (admission demoServer lim (arrival ip (tl + fifthOfSecond))).2.2 = none ∧
        (admission demoServer lim (arrival ip (tl + fifthOfSecond))).1.ips ip =
          some ⟨c + 1, tl + fifthOfSecond, ⟨10, 15, 14000000000, tl + fifthOfSecond⟩⟩) ∧
      (2000 < c + 1 →
        (admission demoServer lim (arrival ip (tl + fifthOfSecond))).2.2 =
          some (ip ++ "判定为高频请求ip")) := by
  have hget : (lim.ipLimiter ip (tl + fifthOfSecond)).2 =
      ⟨c + 1, tl + fifthOfSecond, ⟨10, 15, 14000000000, tl⟩⟩ := by
    simp [iPRateLimiter.ipLimiter, hitem]
  refine ⟨by rw [hget]; simp [steady_allow], ?_, ?_⟩
  · intro hc
    have hc2 : ¬ (c + 1 > maxRequestCount) := by simp [maxRequestCount]; omega
    simp [admission, arrival, demoServer, hget, hc2, steady_allow]
  · intro hc
    have hc2 : c + 1 > maxRequestCount := by simp [maxRequestCount]; omega
    simp [admission, arrival, demoServer, hget, hc2]

theorem steady_run (n : Nat) : ∀ (lim : iPRateLimiter) (ip : String) (c d tl : Nat),
    lim.ips ip = some ⟨c, d, ⟨10, 15, 14000000000, tl⟩⟩ → c + n = 2000 →
    admitAll demoServer ip lim (arrivals fifthOfSecond (tl + fifthOfSecond) (n + 1)) =
      List.replicate n (true, none) ++ [(true, some (ip ++ "判定为高频请求ip"))] := by
  induction n with
  | zero =>
    intro lim ip c d tl hitem hc
    obtain ⟨h1, _, h3⟩ := steady_step lim ip c d tl hitem
    simp [admitAll, arrivals, h1, h3 (by omega)]
  | succ n ih =>
    intro lim ip c d tl hitem hc
    obtain ⟨h1, h2, _⟩ := steady_step lim ip c d tl hitem
    obtain ⟨h2a, h2b⟩ := h2 (by omega)
    have := ih _ ip (c + 1) _ (tl + fifthOfSecond) h2b (by omega)
    rw [arrivals, admitAll, h1, h2a, this]
    rfl

/-- C9 (as stated) fails: on a server with rate 10 and burst 15, an address that
sends five requests a second, and whose bucket therefore holds a token at every
arrival, has its first 2000 requests admitted and its 2001st rejected as a
high-frequency address. -/
theorem steady_client_is_rejected :
    admitAll demoServer "10.0.0.1" emptyLimiter (arrivals fifthOfSecond 1000 2001) =
      List.replicate 2000 (true, none) ++ [(true, some "10.0.0.1判定为高频请求ip")] := by
  have h0 : (emptyLimiter.ipLimiter "10.0.0.1" 1000).2 = ⟨1, 1000, NewLimiter 10 15⟩ := by
    simp [iPRateLimiter.ipLimiter, emptyLimiter]
  have hallow : (NewLimiter 10 15).Allow 1000 = (true, ⟨10, 15, 14000000000, 1000⟩) := by
    decide
  have hadm : (admission demoServer emptyLimiter (arrival "10.0.0.1" 1000)).2.2 = none := by
    decide
  have hstate : (admission demoServer emptyLimiter (arrival "10.0.0.1" 1000)).1.ips "10.0.0.1" =
      some ⟨1, 1000, ⟨10, 15, 14000000000, 1000⟩⟩ := by
    decide
  have hrun := steady_run 1999 _ "10.0.0.1" 1 1000 1000 hstate rfl
  rw [arrivals, admitAll, h0, hallow, hadm, hrun]
  rfl

/-! ### Runs of one client below the rate and the burst -/

theorem Ahead.ge {rate : Nat} {budget : Int} {base : Nat} :
    ∀ {k : Nat} {ts : List Time}, Ahead rate budget base k ts → ∀ x ∈ ts, base ≤ x := by
  intro k ts
  induction ts generalizing k with
  | nil => intro _ x hx; cases hx
  | cons t rest ih =>
    intro h x hx
    obtain ⟨h1, _, h3⟩ := h
    rcases List.mem_cons.mp hx with rfl | hx
    · exact h1
    · exact ih h3 x hx

theorem Ahead.mono {rate : Nat} {budget budget2 : Int} {base : Nat} (hle : budget ≤ budget2) :
    ∀ {k : Nat} {ts : List Time}, Ahead rate budget base k ts → Ahead rate budget2 base k ts := by
  intro k ts
  induction ts generalizing k with
  | nil => intro _; trivial
  | cons t rest ih =>
    intro h
    obtain ⟨h1, h2, h3⟩ := h
    exact ⟨h1, by omega, ih h3⟩

theorem Ahead.shift {rate : Nat} {budget : Int} {base : Nat} :
    ∀ {k : Nat} {ts : List Time}, Ahead rate budget base (k + 1) ts →
      Ahead rate (budget - oneToken) base k ts := by
  intro k ts
  induction ts generalizing k with
  | nil => intro _; trivial
  | cons t rest ih =>
    intro h
    obtain ⟨h1, h2, h3⟩ := h
    refine ⟨h1, ?_, ih h3⟩
    push_cast at h2 ⊢
    linarith

theorem Ahead.rebase {rate : Nat} {budget : Int} {base t : Nat} (hbt : base ≤ t) :
    ∀ {k : Nat} {ts : List Time}, Ahead rate budget base k ts → (∀ x ∈ ts, t ≤ x) →
      Ahead rate (budget + (((t - base) * rate : Nat) : Int)) t k ts := by
  intro k ts
  induction ts generalizing k with
  | nil => intro _ _; trivial
  | cons u rest ih =>
    intro h hge
    obtain ⟨h1, h2, h3⟩ := h
    have htu : t ≤ u := hge u (List.mem_cons_self _ _)
    refine ⟨htu, ?_, ih h3 (fun x hx => hge x (List.mem_cons_of_mem _ hx))⟩
    have hsplit : (u - base) * rate = (t - base) * rate + (u - t) * rate := by
      rw [← Nat.add_mul, Nat.add_comm (t - base), Nat.sub_add_sub_cancel htu hbt]
    rw [hsplit] at h2
    push_cast at h2 ⊢
    linarith

theorem Ahead.earlier {rate : Nat} {budget : Int} {base base2 : Nat} (hle : base2 ≤ base) :
    ∀ {k : Nat} {ts : List Time}, Ahead rate budget base k ts → Ahead rate budget base2 k ts := by
  intro k ts
  induction ts generalizing k with
  | nil => intro _; trivial
  | cons u rest ih =>
    intro h
    obtain ⟨h1, h2, h3⟩ := h
    refine ⟨le_trans hle h1, ?_, ih h3⟩
    have hmono : (u - base) * rate ≤ (u - base2) * rate :=
      Nat.mul_le_mul_right _ (by omega)
    have : (((u - base) * rate : Nat) : Int) ≤ (((u - base2) * rate : Nat) : Int) := by
      exact_mod_cast hmono
    linarith

theorem BelowRateAndBurst.fresh {rate : Nat} {burst : Int} :
    ∀ {ts : List Time}, BelowRateAndBurst rate burst ts →
      Ahead rate (burst * oneToken) 0 0 ts := by
  intro ts h
  cases ts with
  | nil => trivial
  | cons t rest =>
    obtain ⟨h1, h2, _⟩ := h
    refine ⟨Nat.zero_le _, ?_, Ahead.earlier (Nat.zero_le _) h2⟩
    have : (0 : Int) ≤ (((t - 0) * rate : Nat) : Int) := Int.ofNat_nonneg _
    push_cast at this ⊢
    linarith

/-- A bucket that has gathered a whole token since it was last drawn on grants
the request and keeps what is left. -/
theorem Limiter.Allow_of_refilled (l : Limiter) (t : Nat) (hb : 1 ≤ l.burst) (hlast : l.last ≤ t)
    (htok : (oneToken : Int) ≤ l.tokens + (((t - l.last) * l.limit : Nat) : Int)) :
    l.Allow t = (true, ⟨l.limit, l.burst,
      min (l.burst * oneToken) (l.tokens + (((t - l.last) * l.limit : Nat) : Int)) - oneToken,
      t⟩) := by
  have hlt : ¬ (t < l.last) := Nat.not_lt.mpr hlast
  have hB : (oneToken : Int) ≤ l.burst * oneToken := by
    have : (0 : Int) ≤ oneToken := Int.ofNat_nonneg _
    nlinarith
  have hadv : l.advance t =
      min (l.burst * oneToken) (l.tokens + (((t - l.last) * l.limit : Nat) : Int)) := by
    simp only [Limiter.advance, tokensFromDuration, hlt, if_false]
    by_cases hc : l.burst * oneToken < l.tokens + (((t - l.last) * l.limit : Nat) : Int)
    · rw [if_pos hc, min_eq_left (le_of_lt hc)]
    · rw [if_neg hc, min_eq_right (not_lt.mp hc)]
  have hge : (oneToken : Int) ≤ l.advance t := by
    rw [hadv]; exact le_min hB htok
  have hnn : ¬ (l.advance t - oneToken < 0) := by omega
  rw [hadv] at hnn
  simp only [Limiter.Allow, hadv, hnn, if_false, hb, le_refl, and_self, if_true]

theorem Ahead_iff (rate : Nat) (budget : Int) (base : Nat) :
    ∀ (ts : List Time) (k : Nat), Ahead rate budget base k ts ↔
      ∀ (j : Nat) (hj : j < ts.length), base ≤ ts[j] ∧
        ((k : Int) + j + 1) * oneToken ≤ budget + (((ts[j] - base) * rate : Nat) : Int) := by
  intro ts
  induction ts with
  | nil => intro k; simp [Ahead]
  | cons t rest ih =>
    intro k
    simp only [Ahead, ih (k + 1)]
    constructor
    · rintro ⟨h1, h2, h3⟩ j hj
      cases j with
      | zero => exact ⟨h1, by simpa using h2⟩
      | succ j =>
        obtain ⟨h4, h5⟩ := h3 j (by simpa using hj)
        refine ⟨h4, ?_⟩
        simp only [List.getElem_cons_succ]
        push_cast at h5 ⊢
        linarith
    · intro hall
      refine ⟨(hall 0 (by simp)).1, by simpa using (hall 0 (by simp)).2, ?_⟩
      intro j hj
      obtain ⟨h4, h5⟩ := hall (j + 1) (by simpa using hj)
      refine ⟨h4, ?_⟩
      simp only [List.getElem_cons_succ] at h5
      push_cast at h5 ⊢
      linarith

/-- What `BelowRateAndBurst` says of the arrival times, pair by pair: the burst
is at least one when there is a request, and for any two requests of the list,
the `i`-th arriving at `t` and a later one, the `j`-th, arriving at `u`, `t` is
not after `u` and the `j - i + 1` requests from the one to the other number at
most `burst` plus the tokens that `rate` adds in `u - t`. -/
theorem belowRateAndBurst_iff (rate : Nat) (burst : Int) :
    ∀ (ts : List Time), BelowRateAndBurst rate burst ts ↔
      (ts ≠ [] → (oneToken : Int) ≤ burst * oneToken) ∧
      ∀ (i j : Nat) (hij : i < j) (hj : j < ts.length),
        ts[i] ≤ ts[j] ∧
          ((j : Int) - i + 1) * oneToken ≤
            burst * oneToken + (((ts[j] - ts[i]) * rate : Nat) : Int) := by
  intro ts
  induction ts with
  | nil => simp [BelowRateAndBurst]
  | cons t rest ih =>
    simp only [BelowRateAndBurst, ih, Ahead_iff]
    constructor
    · rintro ⟨h1, h2, h3, h4⟩
      refine ⟨fun _ => h1, ?_⟩
      intro i j hij hj
      cases j with
      | zero => exact absurd hij (Nat.not_lt_zero _)
      | succ j =>
        cases i with
        | zero =>
          obtain ⟨h5, h6⟩ := h2 j (by simpa using hj)
          refine ⟨h5, ?_⟩
          simp only [List.getElem_cons_succ, List.getElem_cons_zero]
          push_cast at h6 ⊢
          linarith
        | succ i =>
          obtain ⟨h5, h6⟩ := h4 i j (by omega) (by simpa using hj)
          refine ⟨h5, ?_⟩
          simp only [List.getElem_cons_succ]
          push_cast at h6 ⊢
          linarith
    · rintro ⟨h1, h2⟩
      refine ⟨h1 (by simp), ?_, fun _ => h1 (by simp), ?_⟩
      · intro j hj
        obtain ⟨h5, h6⟩ := h2 0 (j + 1) (by omega) (by simpa using hj)
        refine ⟨h5, ?_⟩
        simp only [List.getElem_cons_succ, List.getElem_cons_zero] at h6
        push_cast at h6 ⊢
        linarith
      · intro i j hij hj
        obtain ⟨h5, h6⟩ := h2 (i + 1) (j + 1) (by omega) (by simpa using hj)
        refine ⟨h5, ?_⟩
        simp only [List.getElem_cons_succ] at h6
        push_cast at h6 ⊢
        linarith

theorem arrivals_ahead (rate : Nat) (budget : Int) (base period : Nat)
    (hperiod : oneToken ≤ period * rate) :
    ∀ (n k u : Nat), base ≤ u →
      ((k : Int) + 1) * oneToken ≤ budget + (((u - base) * rate : Nat) : Int) →
      Ahead rate budget base k (arrivals period u n) := by
  intro n
  induction n with
  | zero => intro _ _ _ _; trivial
  | succ n ih =>
    intro k u hu hk
    refine ⟨hu, hk, ih (k + 1) (u + period) (Nat.le_add_right_of_le hu) ?_⟩
    have hsplit : (u + period - base) * rate = (u - base) * rate + period * rate := by
      rw [← Nat.add_mul, Nat.sub_add_comm hu]
    have hp : (oneToken : Int) ≤ ((period * rate : Nat) : Int) := by exact_mod_cast hperiod
    rw [hsplit]
    push_cast at hk hp ⊢
    linarith

/-- A client that sends one request every `period`, where `period` is long
enough for `rate` to add a token, stays below the rate and any burst of at
least one. -/
theorem arrivals_below_rate_and_burst (rate : Nat) (burst : Int) (period : Nat)
    (hperiod : oneToken ≤ period * rate) (hburst : 1 ≤ burst) :
    ∀ (n t : Nat), BelowRateAndBurst rate burst (arrivals period t n) := by
  have hB : (oneToken : Int) ≤ burst * oneToken := by
    have : (0 : Int) ≤ oneToken := Int.ofNat_nonneg _
    nlinarith
  intro n
  induction n with
  | zero => intro _; trivial
  | succ n ih =>
    intro t
    refine ⟨hB, arrivals_ahead rate _ t period hperiod n 1 (t + period) (Nat.le_add_right _ _) ?_,
      ih (t + period)⟩
    have hp : (oneToken : Int) ≤ ((period * rate : Nat) : Int) := by exact_mod_cast hperiod
    have hsplit : (t + period - t) * rate = period * rate := by
      rw [Nat.add_sub_cancel_left]
    rw [hsplit]
    push_cast at hp ⊢
    linarith

/-- The client of `steady_client_is_rejected`, five requests a second on a server
with rate 10 and burst 15, stays below the rate and the burst. -/
theorem steady_client_conforms :
    BelowRateAndBurst 10 15 (arrivals fifthOfSecond 1000 2001) :=
  arrivals_below_rate_and_burst 10 15 fifthOfSecond (by decide) (by decide) 2001 1000

theorem admission_keeps_rate_burst (h : Server) (lim : iPRateLimiter) (r : Request) :
    (admission h lim r).1.rate = lim.rate ∧ (admission h lim r).1.burst = lim.burst := by
  simp only [admission]
  split_ifs <;> exact ⟨rfl, rfl⟩

theorem admission_of_refilled (h : Server) (lim : iPRateLimiter) (ip : String) (t c : Nat)
    (tok : Int) (last : Nat) (hrate : 0 < h.Rate) (hburst : 0 < h.Burst)
    (hst : Holds h lim ip c tok last) (hlast : last ≤ t)
    (htok : (oneToken : Int) ≤ tok + (((t - last) * h.Rate.toNat : Nat) : Int))
    (hc : c + 1 ≤ maxRequestCount) :
    ((lim.ipLimiter ip t).2.limiter.Allow t).1 = true ∧
      (admission h lim (arrival ip t)).2.2 = none ∧
      Holds h (admission h lim (arrival ip t)).1 ip (c + 1)
        (min (h.Burst * oneToken) (tok + (((t - last) * h.Rate.toNat : Nat) : Int)) - oneToken)
        t := by
  obtain ⟨hr, hb, hitem⟩ := hst
  have hget : (lim.ipLimiter ip t).2 = ⟨c + 1, t, ⟨h.Rate.toNat, h.Burst, tok, last⟩⟩ := by
    rcases hitem with ⟨hnone, hc0, htk, hl⟩ | ⟨d, hsome⟩
    · subst hc0 htk hl
      simp [iPRateLimiter.ipLimiter, hnone, NewLimiter, hr, hb]
    · simp [iPRateLimiter.ipLimiter, hsome]
  have hallow := Limiter.Allow_of_refilled ⟨h.Rate.toNat, h.Burst, tok, last⟩ t
    (by show (1 : Int) ≤ h.Burst; omega) hlast htok
  have hc2 : ¬ (c + 1 > maxRequestCount) := Nat.not_lt.mpr hc
  refine ⟨by rw [hget]; simp only [hallow], ?_, ?_⟩
  · simp [admission, arrival, hrate, hburst, hget, hc2, hallow]
  · refine ⟨?_, ?_, Or.inr ⟨t, ?_⟩⟩
    · rw [(admission_keeps_rate_burst h lim (arrival ip t)).1, hr]
    · rw [(admission_keeps_rate_burst h lim (arrival ip t)).2, hb]
    · simp [admission, arrival, hrate, hburst, hget, hc2, hallow]

theorem dump_holds (h : Server) (lim : iPRateLimiter) (ip : String) (now c : Nat)
    (tok : Int) (last : Nat) (ts : List Time) (hst : Holds h lim ip c tok last)
    (hahead : Ahead h.Rate.toNat tok last 0 ts)
    (hbelow : BelowRateAndBurst h.Rate.toNat h.Burst ts) :
    ∃ tok2 last2, Holds h (lim.dump now) ip 0 tok2 last2 ∧
      Ahead h.Rate.toNat tok2 last2 0 ts := by
  obtain ⟨hr, hb, hitem⟩ := hst
  rcases hitem with ⟨hnone, hc0, htk, hl⟩ | ⟨d, hsome⟩
  · subst htk hl
    exact ⟨_, _, ⟨hr, hb, Or.inl ⟨by simp [iPRateLimiter.dump, hnone], rfl, rfl, rfl⟩⟩, hahead⟩
  · by_cases hidle : d + maxAliveTime < now
    · exact ⟨_, _, ⟨hr, hb, Or.inl ⟨by simp [iPRateLimiter.dump, hsome, hidle], rfl, rfl, rfl⟩⟩,
        BelowRateAndBurst.fresh hbelow⟩
    · exact ⟨tok, last, ⟨hr, hb, Or.inr ⟨d, by simp [iPRateLimiter.dump, hsome, hidle]⟩⟩, hahead⟩

theorem admission_other (h : Server) (lim : iPRateLimiter) (ip : String) (r : Request)
    (hne : r.realIp ≠ ip) : (admission h lim r).1.ips ip = lim.ips ip := by
  have hne2 : ¬ ip = r.realIp := fun he => hne he.symm
  simp only [admission]
  split_ifs <;> simp [iPRateLimiter.ipLimiter, hne2]

theorem other_holds (h : Server) (lim : iPRateLimiter) (ip : String) (r : Request) (c : Nat)
    (tok : Int) (last : Nat) (hne : r.realIp ≠ ip) (hst : Holds h lim ip c tok last) :
    Holds h (admission h lim r).1 ip c tok last := by
  obtain ⟨hr, hb, hitem⟩ := hst
  refine ⟨by rw [(admission_keeps_rate_burst h lim r).1, hr],
    by rw [(admission_keeps_rate_burst h lim r).2, hb], ?_⟩
  rw [admission_other h lim ip r hne]
  exact hitem

theorem admitRun_of_holds (h : Server) (ip : String) (hrate : 0 < h.Rate) (hburst : 0 < h.Burst) :
    ∀ (steps : List Step) (lim : iPRateLimiter) (c : Nat) (tok : Int) (last : Nat),
      Holds h lim ip c tok last → Ahead h.Rate.toNat tok last 0 (requestTimes steps) →
      BelowRateAndBurst h.Rate.toNat h.Burst (requestTimes steps) → WithinCount c steps →
      Foreign ip steps →
      ∀ x ∈ admitRun h ip lim steps, x = (true, none) := by
  intro steps
  induction steps with
  | nil => intro _ _ _ _ _ _ _ _ _ x hx; cases hx
  | cons s rest ih =>
    intro lim c tok last hst hahead hbelow hcount hother x hx
    cases s with
    | request t =>
      obtain ⟨ha1, ha2, ha3⟩ := hahead
      obtain ⟨_, hb2, hb3⟩ := hbelow
      obtain ⟨hc1, hc2⟩ := hcount
      have ha2c : (oneToken : Int) ≤ tok + (((t - last) * h.Rate.toNat : Nat) : Int) := by
        push_cast at ha2 ⊢
        linarith
      obtain ⟨h1, h2, h3⟩ := admission_of_refilled h lim ip t c tok last hrate hburst hst ha1
        ha2c hc1
      rw [admitRun, h1, h2] at hx
      rcases List.mem_cons.mp hx with rfl | hx
      · rfl
      · refine ih _ (c + 1) _ t h3 ?_ hb3 hc2 hother x hx
        apply Ahead.shift
        rcases min_choice (h.Burst * (oneToken : Int))
            (tok + (((t - last) * h.Rate.toNat : Nat) : Int)) with hm | hm
        · rw [hm]; exact hb2
        · rw [hm]; exact Ahead.rebase ha1 ha3 (Ahead.ge hb2)
    | sweep now =>
      obtain ⟨tok2, last2, hst2, hahead2⟩ :=
        dump_holds h lim ip now c tok last (requestTimes rest) hst hahead hbelow
      rw [admitRun] at hx
      exact ih _ 0 tok2 last2 hst2 hahead2 hbelow hcount hother x hx
    | other r =>
      rw [admitRun] at hx
      exact ih _ c tok last (other_holds h lim ip r c tok last hother.1 hst) hahead hbelow
        hcount hother.2 x hx

theorem admitRun_length (h : Server) (ip : String) :
    ∀ (steps : List Step) (lim : iPRateLimiter),
      (admitRun h ip lim steps).length = (requestTimes steps).length := by
  intro steps
  induction steps with
  | nil => intro _; rfl
  | cons s rest ih =>
    intro lim
    cases s with
    | request t => simp [admitRun, requestTimes, ih]
    | sweep now => simp [admitRun, requestTimes, ih]
    | other r => simp [admitRun, requestTimes, ih]

/-- C9 (as amended): on a server with a positive rate and burst, take an address
that the registry does not know yet and any run of its requests, of requests
of other addresses and of sweeps. If the arrival times of its requests stay
below the rate and the burst, and no more than `maxRequestCount` of them arrive
between two sweeps, then the bucket grants every request of the address and
admission rejects none. -/
theorem conforming_client_is_admitted (h : Server) (ip : String) (lim : iPRateLimiter)
    (steps : List Step) (hrate : 0 < h.Rate) (hburst : 0 < h.Burst)
    (hcfg : lim.rate = h.Rate ∧ lim.burst = h.Burst) (hnew : lim.ips ip = none)
    (hother : Foreign ip steps)
    (hbelow : BelowRateAndBurst h.Rate.toNat h.Burst (requestTimes steps))
    (hcount : WithinCount 0 steps) :
    admitRun h ip lim steps = List.replicate (requestTimes steps).length (true, none) := by
  rw [List.eq_replicate_iff]
  exact ⟨admitRun_length h ip steps lim,
    admitRun_of_holds h ip hrate hburst steps lim 0 (h.Burst * oneToken) 0
      ⟨hcfg.1, hcfg.2, Or.inl ⟨hnew, rfl, rfl, rfl⟩⟩ (BelowRateAndBurst.fresh hbelow) hbelow
      hcount hother⟩

/-- The hypotheses of `conforming_client_is_admitted` hold for a client of a
server with rate 10 and burst 2 that sends two requests at once and one more
every 100 ms, with a sweep and a request of another address in between: the
two first requests empty the bucket, each later one finds the token added
since the one before, and all four are admitted. -/
theorem conforming_client_is_admitted_witness :
    Foreign "10.0.0.1" tightRun ∧
      BelowRateAndBurst tightServer.Rate.toNat tightServer.Burst (requestTimes tightRun) ∧
      WithinCount 0 tightRun ∧
      admitRun tightServer "10.0.0.1" tightLimiter tightRun =
        [(true, none), (true, none), (true, none), (true, none)] :=
  ⟨by decide, by decide, by decide,
    conforming_client_is_admitted tightServer "10.0.0.1" tightLimiter tightRun (by decide)
      (by decide) ⟨rfl, rfl⟩ rfl (by decide) (by decide) (by decide)⟩

/-! ### The sweep of the registry -/

/-- C11: one sweep at time `now`, on any registry: an address whose last activity
plus the alive window is before `now` is absent afterwards; every other address
is still present, with its counter at zero and its last activity and limiter
unchanged; an address that was absent stays absent. -/
theorem sweep_removes_idle_resets_active (i : iPRateLimiter) (now : Time) (k : String) :
    (∀ v, i.ips k = some v → v.lastDate + maxAliveTime < now → (i.dump now).ips k = none) ∧
      (∀ v, i.ips k = some v → ¬ v.lastDate + maxAliveTime < now →
        (i.dump now).ips k = some { v with count := 0 }) ∧
      (i.ips k = none → (i.dump now).ips k = none) := by
  refine ⟨?_, ?_, ?_⟩
  · intro v hv hidle
    simp [iPRateLimiter.dump, hv, hidle]
  · intro v hv hactive
    simp [iPRateLimiter.dump, hv, hactive]
  · intro hv
    simp [iPRateLimiter.dump, hv]

/-- The sweep at 700 s of a registry with an address last seen at 0 s and one
last seen at 500 s removes the first and resets the counter of the second. -/
theorem sweep_removes_idle_resets_active_witness :
    (sweepLimiter.dump sweepTime).ips "10.0.0.1" = none ∧
      (sweepLimiter.dump sweepTime).ips "10.0.0.2" =
        some { count := 0, lastDate := 500000000000, limiter := NewLimiter 10 15 } ∧
      (sweepLimiter.dump sweepTime).ips "10.0.0.3" = none :=
  ⟨(sweep_removes_idle_resets_active sweepLimiter sweepTime "10.0.0.1").1
      { count := 37, lastDate := 0, limiter := NewLimiter 10 15 } rfl (by decide),
    (sweep_removes_idle_resets_active sweepLimiter sweepTime "10.0.0.2").2.1
      { count := 12, lastDate := 500000000000, limiter := NewLimiter 10 15 } rfl (by decide),
    (sweep_removes_idle_resets_active sweepLimiter sweepTime "10.0.0.3").2.2 rfl⟩

/-- C12: an address does not outlive two consecutive sweeps past its last
activity. If the last activity of `k` is before the sweep at `s1`, and the
registry `j` met by the next sweep, at `s1 + dumpPeriod`, holds for `k` what the
first sweep left (no further request of `k`), then `k` is absent after the
second sweep. -/
theorem idle_client_gone_after_two_sweeps (i j : iPRateLimiter) (k : String) (s1 : Nat)
    (hidle : ∀ v, i.ips k = some v → v.lastDate < s1)
    (hsame : j.ips k = (i.dump s1).ips k) :
    (j.dump (s1 + dumpPeriod)).ips k = none := by
  simp only [iPRateLimiter.dump, hsame]
  cases hv : i.ips k with
  | none => rfl
  | some v =>
    have hlt := hidle v hv
    by_cases h1 : v.lastDate + maxAliveTime < s1
    · simp [h1]
    · have h2 : v.lastDate + maxAliveTime < s1 + dumpPeriod :=
        Nat.add_lt_add_right hlt maxAliveTime
      simp [h1, h2]

/-- The address last seen at 500 s survives the sweep at 700 s and is gone after
the sweep ten minutes later. -/
theorem idle_client_gone_after_two_sweeps_witness :
    (∀ v, sweepLimiter.ips "10.0.0.2" = some v → v.lastDate < sweepTime) ∧
      (sweepLimiter.dump sweepTime).ips "10.0.0.2" ≠ none ∧
      ((sweepLimiter.dump sweepTime).dump (sweepTime + dumpPeriod)).ips "10.0.0.2" = none :=
  ⟨fun v hv => by
      have : v = { count := 12, lastDate := 500000000000, limiter := NewLimiter 10 15 } := by
        simpa [sweepLimiter] using hv.symm
      subst this
      decide,
    by simp [iPRateLimiter.dump, sweepLimiter, sweepTime, maxAliveTime],
    idle_client_gone_after_two_sweeps sweepLimiter (sweepLimiter.dump sweepTime) "10.0.0.2"
      sweepTime (fun v hv => by
        have : v = { count := 12, lastDate := 500000000000, limiter := NewLimiter 10 15 } := by
          simpa [sweepLimiter] using hv.symm
        subst this
        decide) rfl⟩

/-! ### The shape of an outcome -/

theorem readParam_error_code (env : Env) (h : Server) (pattern : String) (r : Request)
    (rej : Nat × String) (hr : readParam env h pattern r = .error rej) :
    rej.1 ≠ StatusOK := by
  unfold readParam at hr
  split_ifs at hr
  · split at hr
    · cases hr
      exact (by decide : (500 : Nat) ≠ 200)
    · cases hr
  · cases hr
    exact (by decide : (413 : Nat) ≠ 200)

/-- The outcome of a request rejected before authentication with `msg` and
`code`, on the headers `hdr`. -/
theorem serveAdmitted_cases (env : Env) (h : Server) (pattern : String) (route : Route)
    (lim : iPRateLimiter) (rds : Option Store) (r : Request) (hdr : Header)
    (tr : List Event) :
    (∃ paramByte userAuth,
        userAgentRejected h route r.userAgent = false ∧ PassesSignaturePresence route r ∧
        DecodesTo env h pattern r paramByte userAuth ∧
        ¬ userAuth.Version < route.Pattern.Version) ∨
      ∃ msg code, code ≠ StatusOK ∧
        serveAdmitted env h pattern route lim rds r hdr tr =
          { resp := some (httpError hdr msg code), trace := tr, limiter := lim, redis := rds } := by
  by_cases hua : userAgentRejected h route r.userAgent = true
  · right
    exact ⟨_, StatusForbidden, by decide, by simp only [serveAdmitted, hua, if_true]; rfl⟩
  · by_cases hsig : route.Pattern.Auth = Enable ∧ r.sig = ""
    · right
      exact ⟨_, StatusForbidden, by decide,
        by simp only [serveAdmitted, hua, Bool.false_eq_true, if_false, hsig, and_self, if_true]; rfl⟩
    · cases hR : readParam env h pattern r with
      | error rej =>
        right
        exact ⟨rej.2, rej.1, readParam_error_code env h pattern r rej hR,
          by simp only [serveAdmitted, hua, Bool.false_eq_true, if_false, hsig, hR]⟩
      | ok paramByte =>
        by_cases hlen : paramByte.length = 0
        · right
          exact ⟨_, StatusNoContent, by decide,
            by simp only [serveAdmitted, hua, Bool.false_eq_true, if_false, hsig, hR, hlen,
              if_true]; rfl⟩
        · cases hU : env.unmarshalAuth paramByte with
          | error err =>
            right
            exact ⟨_, StatusInternalServerError, by decide,
              by simp only [serveAdmitted, hua, Bool.false_eq_true, if_false, hsig, hR, hlen,
                hU]; rfl⟩
          | ok userAuth =>
            by_cases hv : userAuth.Version < route.Pattern.Version
            · right
              exact ⟨_, StatusGone, by decide,
                by simp only [serveAdmitted, hua, Bool.false_eq_true, if_false, hsig, hR, hlen,
                  hU, hv, if_true]; rfl⟩
            · left
              refine ⟨paramByte, userAuth, by simpa using hua, hsig, ⟨hR, ?_, hU⟩, hv⟩
              intro h0
              exact hlen (by simp [h0])

/-- Either the request passes every gate before authentication, or the closure
ends early: nothing but the admission check has run, the store is untouched,
and the response is missing (a panic), the answer to a preflight, or an error
of `http.Error` with a status other than 200, written on the headers that the
transport policy left, if it ran. -/
theorem serve_cases (env : Env) (h : Server) (pattern : String) (route : Route)
    (lim : iPRateLimiter) (rds : Option Store) (r : Request) :
    (∃ hdr paramByte userAuth,
        ReachesAuthentication env h pattern route lim r hdr paramByte userAuth) ∨
      ((serve env h pattern route lim rds r).trace = (admission h lim r).2.1 ∧
        (serve env h pattern route lim rds r).redis = rds ∧
        ((serve env h pattern route lim rds r).resp = none ∨
          (∃ hdr, transport h r = some (hdr, true) ∧
            (serve env h pattern route lim rds r).resp =
              some { status := StatusOK, header := hdr, body := [] }) ∨
          (∃ hdr msg code, (hdr = [] ∨ transport h r = some (hdr, false)) ∧
            code ≠ StatusOK ∧
            (serve env h pattern route lim rds r).resp = some (httpError hdr msg code)))) := by
  cases hA : (admission h lim r).2.2 with
  | some msg =>
    right
    have hs : serve env h pattern route lim rds r =
        { resp := some (httpError [] msg StatusTooManyRequests),
          trace := (admission h lim r).2.1, limiter := (admission h lim r).1, redis := rds } := by
      simp only [serve, hA]
    rw [hs]
    exact ⟨rfl, rfl, Or.inr (Or.inr ⟨[], msg, StatusTooManyRequests, Or.inl rfl, by decide, rfl⟩)⟩
  | none =>
    cases hT : transport h r with
    | none =>
      right
      have hs : serve env h pattern route lim rds r =
          { resp := none, trace := (admission h lim r).2.1, limiter := (admission h lim r).1,
            redis := rds } := by
        simp only [serve, hA, hT]
      rw [hs]
      exact ⟨rfl, rfl, Or.inl rfl⟩
    | some res =>
      obtain ⟨hdr, pre⟩ := res
      cases pre with
      | true =>
        right
        have hs : serve env h pattern route lim rds r =
            { resp := some { status := StatusOK, header := hdr, body := [] },
              trace := (admission h lim r).2.1, limiter := (admission h lim r).1,
              redis := rds } := by
          simp only [serve, hA, hT]
        rw [hs]
        exact ⟨rfl, rfl, Or.inr (Or.inl ⟨hdr, rfl, rfl⟩)⟩
      | false =>
        have hs : serve env h pattern route lim rds r =
            serveAdmitted env h pattern route (admission h lim r).1 rds r hdr
              (admission h lim r).2.1 := by
          simp only [serve, hA, hT]
        rcases serveAdmitted_cases env h pattern route (admission h lim r).1 rds r hdr
          (admission h lim r).2.1 with ⟨paramByte, userAuth, hua, hsig, hd, hv⟩ | ⟨msg, code, hc, he⟩
        · left
          exact ⟨hdr, paramByte, userAuth, ⟨hA, hT, hua⟩, hsig, hd, hv⟩
        · right
          rw [hs, he]
          exact ⟨rfl, rfl, Or.inr (Or.inr ⟨hdr, msg, code, Or.inr rfl, hc, rfl⟩)⟩

/-! ### Routes without authentication -/

theorem Header.has_set_ne (hdr : Header) (k v k2 : String) (hne : k ≠ k2) :
    (hdr.set k v).has k2 = hdr.has k2 := by
  have hne2 : ¬ k = k2 := hne
  simp only [Header.has, Header.set, List.any_cons, hne2, decide_False, Bool.false_or,
    List.any_filter]
  congr 1
  funext e
  by_cases hk : e.1 = k
  · have hk2 : ¬ e.1 = k2 := fun h2 => hne (hk.symm.trans h2)
    simp [hk2]
  · simp [hk]

theorem httpError_has (hdr : Header) (msg : String) (code : Nat) :
    (httpError hdr msg code).header.has contentSign = hdr.has contentSign := by
  simp only [httpError]
  rw [Header.has_set_ne _ _ _ _ (by decide), Header.has_set_ne _ _ _ _ (by decide)]

theorem corsHeaders_has (cfg : CORSConfig) (origin : String) :
    (corsHeaders cfg origin []).has contentSign = false := by
  simp only [corsHeaders]
  rw [Header.has_set_ne _ _ _ _ (by decide), Header.has_set_ne _ _ _ _ (by decide),
    Header.has_set_ne _ _ _ _ (by decide), Header.has_set_ne _ _ _ _ (by decide),
    Header.has_set_ne _ _ _ _ (by decide)]
  split
  · rw [Header.has_set_ne _ _ _ _ (by decide), Header.has_set_ne _ _ _ _ (by decide),
      Header.has_set_ne _ _ _ _ (by decide)]
    rfl
  · rfl

theorem transport_has (h : Server) (r : Request) (hdr : Header) (b : Bool)
    (ht : transport h r = some (hdr, b)) : hdr.has contentSign = false := by
  unfold transport at ht
  split_ifs at ht
  · split at ht
    · cases ht
    · cases ht
      exact corsHeaders_has _ _
  · cases ht
    rfl

theorem admission_no_verify (h : Server) (lim : iPRateLimiter) (r : Request) :
    ∀ e ∈ (admission h lim r).2.1, e.isVerify = false := by
  intro e he
  rw [admission_trace h lim r e he]
  rfl

theorem cache_no_verify (rds : Option Store) (userAuth : auth) (pattern : String)
    (param result : Bytes) : ∀ e ∈ (cache rds userAuth pattern param result).2,
      e.isVerify = false ∧ e.isHandler = false := by
  cases rds with
  | none => simp [cache]
  | some store =>
    rw [cache_trace]
    simp [Event.isVerify, Event.isHandler]

theorem getCache_no_verify (rds : Option Store) (userAuth : auth) (pattern : String)
    (param : Bytes) : ∀ e ∈ (getCache rds userAuth pattern param).2,
      e.isVerify = false ∧ e.isHandler = false := by
  cases rds with
  | none => simp [getCache]
  | some store => simp [getCache, Event.isVerify, Event.isHandler]

theorem dispatch_no_verify (env : Env) (route : Route) (r : Request) (idn : Identity)
    (paramByte : Bytes) : ∀ e ∈ (dispatch env route r idn paramByte).2, e.isVerify = false := by
  unfold dispatch
  cases route.userAgentHandle <;> cases route.sessionHandle <;> cases route.ipHandle <;>
    simp [Event.isVerify]

theorem cacheProbe_no_auth (env : Env) (pattern : String) (route : Route) (rds : Option Store)
    (hdr : Header) (userAuth : auth) (paramByte ak : Bytes)
    (hauth : route.Pattern.Auth = Disable) :
    (∀ e ∈ (cacheProbe env pattern route rds hdr userAuth paramByte ak).2,
        e.isVerify = false) ∧
      ∀ hit, (cacheProbe env pattern route rds hdr userAuth paramByte ak).1 = some hit →
        hit.header = hdr := by
  have hg := getCache_no_verify rds userAuth pattern paramByte
  unfold cacheProbe
  by_cases h1 : route.Pattern.Cache = Enable
  · simp only [h1, if_true]
    cases h2 : (getCache rds userAuth pattern paramByte).1 with
    | error err =>
      refine ⟨fun e he => (hg e he).1, ?_⟩
      intro hit hhit
      cases hhit
    | ok result =>
      by_cases h3 : route.Pattern.General = Enable
      · simp only [h3, if_true]
        refine ⟨fun e he => (hg e he).1, ?_⟩
        intro hit hhit
        cases hhit
        rfl
      · simp only [h3, if_false, hauth, reduceCtorEq]
        refine ⟨fun e he => (hg e he).1, ?_⟩
        intro hit hhit
        cases hhit
        rfl
  · simp [h1]

theorem format_no_auth (env : Env) (pattern : String) (route : Route) (rds : Option Store)
    (hdr : Header) (userAuth : auth) (paramByte ak : Bytes) (out : HandlerOut)
    (hauth : route.Pattern.Auth = Disable) :
    (∀ e ∈ (format env pattern route rds hdr userAuth paramByte ak out).2.1,
        e.isVerify = false) ∧
      (format env pattern route rds hdr userAuth paramByte ak out).1.header.has contentSign =
        hdr.has contentSign := by
  have hc := fun res => cache_no_verify rds userAuth pattern paramByte res
  by_cases hgen : route.Pattern.General = Enable
  · simp only [format, hgen, if_true]
    cases herr : out.2 with
    | some err => exact ⟨by simp, httpError_has _ _ _⟩
    | none =>
      cases hres : out.1 with
      | nil => exact ⟨by simp, rfl⟩
      | other v => exact ⟨by simp, httpError_has _ _ _⟩
      | bytes res =>
        have hh : (if route.ContentType ≠ "" then hdr.set "Content-Type" route.ContentType
            else hdr).has contentSign = hdr.has contentSign := by
          split
          · exact Header.has_set_ne _ _ _ _ (by decide)
          · rfl
        by_cases hcache : route.Pattern.Cache = Enable
        · simp only [hcache, if_true]
          exact ⟨fun e he => (hc res e he).1, hh⟩
        · simp only [hcache, if_false]
          exact ⟨by simp, hh⟩
  · simp only [format, hgen, if_false]
    have henv : ∀ e ∈ (envelope env pattern route rds userAuth paramByte out).2.2,
        e.isVerify = false := by
      unfold envelope
      cases herr : out.2 with
      | some err => simp
      | none =>
        by_cases hcache : route.Pattern.Cache = Enable
        · simp only [hcache, if_true]
          exact fun e he => (hc _ e he).1
        · simp [hcache]
    cases hE : (envelope env pattern route rds userAuth paramByte out).1 with
    | error err => exact ⟨henv, httpError_has _ _ _⟩
    | ok jsonBytes =>
      simp only [hauth, reduceCtorEq, if_false]
      exact ⟨henv, trivial⟩

theorem serveDecoded_no_auth (env : Env) (pattern : String) (route : Route)
    (lim : iPRateLimiter) (rds : Option Store) (r : Request) (hdr : Header)
    (tr : List Event) (paramByte : Bytes) (userAuth : auth)
    (hauth : route.Pattern.Auth = Disable)
    (hh : hdr.has contentSign = false)
    (htr : ∀ e ∈ tr, e.isVerify = false) :
    (∀ e ∈ (serveDecoded env pattern route lim rds r hdr tr paramByte userAuth).trace,
        e.isVerify = false) ∧
      (serveDecoded env pattern route lim rds r hdr tr paramByte userAuth).hasHeader
        contentSign = false := by
  have ha : authenticate env pattern route r.sig paramByte userAuth =
      (.ok { tId := 0, tSession := 0, ak := [] }, []) := by
    simp [authenticate, hauth]
  have hp := cacheProbe_no_auth env pattern route rds hdr userAuth paramByte [] hauth
  simp only [serveDecoded, ha, List.append_nil]
  cases hprobe : (cacheProbe env pattern route rds hdr userAuth paramByte []).1 with
  | some hit =>
    simp only [Outcome.hasHeader, hp.2 hit hprobe, hh, and_true]
    intro e he
    rcases List.mem_append.mp he with he | he
    · exact htr e he
    · exact hp.1 e he
  | none =>
    have hf := format_no_auth env pattern route rds hdr userAuth paramByte []
      (dispatch env route r { tId := 0, tSession := 0, ak := [] } paramByte).1 hauth
    simp only [Outcome.hasHeader, hf.2, hh, and_true]
    intro e he
    simp only [List.mem_append] at he
    rcases he with ((he | he) | he) | he
    · exact htr e he
    · exact hp.1 e he
    · exact dispatch_no_verify env route r _ paramByte e he
    · exact hf.1 e he

theorem serveDecoded_sig (env : Env) (pattern : String) (route : Route)
    (lim : iPRateLimiter) (rds : Option Store) (r : Request) (hdr : Header)
    (tr : List Event) (paramByte : Bytes) (userAuth : auth) (s : String)
    (hauth : route.Pattern.Auth = Disable) :
    serveDecoded env pattern route lim rds { r with sig := s } hdr tr paramByte userAuth =
      serveDecoded env pattern route lim rds r hdr tr paramByte userAuth := by
  have ha : ∀ sig, authenticate env pattern route sig paramByte userAuth =
      (.ok { tId := 0, tSession := 0, ak := [] }, []) := by
    intro sig
    simp [authenticate, hauth]
  have hd : ∀ idn, dispatch env route { r with sig := s } idn paramByte =
      dispatch env route r idn paramByte := fun _ => rfl
  simp only [serveDecoded, ha, hd]

theorem serveAdmitted_sig (env : Env) (h : Server) (pattern : String) (route : Route)
    (lim : iPRateLimiter) (rds : Option Store) (r : Request) (hdr : Header)
    (tr : List Event) (s : String) (hauth : route.Pattern.Auth = Disable) :
    serveAdmitted env h pattern route lim rds { r with sig := s } hdr tr =
      serveAdmitted env h pattern route lim rds r hdr tr := by
  have hr : readParam env h pattern { r with sig := s } = readParam env h pattern r := rfl
  simp only [serveAdmitted, hr, hauth, reduceCtorEq, false_and, if_false,
    serveDecoded_sig env pattern route lim rds r hdr tr _ _ s hauth]

theorem serve_sig (env : Env) (h : Server) (pattern : String) (route : Route)
    (lim : iPRateLimiter) (rds : Option Store) (r : Request) (s : String)
    (hauth : route.Pattern.Auth = Disable) :
    serve env h pattern route lim rds { r with sig := s } =
      serve env h pattern route lim rds r := by
  have ha : admission h lim { r with sig := s } = admission h lim r := rfl
  have ht : transport h { r with sig := s } = transport h r := rfl
  simp only [serve, ha, ht, serveAdmitted_sig env h pattern route _ rds r _ _ s hauth]

/-- C13: on a route with auth disabled, the whole outcome of the closure (the
response, the trace of cache and handler calls with their arguments, the
registry and the store) is the same for two requests that differ only in the
`Content-Sign` header; the trace holds no call of `token.Decode`,
`cipher.CheckSign` or `cipher.Sign`; and the response carries no `Content-Sign`
header. -/
theorem unauthenticated_route_ignores_signature (env : Env) (h : Server) (pattern : String)
    (route : Route) (lim : iPRateLimiter) (rds : Option Store) (r : Request)
    (s1 s2 : String) (hauth : route.Pattern.Auth = Disable) :
    serve env h pattern route lim rds { r with sig := s1 } =
        serve env h pattern route lim rds { r with sig := s2 } ∧
      (∀ e ∈ (serve env h pattern route lim rds r).trace, e.isVerify = false) ∧
      (serve env h pattern route lim rds r).hasHeader contentSign = false := by
  refine ⟨by rw [serve_sig env h pattern route lim rds r s1 hauth,
    serve_sig env h pattern route lim rds r s2 hauth], ?_⟩
  rcases serve_cases env h pattern route lim rds r with ⟨hdr, paramByte, userAuth, hg⟩ | hearly
  · rw [serve_of_reaches env h pattern route lim rds r hdr paramByte userAuth hg]
    exact serveDecoded_no_auth env pattern route _ rds r hdr _ paramByte userAuth hauth
      (transport_has h r hdr false hg.1.2.1) (admission_no_verify h lim r)
  · obtain ⟨htr, _, hresp⟩ := hearly
    refine ⟨by rw [htr]; exact admission_no_verify h lim r, ?_⟩
    rcases hresp with hnone | ⟨hdr, ht, hr⟩ | ⟨hdr, msg, code, hh, _, hr⟩
    · simp [Outcome.hasHeader, hnone]
    · simp [Outcome.hasHeader, hr, transport_has h r hdr true ht]
    · simp only [Outcome.hasHeader, hr, httpError_has]
      rcases hh with hh | hh
      · rw [hh]
        rfl
      · exact transport_has h r hdr false hh

/-- On the route `/echo` with auth disabled, the request of the scenario gets the
same outcome with a forged signature as with none, and its response carries no
`Content-Sign` header. -/
theorem unauthenticated_route_ignores_signature_witness :
    openRoute.Pattern.Auth = Disable ∧
      (serve demoEnv demoServer "/open" openRoute emptyLimiter (some emptyStore)
        { echoRequest with sig := "forged" }).status = 200 ∧
      (serve demoEnv demoServer "/open" openRoute emptyLimiter (some emptyStore)
        echoRequest).hasHeader contentSign = false :=
  ⟨rfl, by decide,
    (unauthenticated_route_ignores_signature demoEnv demoServer "/open" openRoute emptyLimiter
      (some emptyStore) echoRequest "forged" "" rfl).2.2⟩

/-! ### Dispatch and response formatting -/

theorem serve_of_dispatch (env : Env) (h : Server) (pattern : String) (route : Route)
    (lim : iPRateLimiter) (rds : Option Store) (r : Request) (hdr : Header)
    (paramByte : Bytes) (userAuth : auth) (idn : Identity)
    (hd : ReachesDispatch env h pattern route lim rds r hdr paramByte userAuth idn) :
    serve env h pattern route lim rds r =
      { resp := some (format env pattern route rds hdr userAuth paramByte idn.ak
          (dispatch env route r idn paramByte).1).1,
        trace := (admission h lim r).2.1 ++
          (authenticate env pattern route r.sig paramByte userAuth).2 ++
          (cacheProbe env pattern route rds hdr userAuth paramByte idn.ak).2 ++
          (dispatch env route r idn paramByte).2 ++
          (format env pattern route rds hdr userAuth paramByte idn.ak
            (dispatch env route r idn paramByte).1).2.1,
        limiter := (admission h lim r).1,
        redis := (format env pattern route rds hdr userAuth paramByte idn.ak
          (dispatch env route r idn paramByte).1).2.2 } := by
  rw [serve_of_reaches env h pattern route lim rds r hdr paramByte userAuth hd.1]
  simp only [serveDecoded, hd.2.1, hd.2.2]

/-- C14: for a request that reaches dispatch and whose handler returns an error,
the status is 500 exactly when the route is raw-output; on a route that is not
raw-output the status is 200 and the body is the serialized envelope whose
state is the error text of the handler and whose data is nil. The hypothesis
`hm` names the bytes that `json.Marshal` returns for that envelope, on which it
cannot fail. -/
theorem handler_error_response (env : Env) (h : Server) (pattern : String) (route : Route)
    (lim : iPRateLimiter) (rds : Option Store) (r : Request) (hdr : Header)
    (paramByte : Bytes) (userAuth : auth) (idn : Identity) (result : Value) (err : String)
    (jsonBytes : Bytes)
    (hd : ReachesDispatch env h pattern route lim rds r hdr paramByte userAuth idn)
    (hh : (dispatch env route r idn paramByte).1 = (result, some err))
    (hm : env.marshal { Version := route.Pattern.Version, State := err, Data := Value.nil } =
      .ok jsonBytes) :
    ((serve env h pattern route lim rds r).status = StatusInternalServerError ↔
        route.Pattern.General = Enable) ∧
      (route.Pattern.General ≠ Enable →
        (serve env h pattern route lim rds r).status = StatusOK ∧
          (serve env h pattern route lim rds r).body = jsonBytes) := by
  rw [serve_of_dispatch env h pattern route lim rds r hdr paramByte userAuth idn hd, hh]
  by_cases hgen : route.Pattern.General = Enable
  · simp [Outcome.status, format, hgen, httpError]
  · have henv : (envelope env pattern route rds userAuth paramByte (result, some err)).1 =
        .ok jsonBytes := by
      simp [envelope, hm]
    by_cases hauth : route.Pattern.Auth = Enable
    · simp [Outcome.status, Outcome.body, format, hgen, henv, hauth, StatusOK,
        StatusInternalServerError]
    · simp [Outcome.status, Outcome.body, format, hgen, henv, hauth, StatusOK,
        StatusInternalServerError]

/-- On the route `/echo` with a handler that fails with `boom`, the request of
the scenario reaches dispatch and is answered 200 with the envelope whose state
is `boom` and whose data is null. -/
theorem handler_error_response_witness :
    ReachesDispatch demoEnv demoServer "/echo" failingRoute emptyLimiter (some emptyStore)
        echoRequest [] echoBody echoAuth echoIdentity ∧
      (serve demoEnv demoServer "/echo" failingRoute emptyLimiter (some emptyStore)
        echoRequest).status = 200 ∧
      (serve demoEnv demoServer "/echo" failingRoute emptyLimiter (some emptyStore)
        echoRequest).body = failingResponse :=
  ⟨by decide,
    (handler_error_response demoEnv demoServer "/echo" failingRoute emptyLimiter
      (some emptyStore) echoRequest [] echoBody echoAuth echoIdentity Value.nil "boom"
      failingResponse (by decide) rfl (by decide)).2 (by decide)⟩

/-- C15: on a raw-output route, a request that reaches dispatch and whose handler
returns no error and a result that is neither nil nor a byte slice is answered
500, and nothing is written to the cache, whether or not the route is
cacheable. -/
theorem raw_non_bytes_is_internal_error (env : Env) (h : Server) (pattern : String)
    (route : Route) (lim : iPRateLimiter) (rds : Option Store) (r : Request) (hdr : Header)
    (paramByte : Bytes) (userAuth : auth) (idn : Identity) (v : Json)
    (hgen : route.Pattern.General = Enable)
    (hd : ReachesDispatch env h pattern route lim rds r hdr paramByte userAuth idn)
    (hh : (dispatch env route r idn paramByte).1 = (Value.other v, none)) :
    (serve env h pattern route lim rds r).status = StatusInternalServerError ∧
      (∀ e ∈ (serve env h pattern route lim rds r).trace, e.isCacheSet = false) ∧
      (serve env h pattern route lim rds r).redis = rds := by
  rw [serve_of_dispatch env h pattern route lim rds r hdr paramByte userAuth idn hd, hh]
  have hf : format env pattern route rds hdr userAuth paramByte idn.ak (Value.other v, none) =
      (httpError hdr (env.fmtValue (.other v) ++ " is not []byte or []uint8")
        StatusInternalServerError, [], rds) := by
    simp [format, hgen]
  simp only [hf, List.append_nil]
  refine ⟨rfl, ?_, trivial⟩
  intro e he
  simp only [List.mem_append] at he
  rcases he with ((he | he) | he) | he
  · exact admission_no_set h lim r e he
  · exact authenticate_no_set env pattern route r.sig paramByte userAuth e he
  · exact cacheProbe_no_set env pattern route rds hdr userAuth paramByte idn.ak e he
  · exact dispatch_no_set env route r idn paramByte e he

/-- On a cacheable raw-output route whose handler returns a text, the request of
the scenario reaches dispatch and is answered 500, and the store stays empty. -/
theorem raw_non_bytes_is_internal_error_witness :
    ReachesDispatch demoEnv demoServer "/raw" rawTextRoute emptyLimiter (some emptyStore)
        echoRequest [] echoBody echoAuth echoIdentity ∧
      rawTextRoute.Pattern.Cache = Enable ∧
      (serve demoEnv demoServer "/raw" rawTextRoute emptyLimiter (some emptyStore)
        echoRequest).status = 500 :=
  ⟨by decide, rfl,
    (raw_non_bytes_is_internal_error demoEnv demoServer "/raw" rawTextRoute emptyLimiter
      (some emptyStore) echoRequest [] echoBody echoAuth echoIdentity (Json.text "hi") rfl
      (by decide) rfl).1⟩

/-- C17: on a route that is not raw-output, a request that reaches dispatch on a
cache miss and whose handler returns the payload `p` without error, where the
envelope serializes to `jsonBytes`, is answered 200 with `jsonBytes`, the
serialization of the envelope with the version of the route, the state `OK` and
the data `p`. -/
theorem handler_success_envelope (env : Env) (h : Server) (pattern : String) (route : Route)
    (lim : iPRateLimiter) (rds : Option Store) (r : Request) (hdr : Header)
    (paramByte : Bytes) (userAuth : auth) (idn : Identity) (p : Value) (jsonBytes : Bytes)
    (hgen : route.Pattern.General = Disable)
    (hd : ReachesDispatch env h pattern route lim rds r hdr paramByte userAuth idn)
    (hh : (dispatch env route r idn paramByte).1 = (p, none))
    (hm : env.marshal { Version := route.Pattern.Version, State := "OK", Data := p } =
      .ok jsonBytes) :
    (serve env h pattern route lim rds r).status = StatusOK ∧
      (serve env h pattern route lim rds r).body = jsonBytes := by
  rw [serve_of_dispatch env h pattern route lim rds r hdr paramByte userAuth idn hd, hh]
  have henv : (envelope env pattern route rds userAuth paramByte (p, none)).1 =
      .ok jsonBytes := by
    unfold envelope
    by_cases hc : route.Pattern.Cache = Enable <;> simp [hm, hc]
  by_cases hauth : route.Pattern.Auth = Enable
  · simp [Outcome.status, Outcome.body, format, hgen, henv, hauth]
  · simp [Outcome.status, Outcome.body, format, hgen, henv, hauth]

/-- The scenario of the route `/echo`, version 1: the handler returns the object
with the field `msg` equal to `hi`, and the body of the response is the envelope
with version 1, state `OK` and that object as data. -/
theorem handler_success_envelope_witness :
    ReachesDispatch demoEnv demoServer "/echo" echoRoute emptyLimiter (some emptyStore)
        echoRequest [] echoBody echoAuth echoIdentity ∧
      (serve demoEnv demoServer "/echo" echoRoute emptyLimiter (some emptyStore)
        echoRequest).status = 200 ∧
      (serve demoEnv demoServer "/echo" echoRoute emptyLimiter (some emptyStore)
        echoRequest).body = echoResponse :=
  ⟨by decide,
    handler_success_envelope demoEnv demoServer "/echo" echoRoute emptyLimiter
      (some emptyStore) echoRequest [] echoBody echoAuth echoIdentity
      (Value.other (Json.obj [("msg", Json.text "hi")])) echoResponse rfl (by decide) rfl
      (by decide)⟩

theorem authenticate_ok_inv (env : Env) (pattern : String) (route : Route)
    (sig : String) (paramByte : Bytes) (userAuth : auth) (idn : Identity)
    (hauth : route.Pattern.Auth = Enable)
    (ha : (authenticate env pattern route sig paramByte userAuth).1 = .ok idn) :
    ∃ tk, env.tokenDecode userAuth.Token = some tk ∧
      idn = { tId := tk.Id, tSession := tk.session, ak := tk.accessKeyID } := by
  unfold authenticate at ha
  by_cases h2 : userAuth.Token = []
  · simp [hauth, h2] at ha
  · cases h3 : env.tokenDecode userAuth.Token with
    | none => simp [hauth, h2, h3] at ha
    | some tk =>
      cases h4 : env.checkSign sig paramByte tk.accessKeyID with
      | false => simp [hauth, h2, h3, h4] at ha
      | true =>
        simp [hauth, h2, h3, h4] at ha
        exact ⟨tk, rfl, ha.symm⟩

theorem cacheProbe_no_handler (env : Env) (pattern : String) (route : Route)
    (rds : Option Store) (hdr : Header) (userAuth : auth) (paramByte ak : Bytes) :
    ∀ e ∈ (cacheProbe env pattern route rds hdr userAuth paramByte ak).2,
      e.isHandler = false := by
  have hg := getCache_no_verify rds userAuth pattern paramByte
  unfold cacheProbe
  by_cases h1 : route.Pattern.Cache = Enable
  · simp only [h1, if_true]
    cases h2 : (getCache rds userAuth pattern paramByte).1 with
    | error err => exact fun e he => (hg e he).2
    | ok result =>
      by_cases h3 : route.Pattern.General = Enable
      · simp only [h3, if_true]
        exact fun e he => (hg e he).2
      · by_cases h4 : route.Pattern.Auth = Enable
        · simp only [h3, h4, if_false, if_true]
          intro e he
          rcases List.mem_append.mp he with he | he
          · exact (hg e he).2
          · simp at he
            subst he
            rfl
        · simp only [h3, h4, if_false]
          exact fun e he => (hg e he).2
  · simp [h1]

theorem format_no_handler (env : Env) (pattern : String) (route : Route) (rds : Option Store)
    (hdr : Header) (userAuth : auth) (paramByte ak : Bytes) (out : HandlerOut) :
    ∀ e ∈ (format env pattern route rds hdr userAuth paramByte ak out).2.1,
      e.isHandler = false := by
  have hc := fun res => cache_no_verify rds userAuth pattern paramByte res
  by_cases hgen : route.Pattern.General = Enable
  · simp only [format, hgen, if_true]
    cases herr : out.2 with
    | some err => simp
    | none =>
      cases hres : out.1 with
      | nil => simp
      | other v => simp
      | bytes res =>
        by_cases hcache : route.Pattern.Cache = Enable
        · simp only [hcache, if_true]
          exact fun e he => (hc res e he).2
        · simp [hcache]
  · simp only [format, hgen, if_false]
    have henv : ∀ e ∈ (envelope env pattern route rds userAuth paramByte out).2.2,
        e.isHandler = false := by
      unfold envelope
      cases herr : out.2 with
      | some err => simp
      | none =>
        by_cases hcache : route.Pattern.Cache = Enable
        · simp only [hcache, if_true]
          exact fun e he => (hc _ e he).2
        · simp [hcache]
    cases hE : (envelope env pattern route rds userAuth paramByte out).1 with
    | error err => exact henv
    | ok jsonBytes =>
      by_cases hauth : route.Pattern.Auth = Enable
      · simp only [hauth, if_true]
        intro e he
        rcases List.mem_append.mp he with he | he
        · exact henv e he
        · simp at he
          subst he
          rfl
      · simp only [hauth, if_false]
        exact henv

theorem dispatch_trace (env : Env) (route : Route) (r : Request) (idn : Identity)
    (paramByte : Bytes) :
    (dispatch env route r idn paramByte).2 =
      [if route.userAgentHandle.isSome then
          Event.userAgentHandle r.userAgent (env.sidToString idn.tId) paramByte
        else if route.sessionHandle.isSome then
          Event.sessionHandle (env.sidToString idn.tSession) paramByte
        else if route.ipHandle.isSome then
          Event.ipHandle r.realIp (env.sidToString idn.tId) paramByte
        else Event.handle (env.sidToString idn.tId) paramByte] := by
  unfold dispatch
  cases route.userAgentHandle <;> cases route.sessionHandle <;> cases route.ipHandle <;> rfl

/-- The result that `dispatch` hands on is what the one call it records
returned: the recorded handler applied to the recorded arguments. -/
theorem dispatch_returned (env : Env) (route : Route) (r : Request) (idn : Identity)
    (paramByte : Bytes) :
    ∃ call, (dispatch env route r idn paramByte).2 = [call] ∧
      call.returned route = some (dispatch env route r idn paramByte).1 := by
  unfold dispatch
  cases hu : route.userAgentHandle with
  | some f => exact ⟨_, rfl, by simp [Event.returned, hu]⟩
  | none =>
    cases hs : route.sessionHandle with
    | some f => exact ⟨_, rfl, by simp [Event.returned, hs]⟩
    | none =>
      cases hi : route.ipHandle with
      | some f => exact ⟨_, rfl, by simp [Event.returned, hi]⟩
      | none => exact ⟨_, rfl, by simp [Event.returned]⟩

theorem filter_isHandler_quiet (l : List Event) (hl : ∀ e ∈ l, e.isHandler = false) :
    l.filter Event.isHandler = [] := by
  rw [List.filter_eq_nil_iff]
  intro e he
  simp [hl e he]

/-- C19: for a request that reaches dispatch, the handler calls in the trace are
exactly one call: of the user-agent-aware handler with (user agent, identity id,
parameter bytes) if it is bound, else of the session-aware handler with
(session id, parameter bytes) if it is bound, else of the address-aware handler
with (client address, identity id, parameter bytes) if it is bound, else of the
default handler with (identity id, parameter bytes). What that handler returns
for those arguments is the result that the response and the store afterwards
are formatted from. The parameter bytes are the bytes acquired for the request,
the raw body unless the method is GET; on a route with auth enabled the
identity id and the session id are those of the decoded token, so the
session-aware handler gets the session id. -/
theorem exactly_one_handler (env : Env) (h : Server) (pattern : String) (route : Route)
    (lim : iPRateLimiter) (rds : Option Store) (r : Request) (hdr : Header)
    (paramByte : Bytes) (userAuth : auth) (idn : Identity)
    (hd : ReachesDispatch env h pattern route lim rds r hdr paramByte userAuth idn) :
    (serve env h pattern route lim rds r).trace.filter Event.isHandler =
        [if route.userAgentHandle.isSome then
            Event.userAgentHandle r.userAgent (env.sidToString idn.tId) paramByte
          else if route.sessionHandle.isSome then
            Event.sessionHandle (env.sidToString idn.tSession) paramByte
          else if route.ipHandle.isSome then
            Event.ipHandle r.realIp (env.sidToString idn.tId) paramByte
          else Event.handle (env.sidToString idn.tId) paramByte] ∧
      (∃ call out, (serve env h pattern route lim rds r).trace.filter Event.isHandler = [call] ∧
        call.returned route = some out ∧
        out =
          (match route.userAgentHandle, route.sessionHandle, route.ipHandle with
            | some f, _, _ => f r.userAgent (env.sidToString idn.tId) paramByte
            | none, some f, _ => f (env.sidToString idn.tSession) paramByte
            | none, none, some f => f r.realIp (env.sidToString idn.tId) paramByte
            | none, none, none => route.handle (env.sidToString idn.tId) paramByte) ∧
        (serve env h pattern route lim rds r).resp =
          some (format env pattern route rds hdr userAuth paramByte idn.ak out).1 ∧
        (serve env h pattern route lim rds r).redis =
          (format env pattern route rds hdr userAuth paramByte idn.ak out).2.2) ∧
      (r.Method ≠ "GET" → paramByte = r.body) ∧
      (route.Pattern.Auth = Enable →
        ∃ tk, env.tokenDecode userAuth.Token = some tk ∧ idn.tId = tk.Id ∧
          idn.tSession = tk.session) := by
  have hfilter : (serve env h pattern route lim rds r).trace.filter Event.isHandler =
      (dispatch env route r idn paramByte).2 := by
    rw [serve_of_dispatch env h pattern route lim rds r hdr paramByte userAuth idn hd]
    simp only [List.filter_append]
    rw [filter_isHandler_quiet _ (fun e he => (admission_trace_quiet h lim r e he).2),
      filter_isHandler_quiet _
        (fun e he => (authenticate_trace_quiet env pattern route r.sig paramByte userAuth e he).2),
      filter_isHandler_quiet _
        (cacheProbe_no_handler env pattern route rds hdr userAuth paramByte idn.ak),
      filter_isHandler_quiet _
        (format_no_handler env pattern route rds hdr userAuth paramByte idn.ak _)]
    simp only [List.nil_append, List.append_nil]
    rw [dispatch_trace]
    simp only [List.filter_cons, List.filter_nil]
    split_ifs <;> first | rfl | simp_all [Event.isHandler]
  refine ⟨?_, ?_, ?_, ?_⟩
  · rw [hfilter, dispatch_trace]
  · obtain ⟨call, hcall, hret⟩ := dispatch_returned env route r idn paramByte
    refine ⟨call, (dispatch env route r idn paramByte).1, by rw [hfilter, hcall], hret, ?_, ?_, ?_⟩
    · unfold dispatch
      cases route.userAgentHandle <;> cases route.sessionHandle <;> cases route.ipHandle <;> rfl
    · rw [serve_of_dispatch env h pattern route lim rds r hdr paramByte userAuth idn hd]
    · rw [serve_of_dispatch env h pattern route lim rds r hdr paramByte userAuth idn hd]
  · intro hm
    have hr := hd.1.2.2.1.1
    unfold readParam at hr
    simp only [hm, if_false] at hr
    split_ifs at hr
    · cases hr
      rfl
  · intro hauth
    obtain ⟨tk, htk, hidn⟩ :=
      authenticate_ok_inv env pattern route r.sig paramByte userAuth idn hauth hd.2.1
    exact ⟨tk, htk, by rw [hidn], by rw [hidn]⟩

/-- On the route `/echo` with a session-aware handler bound, which answers with
the session it is given, the request of the scenario reaches dispatch; the only
handler call is that of the session-aware handler, with the session id 70 of
the token and the body; it returns the text 70, and the response is the
envelope formatted from that result. -/
theorem exactly_one_handler_witness :
    ReachesDispatch demoEnv demoServer "/echo" sessionRoute emptyLimiter (some emptyStore)
        echoRequest [] echoBody echoAuth echoIdentity ∧
      (serve demoEnv demoServer "/echo" sessionRoute emptyLimiter (some emptyStore)
        echoRequest).trace.filter Event.isHandler = [Event.sessionHandle "70" echoBody] ∧
      (∃ call out,
        (serve demoEnv demoServer "/echo" sessionRoute emptyLimiter (some emptyStore)
          echoRequest).trace.filter Event.isHandler = [call] ∧
        call.returned sessionRoute = some out ∧
        out = (Value.other (Json.text "70"), none) ∧
        (serve demoEnv demoServer "/echo" sessionRoute emptyLimiter (some emptyStore)
          echoRequest).resp =
            some (format demoEnv "/echo" sessionRoute (some emptyStore) [] echoAuth echoBody
              echoIdentity.ak out).1) ∧
      (serve demoEnv demoServer "/echo" sessionRoute emptyLimiter (some emptyStore)
        echoRequest).body = str "\x7b\"version\":1,\"state\":\"OK\",\"data\":\"70\"\x7d" := by
  have hclaim := exactly_one_handler demoEnv demoServer "/echo" sessionRoute emptyLimiter
    (some emptyStore) echoRequest [] echoBody echoAuth echoIdentity (by decide)
  obtain ⟨h1, ⟨call, out, h2, h3, h4, h5, _⟩, _, _⟩ := hclaim
  exact ⟨by decide, h1, ⟨call, out, h2, h3, h4, h5⟩, by decide⟩

/-! ### The user-agent gate -/

/-- C18: when the server requires a non-empty user agent `U` and the route has
the user-agent check enabled, a request with user agent `a` is rejected by the
gate exactly when `a` is not `dev tool` and `a` does not match `U`, where `a`
matches `U` when it equals `U` or, `U` ending with the marker `-*`, when it
starts with `U` without the marker; when `U` is empty or the check of the route
is disabled the gate never rejects; and a request that the gate rejects, once
admitted and past the transport policy, is answered 403. -/
theorem user_agent_gate (h : Server) (route : Route) (a : Bytes) :
    (h.UserAgent ≠ [] → route.Pattern.UserAgent = Enable →
        (userAgentRejected h route a = true ↔
          a ≠ str "dev tool" ∧ ¬ userAgentMatches a h.UserAgent)) ∧
      (h.UserAgent = [] ∨ route.Pattern.UserAgent ≠ Enable →
        userAgentRejected h route a = false) ∧
      (∀ (env : Env) (pattern : String) (lim : iPRateLimiter) (rds : Option Store)
          (r : Request) (hdr : Header),
        r.userAgent = a → (admission h lim r).2.2 = none →
        transport h r = some (hdr, false) → userAgentRejected h route a = true →
        (serve env h pattern route lim rds r).status = StatusForbidden) := by
  refine ⟨?_, ?_, ?_⟩
  · intro hU hR
    unfold userAgentRejected userAgentMatches
    simp only [hU, hR, ne_eq, not_false_eq_true, and_self, if_true]
    by_cases hdev : a = str "dev tool"
    · simp [hdev]
    · simp only [hdev, not_false_eq_true, if_true, true_and]
      by_cases hs : (str "-*").isSuffixOf h.UserAgent = true
      · have hs2 : str "-*" <:+ h.UserAgent := List.isSuffixOf_iff_suffix.mp hs
        simp only [hs, if_true, hs2, true_and, Bool.not_eq_true', ← Bool.not_eq_true,
          List.isPrefixOf_iff_prefix]
        constructor
        · rintro hp (heq | hpre)
          · exact hp (heq ▸ List.take_prefix _ _)
          · exact hp hpre
        · intro hn hp
          exact hn (Or.inr hp)
      · have hs2 : ¬ str "-*" <:+ h.UserAgent :=
          fun hc => hs (List.isSuffixOf_iff_suffix.mpr hc)
        simp [hs, hs2]
  · intro hor
    unfold userAgentRejected
    rcases hor with hU | hR
    · simp [hU]
    · simp [hR]
  · intro env pattern lim rds r hdr ha hadm ht hrej
    have hs : serve env h pattern route lim rds r =
        serveAdmitted env h pattern route (admission h lim r).1 rds r hdr
          (admission h lim r).2.1 := by
      simp only [serve, hadm, ht]
    rw [hs]
    simp only [serveAdmitted, ha, hrej, if_true]
    rfl

/-- On a server that requires `app-*` and a route with the check enabled, the
user agent `app/1.0` passes the gate, `dev tool` passes it, and a browser is
rejected and answered 403. -/
theorem user_agent_gate_witness :
    userAgentRejected appServer checkedRoute (str "app/1.0") = false ∧
      userAgentRejected appServer checkedRoute (str "dev tool") = false ∧
      userAgentRejected appServer checkedRoute (str "Mozilla/5.0") = true ∧
      (serve demoEnv appServer "/echo" checkedRoute emptyLimiter (some emptyStore)
        browserRequest).status = 403 :=
  ⟨by decide, by decide, by decide,
    (user_agent_gate appServer checkedRoute (str "Mozilla/5.0")).2.2 demoEnv "/echo"
      emptyLimiter (some emptyStore) browserRequest [] rfl (by decide) (by decide)
      (by decide)⟩

/-! ### The signature of a response -/

theorem cacheProbe_hit_signed (env : Env) (pattern : String) (route : Route)
    (rds : Option Store) (hdr : Header) (userAuth : auth) (paramByte ak : Bytes)
    (hit : Response)
    (hauth : route.Pattern.Auth = Enable) (hgen : route.Pattern.General = Disable)
    (hp : (cacheProbe env pattern route rds hdr userAuth paramByte ak).1 = some hit) :
    hit.header.get contentSign = env.sign hit.body ak := by
  unfold cacheProbe at hp
  by_cases h1 : route.Pattern.Cache = Enable
  · simp only [h1, if_true] at hp
    cases h2 : (getCache rds userAuth pattern paramByte).1 with
    | error err => simp [h2] at hp
    | ok result =>
      simp only [h2, hgen, reduceCtorEq, if_false, hauth, if_true, Option.some.injEq] at hp
      rw [← hp]
      exact Header.get_set _ _ _
  · simp [h1] at hp

theorem format_signed (env : Env) (pattern : String) (route : Route) (rds : Option Store)
    (hdr : Header) (userAuth : auth) (paramByte ak : Bytes) (out : HandlerOut)
    (hauth : route.Pattern.Auth = Enable) (hgen : route.Pattern.General = Disable)
    (hok : (format env pattern route rds hdr userAuth paramByte ak out).1.status = StatusOK) :
    (format env pattern route rds hdr userAuth paramByte ak out).1.header.get contentSign =
      env.sign (format env pattern route rds hdr userAuth paramByte ak out).1.body ak := by
  simp only [format, hgen, reduceCtorEq, if_false, hauth, if_true] at hok ⊢
  cases hE : (envelope env pattern route rds userAuth paramByte out).1 with
  | error err =>
    simp only [hE, httpError] at hok
    exact absurd hok (by decide)
  | ok jsonBytes => exact Header.get_set _ _ _

/-- On a route that is not raw-output and has auth enabled, every response with
status 200 other than the answer to a preflight carries a `Content-Sign` value
equal to `cipher.Sign` of exactly the body bytes written, with the access key
of the token decoded from the request. -/
theorem success_response_is_signed (env : Env) (h : Server) (pattern : String)
    (route : Route) (lim : iPRateLimiter) (rds : Option Store) (r : Request)
    (hauth : route.Pattern.Auth = Enable) (hgen : route.Pattern.General = Disable)
    (hpre : ∀ hdr, transport h r ≠ some (hdr, true))
    (hok : (serve env h pattern route lim rds r).status = StatusOK) :
    ∃ paramByte userAuth tk,
      readParam env h pattern r = .ok paramByte ∧
      env.unmarshalAuth paramByte = .ok userAuth ∧
      env.tokenDecode userAuth.Token = some tk ∧
      (serve env h pattern route lim rds r).header contentSign =
        env.sign (serve env h pattern route lim rds r).body tk.accessKeyID := by
  rcases serve_cases env h pattern route lim rds r with ⟨hdr, paramByte, userAuth, hg⟩ | hearly
  · rw [serve_of_reaches env h pattern route lim rds r hdr paramByte userAuth hg] at hok ⊢
    cases ha : (authenticate env pattern route r.sig paramByte userAuth).1 with
    | error msg =>
      simp only [serveDecoded, ha, Outcome.status, httpError] at hok
      exact absurd hok (by decide)
    | ok idn =>
      obtain ⟨tk, htk, hidn⟩ :=
        authenticate_ok_inv env pattern route r.sig paramByte userAuth idn hauth ha
      refine ⟨paramByte, userAuth, tk, hg.2.2.1.1, hg.2.2.1.2.2, htk, ?_⟩
      have hak : idn.ak = tk.accessKeyID := by rw [hidn]
      rw [← hak]
      simp only [serveDecoded, ha] at hok ⊢
      cases hp : (cacheProbe env pattern route rds hdr userAuth paramByte idn.ak).1 with
      | some hit =>
        simp only [Outcome.header, Outcome.body]
        exact cacheProbe_hit_signed env pattern route rds hdr userAuth paramByte idn.ak hit
          hauth hgen hp
      | none =>
        simp only [hp, Outcome.status] at hok
        simp only [Outcome.header, Outcome.body]
        exact format_signed env pattern route rds hdr userAuth paramByte idn.ak _ hauth hgen hok
  · obtain ⟨_, _, hresp⟩ := hearly
    exfalso
    rcases hresp with hnone | ⟨hdr, ht, _⟩ | ⟨hdr, msg, code, _, hc, hr⟩
    · simp only [Outcome.status, hnone] at hok
      exact absurd hok (by decide)
    · exact hpre hdr ht
    · simp only [Outcome.status, hr, httpError] at hok
      exact hc hok

/-- The request of the scenario on the route `/echo` is not a preflight and is
answered 200; its response carries the signature of its body under the key of
the token `TOK`. -/
theorem success_response_is_signed_witness :
    (∀ hdr, transport demoServer echoRequest ≠ some (hdr, true)) ∧
      (serve demoEnv demoServer "/echo" echoRoute emptyLimiter (some emptyStore)
        echoRequest).status = StatusOK ∧
      (serve demoEnv demoServer "/echo" echoRoute emptyLimiter (some emptyStore)
        echoRequest).header contentSign = demoSign echoResponse (str "KEY") ∧
      ∃ paramByte userAuth tk,
        readParam demoEnv demoServer "/echo" echoRequest = .ok paramByte ∧
        demoEnv.unmarshalAuth paramByte = .ok userAuth ∧
        demoEnv.tokenDecode userAuth.Token = some tk ∧
        (serve demoEnv demoServer "/echo" echoRoute emptyLimiter (some emptyStore)
          echoRequest).header contentSign =
          demoEnv.sign (serve demoEnv demoServer "/echo" echoRoute emptyLimiter
            (some emptyStore) echoRequest).body tk.accessKeyID :=
  ⟨fun hdr => by simp [transport, demoServer], by decide, by decide,
    success_response_is_signed demoEnv demoServer "/echo" echoRoute emptyLimiter
      (some emptyStore) echoRequest rfl rfl (fun hdr => by simp [transport, demoServer])
      (by decide)⟩

/-- The answer to a preflight is neither served from the cache nor built from a
handler result: on the route `/echo`, a server in cross-origin mode answers a
preflight request with status 200 before any token is decoded, the trace holds
the admission check only, and the response carries no `Content-Sign` header. -/
theorem preflight_answer_is_unsigned :
    echoRoute.Pattern.Auth = Enable ∧ echoRoute.Pattern.General = Disable ∧
      (serve demoEnv webServer "/echo" echoRoute emptyLimiter (some emptyStore)
        preflightRequest).status = 200 ∧
      (serve demoEnv webServer "/echo" echoRoute emptyLimiter (some emptyStore)
        preflightRequest).hasHeader contentSign = false ∧
      (serve demoEnv webServer "/echo" echoRoute emptyLimiter (some emptyStore)
        preflightRequest).trace = [Event.limiterAllow "10.0.0.1"] := by
  refine ⟨rfl, rfl, by decide, by decide, by decide⟩

theorem Header.has_set_self (hdr : Header) (k v : String) : (hdr.set k v).has k = true := by
  simp [Header.has, Header.set]

theorem cacheProbe_hit_carries (env : Env) (pattern : String) (route : Route)
    (rds : Option Store) (hdr : Header) (userAuth : auth) (paramByte ak : Bytes)
    (hit : Response)
    (hauth : route.Pattern.Auth = Enable) (hgen : route.Pattern.General = Disable)
    (hp : (cacheProbe env pattern route rds hdr userAuth paramByte ak).1 = some hit) :
    hit.header.has contentSign = true := by
  unfold cacheProbe at hp
  by_cases h1 : route.Pattern.Cache = Enable
  · simp only [h1, if_true] at hp
    cases h2 : (getCache rds userAuth pattern paramByte).1 with
    | error err => simp [h2] at hp
    | ok result =>
      simp only [h2, hgen, reduceCtorEq, if_false, hauth, if_true, Option.some.injEq] at hp
      rw [← hp]
      exact Header.has_set_self _ _ _
  · simp [h1] at hp

theorem format_carries (env : Env) (pattern : String) (route : Route) (rds : Option Store)
    (hdr : Header) (userAuth : auth) (paramByte ak : Bytes) (out : HandlerOut)
    (hauth : route.Pattern.Auth = Enable) (hgen : route.Pattern.General = Disable)
    (hok : (format env pattern route rds hdr userAuth paramByte ak out).1.status = StatusOK) :
    (format env pattern route rds hdr userAuth paramByte ak out).1.header.has contentSign =
      true := by
  simp only [format, hgen, reduceCtorEq, if_false, hauth, if_true] at hok ⊢
  cases hE : (envelope env pattern route rds userAuth paramByte out).1 with
  | error err =>
    simp only [hE, httpError] at hok
    exact absurd hok (by decide)
  | ok jsonBytes => exact Header.has_set_self _ _ _

/-- C16: on a route that is not raw-output and has auth enabled, every response
with status 200 that is served from a cache hit or built from a handler result,
that is, written after the closure has asked the cache or called a handler,
carries a `Content-Sign` header, and its value is `cipher.Sign` of exactly the
body bytes written, with the access key of the token decoded from the request. -/
theorem served_response_is_signed (env : Env) (h : Server) (pattern : String)
    (route : Route) (lim : iPRateLimiter) (rds : Option Store) (r : Request)
    (hauth : route.Pattern.Auth = Enable) (hgen : route.Pattern.General = Disable)
    (hserved : ∃ e ∈ (serve env h pattern route lim rds r).trace,
      e.isCache = true ∨ e.isHandler = true)
    (hok : (serve env h pattern route lim rds r).status = StatusOK) :
    ∃ paramByte userAuth tk,
      readParam env h pattern r = .ok paramByte ∧
      env.unmarshalAuth paramByte = .ok userAuth ∧
      env.tokenDecode userAuth.Token = some tk ∧
      (serve env h pattern route lim rds r).hasHeader contentSign = true ∧
      (serve env h pattern route lim rds r).header contentSign =
        env.sign (serve env h pattern route lim rds r).body tk.accessKeyID := by
  rcases serve_cases env h pattern route lim rds r with ⟨hdr, paramByte, userAuth, hg⟩ | hearly
  · rw [serve_of_reaches env h pattern route lim rds r hdr paramByte userAuth hg] at hok ⊢
    cases ha : (authenticate env pattern route r.sig paramByte userAuth).1 with
    | error msg =>
      simp only [serveDecoded, ha, Outcome.status, httpError] at hok
      exact absurd hok (by decide)
    | ok idn =>
      obtain ⟨tk, htk, hidn⟩ :=
        authenticate_ok_inv env pattern route r.sig paramByte userAuth idn hauth ha
      refine ⟨paramByte, userAuth, tk, hg.2.2.1.1, hg.2.2.1.2.2, htk, ?_⟩
      have hak : idn.ak = tk.accessKeyID := by rw [hidn]
      rw [← hak]
      simp only [serveDecoded, ha] at hok ⊢
      cases hp : (cacheProbe env pattern route rds hdr userAuth paramByte idn.ak).1 with
      | some hit =>
        simp only [Outcome.header, Outcome.body, Outcome.hasHeader]
        exact ⟨cacheProbe_hit_carries env pattern route rds hdr userAuth paramByte idn.ak hit
            hauth hgen hp,
          cacheProbe_hit_signed env pattern route rds hdr userAuth paramByte idn.ak hit
            hauth hgen hp⟩
      | none =>
        simp only [hp, Outcome.status] at hok
        simp only [Outcome.header, Outcome.body, Outcome.hasHeader]
        exact ⟨format_carries env pattern route rds hdr userAuth paramByte idn.ak _ hauth hgen
            hok,
          format_signed env pattern route rds hdr userAuth paramByte idn.ak _ hauth hgen hok⟩
  · obtain ⟨htrace, _, _⟩ := hearly
    exfalso
    obtain ⟨e, he, hkind⟩ := hserved
    rw [htrace] at he
    obtain ⟨h1, h2⟩ := admission_trace_quiet h lim r e he
    rcases hkind with hk | hk
    · rw [h1] at hk; cases hk
    · rw [h2] at hk; cases hk

/-- The hypotheses of `served_response_is_signed` hold for the request of the
scenario on the route `/echo`: the closure asks the cache and calls the handler,
answers 200, and the response carries the signature of its body under the key
of the token `TOK`. -/
theorem served_response_is_signed_witness :
    (∃ e ∈ (serve demoEnv demoServer "/echo" echoRoute emptyLimiter (some emptyStore)
        echoRequest).trace, e.isCache = true ∨ e.isHandler = true) ∧
      (serve demoEnv demoServer "/echo" echoRoute emptyLimiter (some emptyStore)
        echoRequest).status = StatusOK ∧
      (serve demoEnv demoServer "/echo" echoRoute emptyLimiter (some emptyStore)
        echoRequest).body = echoResponse ∧
      (serve demoEnv demoServer "/echo" echoRoute emptyLimiter (some emptyStore)
        echoRequest).header contentSign = demoSign echoResponse (str "KEY") ∧
      ∃ paramByte userAuth tk,
        readParam demoEnv demoServer "/echo" echoRequest = .ok paramByte ∧
        demoEnv.unmarshalAuth paramByte = .ok userAuth ∧
        demoEnv.tokenDecode userAuth.Token = some tk ∧
        (serve demoEnv demoServer "/echo" echoRoute emptyLimiter (some emptyStore)
          echoRequest).hasHeader contentSign = true ∧
        (serve demoEnv demoServer "/echo" echoRoute emptyLimiter (some emptyStore)
          echoRequest).header contentSign =
          demoEnv.sign (serve demoEnv demoServer "/echo" echoRoute emptyLimiter
            (some emptyStore) echoRequest).body tk.accessKeyID :=
  ⟨⟨Event.handle "7" echoBody, by decide, Or.inr rfl⟩, by decide, by decide, by decide,
    served_response_is_signed demoEnv demoServer "/echo" echoRoute emptyLimiter
      (some emptyStore) echoRequest rfl rfl ⟨Event.handle "7" echoBody, by decide, Or.inr rfl⟩
      (by decide)⟩

/-! ### What the cache holds -/

theorem cache_trace_value (rds : Option Store) (userAuth : auth) (pattern : String)
    (param result : Bytes) (p2 : String) (k v : Bytes)
    (he : Event.cacheSet p2 k v ∈ (cache rds userAuth pattern param result).2) :
    v = result := by
  cases rds with
  | none => simp [cache] at he
  | some store =>
    rw [cache_trace] at he
    simp at he
    exact he.2.2

theorem format_set_value (env : Env) (pattern : String) (route : Route) (rds : Option Store)
    (hdr : Header) (userAuth : auth) (paramByte ak : Bytes) (out : HandlerOut)
    (p2 : String) (k v : Bytes)
    (he : Event.cacheSet p2 k v ∈
      (format env pattern route rds hdr userAuth paramByte ak out).2.1) :
    ((format env pattern route rds hdr userAuth paramByte ak out).1.status = StatusOK ∧
        (format env pattern route rds hdr userAuth paramByte ak out).1.body = v) ∨
      (route.Pattern.General ≠ Enable ∧
        (∃ err,
          env.marshal { Version := route.Pattern.Version, State := "OK", Data := out.1 } =
            .error err) ∧
        v = [] ∧
        (format env pattern route rds hdr userAuth paramByte ak out).1.status =
          StatusInternalServerError) := by
  by_cases hgen : route.Pattern.General = Enable
  · left
    simp only [format, hgen, if_true] at he ⊢
    cases herr : out.2 with
    | some err => simp [herr] at he
    | none =>
      simp only [herr] at he ⊢
      cases hres : out.1 with
      | nil => simp [hres] at he
      | other j => simp [hres] at he
      | bytes res =>
        simp only [hres] at he ⊢
        by_cases hc : route.Pattern.Cache = Enable
        · simp only [hc, if_true] at he ⊢
          exact ⟨trivial, (cache_trace_value rds userAuth pattern paramByte res p2 k v he).symm⟩
        · simp [hc] at he
  · simp only [format, hgen, if_false] at he ⊢
    have hin : Event.cacheSet p2 k v ∈
        (envelope env pattern route rds userAuth paramByte out).2.2 := by
      cases hE : (envelope env pattern route rds userAuth paramByte out).1 with
      | error err => simpa [hE] using he
      | ok jsonBytes =>
        by_cases ha : route.Pattern.Auth = Enable
        · simp only [hE, ha, if_true, List.mem_append, List.mem_singleton] at he
          rcases he with he | he
          · exact he
          · cases he
        · simpa [hE, ha] using he
    have hcs : route.Pattern.Cache = Enable ∧ out.2 = none :=
      envelope_set env pattern route rds userAuth paramByte out ⟨_, hin, rfl⟩
    cases hm :
        env.marshal { Version := route.Pattern.Version, State := "OK", Data := out.1 } with
    | error err =>
      right
      have hE : envelope env pattern route rds userAuth paramByte out =
          (.error err, (cache rds userAuth pattern paramByte []).1,
            (cache rds userAuth pattern paramByte []).2) := by
        simp [envelope, hcs.1, hcs.2, hm]
      rw [hE] at hin
      refine ⟨hgen, ⟨err, rfl⟩, cache_trace_value rds userAuth pattern paramByte [] p2 k v hin,
        ?_⟩
      simp [hE, httpError]
    | ok jsonBytes =>
      left
      have hE : envelope env pattern route rds userAuth paramByte out =
          (.ok jsonBytes, (cache rds userAuth pattern paramByte jsonBytes).1,
            (cache rds userAuth pattern paramByte jsonBytes).2) := by
        simp [envelope, hcs.1, hcs.2, hm]
      rw [hE] at hin
      have hv := cache_trace_value rds userAuth pattern paramByte jsonBytes p2 k v hin
      by_cases ha : route.Pattern.Auth = Enable
      · simp [hE, ha, hv]
      · simp [hE, ha, hv]

/-- The bytes of a cache write are the body of the response with status 200
written for the same request, except on a route that is not raw-output when
`json.Marshal` fails: then nil bytes are written to the cache and the request
is answered 500. -/
theorem cache_write_is_served_or_unserialized (env : Env) (h : Server) (pattern : String)
    (route : Route) (lim : iPRateLimiter) (rds : Option Store) (r : Request)
    (p2 : String) (k v : Bytes)
    (he : Event.cacheSet p2 k v ∈ (serve env h pattern route lim rds r).trace) :
    ((serve env h pattern route lim rds r).status = StatusOK ∧
        (serve env h pattern route lim rds r).body = v) ∨
      (route.Pattern.General ≠ Enable ∧ v = [] ∧
        (serve env h pattern route lim rds r).status = StatusInternalServerError) := by
  rcases serve_cases env h pattern route lim rds r with ⟨hdr, paramByte, userAuth, hg⟩ | hearly
  · rw [serve_of_reaches env h pattern route lim rds r hdr paramByte userAuth hg] at he ⊢
    have hna := authenticate_no_set env pattern route r.sig paramByte userAuth
    have hadm := admission_no_set h lim r
    unfold serveDecoded at he ⊢
    cases ha : (authenticate env pattern route r.sig paramByte userAuth).1 with
    | error msg =>
      simp only [ha, List.mem_append] at he
      rcases he with he | he
      · exact absurd (hadm _ he) (by simp [Event.isCacheSet])
      · exact absurd (hna _ he) (by simp [Event.isCacheSet])
    | ok idn =>
      have hnp := cacheProbe_no_set env pattern route rds hdr userAuth paramByte idn.ak
      have hnd := dispatch_no_set env route r idn paramByte
      simp only [ha] at he ⊢
      cases hp : (cacheProbe env pattern route rds hdr userAuth paramByte idn.ak).1 with
      | some hit =>
        simp only [hp, List.mem_append] at he
        rcases he with (he | he) | he
        · exact absurd (hadm _ he) (by simp [Event.isCacheSet])
        · exact absurd (hna _ he) (by simp [Event.isCacheSet])
        · exact absurd (hnp _ he) (by simp [Event.isCacheSet])
      | none =>
        simp only [hp, List.mem_append] at he ⊢
        rcases he with (((he | he) | he) | he) | he
        · exact absurd (hadm _ he) (by simp [Event.isCacheSet])
        · exact absurd (hna _ he) (by simp [Event.isCacheSet])
        · exact absurd (hnp _ he) (by simp [Event.isCacheSet])
        · exact absurd (hnd _ he) (by simp [Event.isCacheSet])
        · rcases format_set_value env pattern route rds hdr userAuth paramByte idn.ak _ p2 k v
            he with hl | ⟨h1, _, h3, h4⟩
          · exact Or.inl hl
          · exact Or.inr ⟨h1, h3, h4⟩
  · obtain ⟨htr, _, _⟩ := hearly
    rw [htr] at he
    exact absurd (admission_no_set h lim r _ he) (by simp [Event.isCacheSet])

/-- C20, the code at the failing input: on a cacheable enveloped route whose
handler succeeds with a result that `json.Marshal` rejects, the closure writes
nil bytes to the cache under the key of the request and answers 500 with an
error text: the bytes stored are not the body of a success response written
for that request, and the store holds them afterwards. -/
theorem cache_stores_unserved_bytes :
    Event.cacheSet "/nan" echoKey [] ∈ nanFirst.trace ∧
      nanFirst.status = 500 ∧
      nanFirst.body ≠ [] ∧
      nanFirst.stored "/nan" echoKey = some [] := by
  refine ⟨by decide, by decide, by decide, by decide⟩

/-! ### The default configuration -/

/-- The defaults that `Run` does apply: the address, the two size limits, the
rate and the burst get their default when left out and keep a configured value;
the write timeout is never changed; the read timeout becomes 5 when it or the
write timeout was left out, and keeps its value otherwise. -/
theorem configured_fields (h : Server) :
    h.configured.Addr = (if h.Addr = "" then ":80" else h.Addr) ∧
      h.configured.MaxPayloadBytes =
        (if h.MaxPayloadBytes = 0 then 1048576 else h.MaxPayloadBytes) ∧
      h.configured.MaxHeaderBytes =
        (if h.MaxHeaderBytes = 0 then 1048576 else h.MaxHeaderBytes) ∧
      h.configured.Rate = (if h.Rate = 0 then 10 else h.Rate) ∧
      h.configured.Burst = (if h.Burst = 0 then 15 else h.Burst) ∧
      h.configured.WriteTimeout = h.WriteTimeout ∧
      h.configured.ReadTimeout =
        (if h.ReadTimeout = 0 ∨ h.WriteTimeout = 0 then 5 else h.ReadTimeout) := by
  unfold Server.configured
  by_cases h1 : h.Addr = "" <;> by_cases h2 : h.MaxPayloadBytes = 0 <;>
    by_cases h3 : h.MaxHeaderBytes = 0 <;> by_cases h4 : h.Rate = 0 <;>
    by_cases h5 : h.Burst = 0 <;> by_cases h6 : h.ReadTimeout = 0 <;>
    by_cases h7 : h.WriteTimeout = 0 <;> simp [h1, h2, h3, h4, h5, h6, h7]

/-- C21, the code at the failing input: for a configuration that sets a read
timeout of 30 seconds and leaves the write timeout out, the test of line 200
assigns the default to `ReadTimeout` instead of `WriteTimeout`: the configured
read timeout is replaced by 5 and the write timeout stays 0, so the
`http.Server` is started with a read timeout of 5 seconds and no write timeout;
the other fields that were left out get their defaults. -/
theorem write_timeout_default_hits_read_timeout :
    readOnlyConfig.ReadTimeout = 30 ∧ readOnlyConfig.WriteTimeout = 0 ∧
      readOnlyConfig.configured.ReadTimeout = 5 ∧
      readOnlyConfig.configured.WriteTimeout = 0 ∧
      readOnlyConfig.httpServer =
        { Addr := ":80", ReadTimeout := 5 * second, WriteTimeout := 0,
          MaxHeaderBytes := 1048576 } ∧
      readOnlyConfig.configured.MaxPayloadBytes = 1048576 ∧
      readOnlyConfig.configured.Rate = 10 ∧ readOnlyConfig.configured.Burst = 15 := by
  refine ⟨rfl, rfl, by decide, by decide, by decide, by decide, by decide, by decide⟩

/-! ### The round trip of a raw-output route -/

theorem serveDecoded_raw_miss (env : Env) (pattern : String) (route : Route)
    (lim : iPRateLimiter) (store : Store) (r : Request) (hdr : Header) (tr : List Event)
    (paramByte : Bytes) (userAuth : auth) (idn : Identity) (res : Bytes)
    (hcache : route.Pattern.Cache = Enable) (hgen : route.Pattern.General = Enable)
    (hup : store.up = true)
    (ha : (authenticate env pattern route r.sig paramByte userAuth).1 = .ok idn)
    (hmiss : store.data pattern (cacheKey userAuth paramByte) = none)
    (hh : (dispatch env route r idn paramByte).1 = (Value.bytes res, none)) :
    (serveDecoded env pattern route lim (some store) r hdr tr paramByte userAuth).resp =
        some { status := StatusOK,
               header := if route.ContentType ≠ "" then
                   hdr.set "Content-Type" route.ContentType else hdr,
               body := res } ∧
      (serveDecoded env pattern route lim (some store) r hdr tr paramByte userAuth).redis =
        some { store with data := fun p k =>
                if p = pattern ∧ k = cacheKey userAuth paramByte then some res
                else store.data p k } := by
  have hprobe : (cacheProbe env pattern route (some store) hdr userAuth paramByte idn.ak).1 =
      none := by
    simp [cacheProbe, hcache, getCache_eq, Store.HGet, hup, hmiss]
  simp only [serveDecoded, ha, hprobe, hh, format, hgen, if_true, hcache,
    cache_store _ _ _ _ _ hup]
  exact ⟨trivial, trivial⟩

theorem serveDecoded_raw_hit (env : Env) (pattern : String) (route : Route)
    (lim : iPRateLimiter) (store : Store) (r : Request) (hdr : Header) (tr : List Event)
    (paramByte : Bytes) (userAuth : auth) (idn : Identity) (result : Bytes)
    (hcache : route.Pattern.Cache = Enable) (hgen : route.Pattern.General = Enable)
    (hup : store.up = true)
    (ha : (authenticate env pattern route r.sig paramByte userAuth).1 = .ok idn)
    (hhit : store.data pattern (cacheKey userAuth paramByte) = some result) :
    (serveDecoded env pattern route lim (some store) r hdr tr paramByte userAuth).resp =
      some { status := StatusOK, header := hdr, body := result } := by
  have hprobe : (cacheProbe env pattern route (some store) hdr userAuth paramByte idn.ak).1 =
      some { status := StatusOK, header := hdr, body := result } := by
    simp [cacheProbe, hcache, getCache_eq, Store.HGet, hup, hhit, hgen]
  simp only [serveDecoded, ha, hprobe]

/-- The round trip of a cacheable raw-output route on an available store: when a
first request misses the cache and its handler succeeds with the bytes `res`,
the response is 200 with `res`, on the headers of the transport policy with the
declared content type set if there is one; a later request with the same key
that passes all gates, served on the store the first one left, is answered 200
with `res` on the headers of the transport policy alone: the closure sets no
content type on a hit. -/
theorem raw_round_trip (env : Env) (h : Server) (pattern : String) (route : Route)
    (lim1 lim2 : iPRateLimiter) (store : Store) (r1 r2 : Request) (hdr1 hdr2 : Header)
    (p1 p2 : Bytes) (u1 u2 : auth) (idn1 idn2 : Identity) (res : Bytes)
    (hcache : route.Pattern.Cache = Enable) (hgen : route.Pattern.General = Enable)
    (hup : store.up = true)
    (hg1 : ReachesAuthentication env h pattern route lim1 r1 hdr1 p1 u1)
    (ha1 : (authenticate env pattern route r1.sig p1 u1).1 = .ok idn1)
    (hmiss : store.data pattern (cacheKey u1 p1) = none)
    (hh : (dispatch env route r1 idn1 p1).1 = (Value.bytes res, none))
    (hg2 : ReachesAuthentication env h pattern route lim2 r2 hdr2 p2 u2)
    (ha2 : (authenticate env pattern route r2.sig p2 u2).1 = .ok idn2)
    (hkey : cacheKey u2 p2 = cacheKey u1 p1) :
    (serve env h pattern route lim1 (some store) r1).resp =
        some { status := StatusOK,
               header := if route.ContentType ≠ "" then
                   hdr1.set "Content-Type" route.ContentType else hdr1,
               body := res } ∧
      (serve env h pattern route lim2 (serve env h pattern route lim1 (some store) r1).redis
        r2).resp = some { status := StatusOK, header := hdr2, body := res } := by
  obtain ⟨s1, s2⟩ := serveDecoded_raw_miss env pattern route (admission h lim1 r1).1
    store r1 hdr1 (admission h lim1 r1).2.1 p1 u1 idn1 res hcache hgen hup ha1 hmiss hh
  rw [← serve_of_reaches env h pattern route lim1 (some store) r1 hdr1 p1 u1 hg1] at s1 s2
  refine ⟨s1, ?_⟩
  rw [s2, serve_of_reaches env h pattern route lim2 _ r2 hdr2 p2 u2 hg2]
  exact serveDecoded_raw_hit env pattern route _ _ r2 hdr2 _ p2 u2 idn2 res hcache hgen hup
    ha2 (by simp [hkey])

/-- C22, the code at the failing input: on a cacheable raw-output route that
declares the content type `application/json`, the first request misses the
cache, its handler returns the bytes of a JSON document, and the response is
200 with these bytes and the header `Content-Type: application/json`; the same
request again is answered from the cache, without any handler, with status 200
and the same bytes, but the closure sets no `Content-Type` header, so the
client receives the type that `net/http` sniffs from the body, `text/plain`,
and not the declared one. -/
theorem raw_hit_loses_content_type :
    jsonBytesRoute.Pattern.Cache = Enable ∧ jsonBytesRoute.Pattern.General = Enable ∧
      jsonBytesRoute.ContentType = "application/json" ∧
      rawFirst.trace.filter Event.isHandler = [Event.handle "7" echoBody] ∧
      rawFirst.status = 200 ∧ rawFirst.body = str "\x7b\"a\":1\x7d" ∧
      rawFirst.header "Content-Type" = "application/json" ∧
      rawSecond.trace.filter Event.isHandler = [] ∧
      rawSecond.status = 200 ∧ rawSecond.body = rawFirst.body ∧
      rawSecond.hasHeader "Content-Type" = false ∧
      rawFirst.wireContentType textDetect = "application/json" ∧
      rawSecond.wireContentType textDetect = "text/plain; charset=utf-8" := by
  refine ⟨rfl, rfl, rfl, ?_, ?_, ?_, ?_, ?_, ?_, ?_, ?_, ?_, ?_⟩ <;> decide

end HttpGateway
